import Mathlib

/-!
# denote-contacts: a verification development

A shallow embedding of the contact model (`internal/model/contact.go`), the
Denote file parser (`internal/parser/denote.go`) and the directory scan
(`internal/ui/commands.go`), followed by theorems about them.

Conventions of the embedding

* A Go `string` / `[]byte` holding text is the list of its code points
  (`Str`); the texts handled here are valid UTF-8, for which byte-wise
  search, split and comparison agree with their code-point counterparts.
* The texts the interface slices by bytes (search query, logging note, edit
  values) are held as their bytes (`Bytes`).  A save command that reads such
  a text into a contact decodes it; where the bytes are not valid UTF-8
  (Backspace has cut a rune in two) the code goes on with the bytes, which a
  contact held as `Str` cannot carry: the run then ends in
  `Fault.invalidUTF8`.  What is proved of the save commands is proved of the
  runs on valid text, and is stated so.
* Go `int` is `Int`; none of the arithmetic below can leave the 64-bit range.
* `time.Now()` is an explicit argument `now`.
* What the Go standard library or `yaml.v3` supplies (Unicode case table,
  YAML codec, `sort.Slice`) is a parameter of the function that calls it.
-/

namespace DenoteContacts

set_option maxRecDepth 8192

/-- A Go string, as the list of its code points. -/
abbrev Str := List Char

/-! ## `time.Time` and `time.Duration` -/

/-- Model of `time.Time`: the instant in nanoseconds since the Unix epoch and
the zone offset (seconds east of UTC) of its location.  Monotonic clock
readings are not modelled. -/
structure Time where
  unixNano : Int
  offset : Int
  deriving DecidableEq, Repr

/-- Nanoseconds in one hour (`time.Hour`). -/
def Hour : Int := 3600000000000

/-- The instant of the zero `time.Time`, January 1 of year 1, 00:00 UTC. -/
def zeroInstant : Int := -62135596800000000000

/-- Model of `Time.IsZero`: the instant is January 1, year 1, 00:00:00 UTC. -/
def Time.IsZero (t : Time) : Bool := decide (t.unixNano = zeroInstant)

/-- Smallest `time.Duration` (`-1 << 63`). -/
def minDuration : Int := -9223372036854775808

/-- Largest `time.Duration` (`1<<63 - 1`). -/
def maxDuration : Int := 9223372036854775807

/-- Model of `Time.Sub`: the difference in nanoseconds, saturated to the range
of `time.Duration`. -/
def Time.Sub (t u : Time) : Int :=
  let d := t.unixNano - u.unixNano
  if d < minDuration then minDuration
  else if maxDuration < d then maxDuration
  else d

/-- Model of `time.Since(t)` with the current time given. -/
def Since (now t : Time) : Int := now.Sub t

/-! ## `float64`, as far as `Duration.Hours() / 24` needs it -/

/-- A finite `float64` value, held exactly as the fraction `num / den`. -/
structure F64 where
  num : Int
  den : Nat
  deriving DecidableEq, Repr

/-- Worker of `bitLength`. -/
def bitLenAux : Nat → Nat → Nat
  | 0, _ => 0
  | f + 1, n => if n = 0 then 0 else bitLenAux f (n / 2) + 1

/-- Number of binary digits of `n` (0 for 0). -/
def bitLength (n : Nat) : Nat := bitLenAux n n

/-- Whether `a / d ≥ 2 ^ k`. -/
def geScaled (a d : Nat) (k : Int) : Bool :=
  if 0 ≤ k then decide (d * 2 ^ k.toNat ≤ a) else decide (d ≤ a * 2 ^ (-k).toNat)

/-- The binade of `a / d` for positive `a`, `d`: the `k` with
`2 ^ k ≤ a / d < 2 ^ (k + 1)`. -/
def binade (a d : Nat) : Int :=
  let k : Int := (bitLength a : Int) - (bitLength d : Int)
  if geScaled a d k then k else k - 1

/-- Nearest natural number to `n / d`, ties to even. -/
def roundHalfEven (n d : Nat) : Nat :=
  let q := n / d
  let r := n % d
  if 2 * r < d then q
  else if d < 2 * r then q + 1
  else if q % 2 = 0 then q else q + 1

/-- Round the fraction `n / d` to the nearest `float64` (53-bit significand,
round to nearest, ties to even).  Exponent overflow and subnormals are out of
reach of the values computed here and are not modelled. -/
def F64.round (n : Int) (d : Nat) : F64 :=
  if n = 0 ∨ d = 0 then ⟨0, 1⟩
  else
    let a := n.natAbs
    let s : Int := binade a d - 52
    let m : Nat :=
      if 0 ≤ s then roundHalfEven a (d * 2 ^ s.toNat)
      else roundHalfEven (a * 2 ^ (-s).toNat) d
    let sgn : Int := if n < 0 then -1 else 1
    if 0 ≤ s then ⟨sgn * m * 2 ^ s.toNat, 1⟩ else ⟨sgn * m, 2 ^ (-s).toNat⟩

/-- Conversion `float64(i)` of an integer. -/
def F64.ofInt (i : Int) : F64 := F64.round i 1

/-- Addition of two `float64` values. -/
def F64.add (x y : F64) : F64 :=
  F64.round (x.num * y.den + y.num * x.den) (x.den * y.den)

/-- Division of two `float64` values; the divisor is a non-zero constant at
every use. -/
def F64.div (x y : F64) : F64 :=
  F64.round (if y.num < 0 then -(x.num * y.den) else x.num * y.den) (x.den * y.num.natAbs)

/-- Conversion `int(f)`: truncation toward zero. -/
def F64.toInt (x : F64) : Int := Int.tdiv x.num x.den

/-- Model of `Duration.Hours`:
`float64(d / Hour) + float64(d % Hour) / (60 * 60 * 1e9)`. -/
def Hours (d : Int) : F64 :=
  let hour := Int.tdiv d Hour
  let nsec := Int.tmod d Hour
  F64.add (F64.ofInt hour) (F64.div (F64.ofInt nsec) (F64.ofInt 3600000000000))

/-! ## `internal/model/contact.go` -/

/-- The record `model.Contact`. -/
structure Contact where
  Title : Str
  Date : Time
  Tags : List Str
  Identifier : Str
  Email : Str
  Phone : Str
  RelationshipType : Str
  State : Str
  Label : Str
  ContactStyle : Str
  LastContacted : Option Time
  LastBumpDate : Option Time
  BumpCount : Int
  UpdatedAt : Time
  Company : Str
  Role : Str
  Location : Str
  Birthday : Str
  LinkedIn : Str
  Twitter : Str
  Website : Str
  Notes : Str
  CustomFrequencyDays : Int
  LastInteractionType : Str
  RelatedContactLabels : List Str
  FilePath : Str
  Content : Str
  deriving DecidableEq, Repr

/-- The `RelationshipType` constants. -/
def RelationshipClose : Str := "close".toList
def RelationshipFamily : Str := "family".toList
def RelationshipNetwork : Str := "network".toList
def RelationshipWork : Str := "work".toList
def RelationshipSocial : Str := "social".toList
def RelationshipProviders : Str := "providers".toList
def RelationshipRecruiters : Str := "recruiters".toList

/-- The `ContactStyle` constants. -/
def StylePeriodic : Str := "periodic".toList
def StyleAmbient : Str := "ambient".toList
def StyleTriggered : Str := "triggered".toList

/-- Method `Contact.GetFrequencyDays`: the contact frequency in days. -/
def GetFrequencyDays (c : Contact) : Int :=
  if c.CustomFrequencyDays > 0 then c.CustomFrequencyDays
  else if c.RelationshipType = RelationshipClose ∨ c.RelationshipType = RelationshipFamily then 30
  else if c.RelationshipType = RelationshipWork then 60
  else if c.RelationshipType = RelationshipNetwork then 90
  else 0

/-- Method `Contact.DaysSinceContact`: days since the last contact, `-1` when there
was none. -/
def DaysSinceContact (c : Contact) (now : Time) : Int :=
  match c.LastContacted with
  | none => -1
  | some t =>
    let duration := Since now t
    let days := (F64.div (Hours duration) (F64.ofInt 24)).toInt
    if duration < 0 then days else days

/-- Method `Contact.IsOverdue`: whether the contact is overdue for its frequency. -/
def IsOverdue (c : Contact) (now : Time) : Bool :=
  if c.ContactStyle ≠ StylePeriodic ∧ c.ContactStyle ≠ [] then false
  else
    let freq := GetFrequencyDays c
    if freq = 0 then false
    else
      let days := DaysSinceContact c now
      if days = -1 then true
      else decide (days > freq)

/-- Method `Contact.NeedsAttention`: whether the contact needs attention soon. -/
def NeedsAttention (c : Contact) (now : Time) : Bool :=
  if c.ContactStyle ≠ StylePeriodic ∧ c.ContactStyle ≠ [] then false
  else
    let freq := GetFrequencyDays c
    if freq = 0 then false
    else
      let days := DaysSinceContact c now
      if days = -1 then true
      else decide (days > freq - 7) && decide (days ≤ freq)

/-- Method `Contact.IsWithinThreshold`: whether the contact was contacted within
half its frequency. -/
def IsWithinThreshold (c : Contact) (now : Time) : Bool :=
  if c.ContactStyle ≠ StylePeriodic ∧ c.ContactStyle ≠ [] then false
  else
    let freq := GetFrequencyDays c
    if freq = 0 then false
    else
      let days := DaysSinceContact c now
      if days = -1 then false
      else decide (days ≥ 0) && decide (days ≤ Int.tdiv freq 2)

/-- The zero value `model.Contact{}`. -/
def zeroContact : Contact :=
  { Title := [], Date := ⟨zeroInstant, 0⟩, Tags := [], Identifier := [], Email := [],
    Phone := [], RelationshipType := [], State := [], Label := [], ContactStyle := [],
    LastContacted := none, LastBumpDate := none, BumpCount := 0,
    UpdatedAt := ⟨zeroInstant, 0⟩, Company := [], Role := [], Location := [],
    Birthday := [], LinkedIn := [], Twitter := [], Website := [], Notes := [],
    CustomFrequencyDays := 0, LastInteractionType := [], RelatedContactLabels := [],
    FilePath := [], Content := [] }

/-! ## Go standard library: `strings`, `bytes`, `path/filepath`, `time` formatting -/

/-- Model of `strings.HasPrefix`. -/
def HasPrefix : Str → Str → Bool
  | _, [] => true
  | [], _ :: _ => false
  | c :: s, d :: p => c == d && HasPrefix s p

/-- Model of `strings.HasSuffix`. -/
def HasSuffix (s suffix : Str) : Bool := HasPrefix s.reverse suffix.reverse

/-- Model of `strings.Index` / `bytes.Index`: position of the first
occurrence of `sep` in `s`, or `-1`. -/
def Index : Str → Str → Int
  | [], sep => if sep = [] then 0 else -1
  | c :: s, sep =>
    if HasPrefix (c :: s) sep then 0
    else
      let i := Index s sep
      if i < 0 then -1 else i + 1

/-- Model of `strings.Contains`. -/
def Contains (s substr : Str) : Bool := decide (Index s substr ≥ 0)

/-- Model of `strings.TrimSuffix`. -/
def TrimSuffix (s suffix : Str) : Str :=
  if HasSuffix s suffix then s.take (s.length - suffix.length) else s

/-- Worker of `SplitN`: cut at most `k` more times. -/
def splitLoop : Nat → Str → Str → List Str
  | 0, s, _ => [s]
  | k + 1, s, sep =>
    let m := Index s sep
    if m < 0 then [s]
    else s.take m.toNat :: splitLoop k (s.drop (m.toNat + sep.length)) sep

/-- Model of `bytes.SplitN(s, sep, n)` for `n ≥ 0` and a non-empty `sep`:
at most `n` pieces, the last one the unsplit remainder. -/
def SplitN (s sep : Str) (n : Nat) : List Str :=
  if n = 0 then []
  else splitLoop (min n (s.length + 1) - 1) s sep

/-- Model of `strings.ReplaceAll(s, old, new)` for an `old` of one rune, as at
every call site. -/
def ReplaceAll (s : Str) (old : Char) (new : Str) : Str :=
  s.flatMap (fun ch => if ch = old then new else [ch])

/-- Model of `unicode.ToLower`: ASCII letters are mapped directly, runes above
ASCII through the Unicode case table `table`. -/
def toLowerRune (table : Char → Char) (r : Char) : Char :=
  if r.toNat ≤ 127 then
    if 'A' ≤ r ∧ r ≤ 'Z' then Char.ofNat (r.toNat + 32) else r
  else table r

/-- Model of `strings.ToLower`. -/
def ToLower (table : Char → Char) (s : Str) : Str := s.map (toLowerRune table)

/-- Model of Go string comparison `a < b` (lexicographic). -/
def strLess : Str → Str → Bool
  | _, [] => false
  | [], _ :: _ => true
  | a :: s, b :: t => if a < b then true else if b < a then false else strLess s t

/-- Model of `filepath.Base` with separator `/`. -/
def Base (path : Str) : Str :=
  if path = [] then ".".toList
  else
    let stripped := (path.reverse.dropWhile (fun ch => ch == '/')).reverse
    let last := (stripped.reverse.takeWhile (fun ch => ch != '/')).reverse
    if last = [] then "/".toList else last

/-- Civil date `(year, month, day)` of the day number `z` counted from
1970-01-01, proleptic Gregorian calendar. -/
def civilFromDays (z : Int) : Int × Int × Int :=
  let z := z + 719468
  let era := z / 146097
  let doe := z - era * 146097
  let yoe := (doe - doe / 1460 + doe / 36524 - doe / 146096) / 365
  let doy := doe - (365 * yoe + yoe / 4 - yoe / 100)
  let mp := (5 * doy + 2) / 153
  let d := doy - (153 * mp + 2) / 5 + 1
  let m := if mp < 10 then mp + 3 else mp - 9
  (if m ≤ 2 then yoe + era * 400 + 1 else yoe + era * 400, m, d)

/-- Model of `Time.Date`: the civil date in the location of `t`. -/
def Time.Date (t : Time) : Int × Int × Int :=
  civilFromDays ((t.unixNano / 1000000000 + t.offset) / 86400)

/-- Model of `appendInt` of package `time`: sign, then the decimal digits
zero-padded to `width`. -/
def appendInt (x : Int) (width : Nat) : Str :=
  let digits := Nat.toDigits 10 x.natAbs
  (if x < 0 then ['-'] else []) ++ List.replicate (width - digits.length) '0' ++ digits

/-- Model of `Time.Format("20060102")`. -/
def Time.Format20060102 (t : Time) : Str :=
  let (y, m, d) := t.Date
  appendInt y 4 ++ appendInt m 2 ++ appendInt d 2

/-! ## `internal/parser/denote.go` -/

/-- What `gopkg.in/yaml.v3` supplies: `Marshal` of a contact and `Unmarshal`
of a header into a zero-valued contact; `none` is an error. -/
structure Yaml where
  Marshal : Contact → Option Str
  Unmarshal : Str → Option Contact

/-- The file system as the parser sees it: `files` is what `os.ReadFile`
returns (`none`: an error), `writable` whether `os.WriteFile` succeeds. -/
structure FS where
  files : Str → Option Str
  writable : Str → Bool

/-- Model of `os.WriteFile`. -/
def FS.WriteFile (fs : FS) (path data : Str) : Option FS :=
  if fs.writable path then
    some { fs with files := fun p => if p = path then some data else fs.files p }
  else none

/-- The errors of `ParseContactFile`, in the order of its checks. -/
inductive ParseError where
  | readFile
  | noFrontmatter
  | frontmatter
  | notContact
  deriving DecidableEq, Repr

/-- The errors of `SaveContactFile`. -/
inductive SaveError where
  | marshal
  | write
  deriving DecidableEq, Repr

/-- The frontmatter delimiter. -/
def delimiter : Str := "---\n".toList

/-- The reserved tag. -/
def contactTag : Str := "contact".toList

/-- Function `containsTag`: whether a tag exists in the tags slice. -/
def containsTag : List Str → Str → Bool
  | [], _ => false
  | t :: tags, tag => if t = tag then true else containsTag tags tag

/-- Function `sanitizeName`: keep only `a-z`, `0-9` and `-`. -/
def sanitizeName (name : Str) : Str :=
  name.filter (fun ch =>
    (decide ('a' ≤ ch) && decide (ch ≤ 'z')) || (decide ('0' ≤ ch) && decide (ch ≤ '9')) || ch == '-')

/-- Function `GenerateFilename`; `now` is the reading of `time.Now()` used when the
creation date is zero. -/
def GenerateFilename (table : Char → Char) (now : Time) (contact : Contact) : Str :=
  let date := if contact.Date.IsZero then now else contact.Date
  let identifier := date.Format20060102
  let name := ToLower table contact.Title
  let name := ReplaceAll name ' ' "-".toList
  let name := sanitizeName name
  identifier ++ "--".toList ++ name ++ "__contact.md".toList

/-- The last step of `ParseContactFile`: an identifier that is not set is
taken from the file name, up to its first `--`. -/
def deriveIdentifier (path : Str) (contact : Contact) : Contact :=
  if contact.Identifier = [] then
    let basename := TrimSuffix (Base path) ".md".toList
    let idx := Index basename "--".toList
    if idx ≥ 0 then { contact with Identifier := basename.take idx.toNat }
    else contact
  else contact

/-- Body of `ParseContactFile` from the split parts on: decode the header, check the
tag, set the runtime fields. -/
def parseParts (Y : Yaml) (path : Str) : List Str → Except ParseError Contact
  | _ :: header :: body :: _ =>
    match Y.Unmarshal header with
    | none => .error .frontmatter
    | some contact =>
      if !containsTag contact.Tags contactTag then .error .notContact
      else .ok (deriveIdentifier path { contact with FilePath := path, Content := body })
  | _ => .error .noFrontmatter

/-- Function `ParseContactFile`: read the file, split it on the delimiter, go on
with `parseParts`. -/
def ParseContactFile (Y : Yaml) (fs : FS) (path : Str) : Except ParseError Contact :=
  match fs.files path with
  | none => .error .readFile
  | some content => parseParts Y path (SplitN content delimiter 3)

/-- The contact as `SaveContactFile` encodes it: file path generated if
absent, `UpdatedAt` stamped. -/
def stamped (table : Char → Char) (nowName now : Time) (contact : Contact) : Contact :=
  let contact : Contact :=
    if contact.FilePath = [] then
      { contact with FilePath := GenerateFilename table nowName contact }
    else contact
  { contact with UpdatedAt := now }

/-- Function `SaveContactFile`; `nowName` and `now` are the two readings of
`time.Now()`, the first inside `GenerateFilename`. -/
def SaveContactFile (Y : Yaml) (table : Char → Char) (nowName now : Time) (fs : FS)
    (contact : Contact) : Except SaveError FS :=
  let contact := stamped table nowName now contact
  match Y.Marshal contact with
  | none => .error .marshal
  | some frontmatter =>
    let content := delimiter ++ frontmatter ++ delimiter ++ contact.Content
    match fs.WriteFile contact.FilePath content with
    | none => .error .write
    | some fs' => .ok fs'

/-! ## `internal/ui/commands.go`: the directory scan -/

/-- Outcome of `os.Stat` on the contacts directory. -/
inductive StatResult where
  | notExist
  | failed
  | file
  | dir
  deriving DecidableEq, Repr

/-- The errors `loadContacts` reports in an `errorMsg`. -/
inductive ScanError where
  | notExist
  | cannotAccess
  | cannotStat
  | notDirectory
  | walk (path : Str)
  deriving DecidableEq, Repr

/-- One call of the walk function by `filepath.Walk`: the path, whether
`info.IsDir()`, and whether the walk passes an error for it. -/
structure WalkEntry where
  path : Str
  isDir : Bool
  err : Bool
  deriving DecidableEq, Repr

/-- What the walk function does with an entry before any parsing. -/
inductive Visit where
  | abort
  | skip
  | parse
  deriving DecidableEq, Repr

/-- The guards of the walk function of `loadContacts`, in source order. -/
def visit (e : WalkEntry) : Visit :=
  if e.err then .abort
  else if e.isDir || !HasSuffix e.path ".md".toList then .skip
  else if !Contains (Base e.path) "__contact.md".toList then .skip
  else .parse

/-- The walk function of `loadContacts`, on the contacts gathered so far. -/
def walkFn (Y : Yaml) (fs : FS) (contacts : List Contact) (e : WalkEntry) :
    Except ScanError (List Contact) :=
  match visit e with
  | .abort => .error (.walk e.path)
  | .skip => .ok contacts
  | .parse =>
    match ParseContactFile Y fs e.path with
    | .error _ => .ok contacts
    | .ok contact => .ok (contacts ++ [{ contact with FilePath := e.path }])

/-- Model of `filepath.Walk` over the entries it meets, in order: it stops at
the first error the walk function returns. -/
def Walk (Y : Yaml) (fs : FS) : List WalkEntry → List Contact → Except ScanError (List Contact)
  | [], contacts => .ok contacts
  | e :: rest, contacts =>
    match walkFn Y fs contacts e with
    | .error err => .error err
    | .ok contacts => Walk Y fs rest contacts

/-- The comparison `loadContacts` hands to `sort.Slice`. -/
def titleLess (table : Char → Char) (a b : Contact) : Bool :=
  strLess (ToLower table a.Title) (ToLower table b.Title)

/-- Method `Model.loadContacts`: `stat1` and `stat2` are the two `os.Stat` results for
the contacts directory, `entries` what `filepath.Walk` meets, `sortSlice` the
routine `sort.Slice`. -/
def loadContacts (Y : Yaml) (table : Char → Char)
    (sortSlice : (Contact → Contact → Bool) → List Contact → List Contact)
    (fs : FS) (stat1 stat2 : StatResult) (entries : List WalkEntry) :
    Except ScanError (List Contact) :=
  match stat1 with
  | .notExist => .error .notExist
  | .failed => .error .cannotAccess
  | _ =>
    match stat2 with
    | .notExist => .error .cannotStat
    | .failed => .error .cannotStat
    | .file => .error .notDirectory
    | .dir =>
      match Walk Y fs entries [] with
      | .error err => .error err
      | .ok contacts => .ok (sortSlice (titleLess table) contacts)

/-! ## Reference definitions of the status engine, following the specification -/

/-- Specification of `isOverdue`: false unless the style is empty or periodic;
false if the frequency is 0; true if `lastContacted` is unset; otherwise
true exactly when `daysSinceContact > frequencyDays`. -/
def IsOverdueSpec (c : Contact) (now : Time) : Bool :=
  if c.ContactStyle ≠ [] ∧ c.ContactStyle ≠ StylePeriodic then false
  else if GetFrequencyDays c = 0 then false
  else if c.LastContacted = none then true
  else decide (DaysSinceContact c now > GetFrequencyDays c)

/-- Specification of `needsAttention`: the same gating; true if
`lastContacted` is unset; otherwise true exactly when
`frequencyDays - 7 < daysSinceContact ≤ frequencyDays`. -/
def NeedsAttentionSpec (c : Contact) (now : Time) : Bool :=
  if c.ContactStyle ≠ [] ∧ c.ContactStyle ≠ StylePeriodic then false
  else if GetFrequencyDays c = 0 then false
  else if c.LastContacted = none then true
  else decide (GetFrequencyDays c - 7 < DaysSinceContact c now) &&
    decide (DaysSinceContact c now ≤ GetFrequencyDays c)

/-- Specification of `daysSinceContact`: `-1` if `lastContacted` is unset,
otherwise the floor of `now - lastContacted` in days of 24 hours. -/
def DaysSinceContactSpec (c : Contact) (now : Time) : Int :=
  match c.LastContacted with
  | none => -1
  | some t => Int.fdiv (now.unixNano - t.unixNano) (24 * Hour)

/-! ## Sample data -/

/-- 2024-03-05T00:00:00Z. -/
def sampleNow : Time := ⟨1709596800000000000, 0⟩

/-- A close contact that was never contacted. -/
def neverContacted : Contact :=
  { zeroContact with
    Title := "Jane Q. Doe".toList, Tags := ["contact".toList],
    RelationshipType := RelationshipClose }

/-- A close contact whose last contact is `ahead` nanoseconds after
`sampleNow` (before it when negative). -/
def contactedAt (ahead : Int) : Contact :=
  { neverContacted with LastContacted := some ⟨sampleNow.unixNano + ahead, 0⟩ }

/-- The contact as its YAML header holds it: the runtime fields `FilePath`
and `Content` (tagged `yaml:"-"`) are not encoded. -/
def headerOf (c : Contact) : Contact := { c with FilePath := [], Content := [] }

/-- A YAML codec known only on the documents of a table of
(header text, decoded contact) pairs; it stands for `yaml.v3` on the sample
documents below. -/
def tableYaml (table : List (Str × Contact)) : Yaml where
  Marshal := fun c => (table.find? (fun e => decide (e.2 = headerOf c))).map Prod.fst
  Unmarshal := fun s => (table.find? (fun e => decide (e.1 = s))).map Prod.snd

/-- 2024-06-01T12:00:00Z. -/
def sampleLater : Time := ⟨1717243200000000000, 0⟩

/-- Jane, created 2024-03-05, with an identifier; not yet saved to a file.
The body itself contains the delimiter text. -/
def jane : Contact :=
  { neverContacted with
    Date := sampleNow, Identifier := "20240305T000000".toList, UpdatedAt := sampleNow,
    Content := "Met at the conference.\n---\nSecond note.\n".toList }

/-- Jane without an identifier. -/
def janeNoId : Contact := { jane with Identifier := [] }

/-- Header `yaml.v3` writes for `jane` stamped at `sampleLater`. -/
def janeHeader : Str :=
  ("title: Jane Q. Doe\ndate: 2024-03-05T00:00:00Z\ntags:\n    - contact\n" ++
   "identifier: 20240305T000000\nrelationship_type: close\n" ++
   "updated_at: 2024-06-01T12:00:00Z\n").toList

/-- Header `yaml.v3` writes for `janeNoId` stamped at `sampleLater`. -/
def janeNoIdHeader : Str :=
  ("title: Jane Q. Doe\ndate: 2024-03-05T00:00:00Z\ntags:\n    - contact\n" ++
   "identifier: \"\"\nrelationship_type: close\n" ++
   "updated_at: 2024-06-01T12:00:00Z\n").toList

/-- A hand-written header with the given title, identifier and tag. -/
def plainHeader (title identifier tag : String) : Str :=
  ("title: " ++ title ++ "\ndate: 2024-03-05T00:00:00Z\ntags: [" ++ tag ++ "]\n" ++
   "identifier: " ++ identifier ++ "\nrelationship_type: work\n").toList

/-- What `plainHeader` decodes to. -/
def plainContact (title identifier tag : String) : Contact :=
  { zeroContact with
    Title := title.toList, Date := sampleNow, Tags := [tag.toList],
    Identifier := identifier.toList, RelationshipType := RelationshipWork }

/-- The sample codec. -/
def sampleYaml : Yaml :=
  tableYaml
    [ (janeHeader, headerOf { jane with UpdatedAt := sampleLater }),
      (janeNoIdHeader, headerOf { janeNoId with UpdatedAt := sampleLater }),
      (plainHeader "bob" "20240101T090000" "contact",
        plainContact "bob" "20240101T090000" "contact"),
      (plainHeader "Alice" "20240102T090000" "contact",
        plainContact "Alice" "20240102T090000" "contact"),
      (plainHeader "carol" "20240103T090000" "contact",
        plainContact "carol" "20240103T090000" "contact"),
      (plainHeader "Buy milk" "20240104T090000" "task",
        plainContact "Buy milk" "20240104T090000" "task") ]

/-- A file made of a header and a body. -/
def fileText (header body : Str) : Str := delimiter ++ header ++ delimiter ++ body

/-- A file system holding nothing, every path writable. -/
def emptyFS : FS := { files := fun _ => none, writable := fun _ => true }

/-- The sample contacts directory: three contact files, a file without
frontmatter, and a task file. -/
def sampleFS : FS where
  files := fun p =>
    if p = "contacts/20240101--bob__contact.md".toList then
      some (fileText (plainHeader "bob" "20240101T090000" "contact") "Plumber.\n".toList)
    else if p = "contacts/20240102--alice__contact.md".toList then
      some (fileText (plainHeader "Alice" "20240102T090000" "contact") [])
    else if p = "contacts/20240103--carol__contact.md".toList then
      some (fileText (plainHeader "carol" "20240103T090000" "contact") "---\n".toList)
    else if p = "contacts/20240104--broken__contact.md".toList then
      some "title: broken\n---\nno opening delimiter\n".toList
    else if p = "contacts/20240104--buy-milk__contact.md".toList then
      some (fileText (plainHeader "Buy milk" "20240104T090000" "task") [])
    else none
  writable := fun _ => true

/-- What `filepath.Walk` meets in the sample directory. -/
def sampleWalk : List WalkEntry :=
  [ ⟨"contacts".toList, true, false⟩,
    ⟨"contacts/20240101--bob__contact.md".toList, false, false⟩,
    ⟨"contacts/20240102--alice__contact.md".toList, false, false⟩,
    ⟨"contacts/20240103--carol__contact.md".toList, false, false⟩,
    ⟨"contacts/20240104--broken__contact.md".toList, false, false⟩,
    ⟨"contacts/readme.md".toList, false, false⟩ ]

/-- The characters `[a-z0-9-]` a slug is made of. -/
def slugAlphabet : Str := "abcdefghijklmnopqrstuvwxyz0123456789-".toList

/-- Specification of the slug of a title: lower-case it, replace each space
by a hyphen, strip every character outside `[a-z0-9-]`. -/
def slugSpec (table : Char → Char) (title : Str) : Str :=
  ((ToLower table title).map (fun ch => if ch = ' ' then '-' else ch)).filter
    (fun ch => decide (ch ∈ slugAlphabet))

/-- The contact a walk entry adds to the scan: the parsed contact of an
admitted file that parses, nothing otherwise. -/
def scanned (Y : Yaml) (fs : FS) (e : WalkEntry) : Option Contact :=
  match visit e with
  | .parse =>
    match ParseContactFile Y fs e.path with
    | .ok contact => some { contact with FilePath := e.path }
    | .error _ => none
  | _ => none

/-- An insertion sort, one routine that meets the contract of `sort.Slice`. -/
def insertionSortSlice (less : Contact → Contact → Bool) (l : List Contact) : List Contact :=
  l.insertionSort (fun a b => less b a = false)

/-- The composition `parse(serialize(x))`: save the contact, then parse the file it was
written to. -/
def parseAfterSave (Y : Yaml) (table : Char → Char) (nowName now : Time) (fs : FS)
    (x : Contact) : Option Contact :=
  match SaveContactFile Y table nowName now fs x with
  | .error _ => none
  | .ok fs' =>
    match ParseContactFile Y fs' (stamped table nowName now x).FilePath with
    | .error _ => none
    | .ok y => some y

/-! ## Go strings that are sliced by bytes -/

/-- A Go string held as its bytes.  The model's own text fields that the code
slices by bytes (`s[:len(s)-1]`) are held this way, since such a slice can cut
a rune in two. -/
abbrev Bytes := List UInt8

/-- UTF-8 encoding of one rune. -/
def encodeRune (c : Char) : Bytes :=
  let n := c.toNat
  if n < 128 then [UInt8.ofNat n]
  else if n < 2048 then [UInt8.ofNat (192 + n / 64), UInt8.ofNat (128 + n % 64)]
  else if n < 65536 then
    [UInt8.ofNat (224 + n / 4096), UInt8.ofNat (128 + n / 64 % 64), UInt8.ofNat (128 + n % 64)]
  else
    [UInt8.ofNat (240 + n / 262144), UInt8.ofNat (128 + n / 4096 % 64),
     UInt8.ofNat (128 + n / 64 % 64), UInt8.ofNat (128 + n % 64)]

/-- The bytes of a text: conversion of a valid string to its Go representation. -/
def utf8 (s : Str) : Bytes := s.flatMap encodeRune

/-- The rune `utf8.RuneError`, U+FFFD. -/
def RuneError : Char := Char.ofNat 65533

/-- Model of `utf8.DecodeRuneInString`: the first rune and its width in bytes;
an invalid or truncated sequence gives `RuneError` with width 1. -/
def DecodeRune : Bytes → Char × Nat
  | [] => (RuneError, 0)
  | s0 :: rest =>
    let b0 := s0.toNat
    if b0 < 128 then (Char.ofNat b0, 1)
    else if b0 < 194 ∨ 244 < b0 then (RuneError, 1)
    else
      let sz : Nat := if b0 < 224 then 2 else if b0 < 240 then 3 else 4
      let lo : Nat := if b0 = 224 then 160 else if b0 = 240 then 144 else 128
      let hi : Nat := if b0 = 237 then 159 else if b0 = 244 then 143 else 191
      if rest.length + 1 < sz then (RuneError, 1)
      else
        match rest with
        | [] => (RuneError, 1)
        | s1 :: r1 =>
          let b1 := s1.toNat
          if b1 < lo ∨ hi < b1 then (RuneError, 1)
          else if sz ≤ 2 then (Char.ofNat (b0 % 32 * 64 + b1 % 64), 2)
          else
            match r1 with
            | [] => (RuneError, 1)
            | s2 :: r2 =>
              let b2 := s2.toNat
              if b2 < 128 ∨ 191 < b2 then (RuneError, 1)
              else if sz ≤ 3 then (Char.ofNat (b0 % 16 * 4096 + b1 % 64 * 64 + b2 % 64), 3)
              else
                match r2 with
                | [] => (RuneError, 1)
                | s3 :: _ =>
                  let b3 := s3.toNat
                  if b3 < 128 ∨ 191 < b3 then (RuneError, 1)
                  else
                    (Char.ofNat (b0 % 8 * 262144 + b1 % 64 * 4096 + b2 % 64 * 64 + b3 % 64), 4)

/-- Worker of `runes`. -/
def runesAux : Nat → Bytes → Str
  | 0, _ => []
  | fuel + 1, s =>
    match s with
    | [] => []
    | b :: rest => (DecodeRune (b :: rest)).1 :: runesAux fuel ((b :: rest).drop (DecodeRune (b :: rest)).2)

/-- The runes a Go `range` loop over the string yields: every invalid byte
counts as one `RuneError`. -/
def runes (s : Bytes) : Str := runesAux s.length s

/-- The text of a Go string that is valid UTF-8; `none` for one that is not
(`utf8.ValidString` false), which a contact field of this embedding cannot
hold. -/
def decodeStrict (s : Bytes) : Option Str :=
  if utf8 (runes s) = s then some (runes s) else none

/-- Length in bytes of a text (`len(s)` of a valid string). -/
def byteLen (s : Str) : Nat := (utf8 s).length

/-! ## More of the Go standard library -/

/-- Model of `unicode.IsSpace`. -/
def isSpace (c : Char) : Bool :=
  let n := c.toNat
  (9 ≤ n && n ≤ 13) || n == 32 || n == 133 || n == 160 || n == 5760 ||
    (8192 ≤ n && n ≤ 8202) || n == 8232 || n == 8233 || n == 8239 || n == 8287 || n == 12288

/-- Model of `strings.TrimSpace`. -/
def TrimSpace (s : Str) : Str :=
  ((s.dropWhile isSpace).reverse.dropWhile isSpace).reverse

/-- Worker of `Fields`: `cur` is the field being read. -/
def fieldsAux : Str → Str → List Str
  | [], cur => if cur = [] then [] else [cur]
  | c :: s, cur =>
    if isSpace c then
      if cur = [] then fieldsAux s [] else cur :: fieldsAux s []
    else fieldsAux s (cur ++ [c])

/-- Model of `strings.Fields`. -/
def Fields (s : Str) : List Str := fieldsAux s []

/-- Model of `strings.TrimPrefix`. -/
def TrimPrefix (s pre : Str) : Str :=
  if HasPrefix s pre then s.drop pre.length else s

/-- Model of `strings.Join`. -/
def Join : List Str → Str → Str
  | [], _ => []
  | [a], _ => a
  | a :: b :: rest, sep => a ++ sep ++ Join (b :: rest) sep

/-- Model of `Time.Clock`: hour, minute and second in the location of `t`. -/
def Time.Clock (t : Time) : Int × Int × Int :=
  let s := (t.unixNano / 1000000000 + t.offset) % 86400
  (s / 3600, s % 3600 / 60, s % 60)

/-- Model of `Time.Unix`. -/
def Time.Unix (t : Time) : Int := t.unixNano / 1000000000

/-- Model of `Time.Format("2006-01-02")`. -/
def Time.Format2006_01_02 (t : Time) : Str :=
  let (y, m, d) := t.Date
  appendInt y 4 ++ ['-'] ++ appendInt m 2 ++ ['-'] ++ appendInt d 2

/-- Model of `Time.Format("20060102T150405")`. -/
def Time.Format20060102T150405 (t : Time) : Str :=
  let (h, mi, s) := t.Clock
  t.Format20060102 ++ ['T'] ++ appendInt h 2 ++ appendInt mi 2 ++ appendInt s 2

/-- The verb `%d` of `fmt` on an integer. -/
def formatInt (i : Int) : Str :=
  (if i < 0 then ['-'] else []) ++ Nat.toDigits 10 i.natAbs

/-! ## `internal/ui/model.go`: the application state -/

/-- The views, `ViewMode`. -/
inductive ViewMode where
  | ViewList
  | ViewDetail
  | ViewEdit
  | ViewCreate
  | ViewFilter
  | ViewInteractionType
  | ViewQuickType
  deriving DecidableEq, Repr

/-- The kinds of key of `tea.KeyMsg` that the code tells apart by `msg.Type`;
every other named key is `other` with its name (`up`, `ctrl+c`, ...). -/
inductive KeyType where
  | KeyRunes
  | KeyEnter
  | KeyEscape
  | KeyBackspace
  | other (name : Str)
  deriving DecidableEq, Repr

/-- Model of `tea.KeyMsg`; `Kind` is its field `Type`.  Bracketed paste is not
modelled. -/
structure KeyMsg where
  Kind : KeyType
  Runes : Str
  Alt : Bool
  deriving DecidableEq, Repr

/-- Model of `KeyMsg.String`: the runes of a rune key, the name of a named
key, after `alt+` when Alt is held. -/
def KeyMsg.String (k : KeyMsg) : Str :=
  (if k.Alt then "alt+".toList else []) ++
    match k.Kind with
    | .KeyRunes => k.Runes
    | .KeyEnter => "enter".toList
    | .KeyEscape => "esc".toList
    | .KeyBackspace => "backspace".toList
    | .other name => name

/-- The key that types the given text. -/
def runeKey (s : String) : KeyMsg := ⟨.KeyRunes, s.toList, false⟩

/-- The Escape key. -/
def escKey : KeyMsg := ⟨.KeyEscape, [], false⟩

/-- The Enter key. -/
def enterKey : KeyMsg := ⟨.KeyEnter, [], false⟩

/-- The Backspace key. -/
def backspaceKey : KeyMsg := ⟨.KeyBackspace, [], false⟩

/-- A named key such as `ctrl+c`. -/
def namedKey (s : String) : KeyMsg := ⟨.other s.toList, [], false⟩

/-- The record `Model`.  A pointer to a contact is held as the contact it
points to when it is taken (`none` for nil); the unused fields `list` and
`selected` are left out; a Go `error` is held as its text. -/
structure Model where
  contacts : List Contact
  contactsDir : Str
  currentView : ViewMode
  cursor : Int
  selectedContact : Option Contact
  contactToMark : Option Contact
  interactionType : Str
  interactionState : Str
  interactionNote : Bytes
  contactLogStep : Int
  editingContact : Option Contact
  editField : Int
  editValues : List Bytes
  searchQuery : Bytes
  searchMode : Bool
  filtered : List Contact
  filterType : Str
  filterState : Str
  filterStatus : Str
  showFilterPopup : Bool
  width : Int
  height : Int
  ready : Bool
  err : Option Str
  message : Str
  entryView : ViewMode
  deriving DecidableEq, Repr

/-- What a failed command reports in its `errorMsg`. -/
inductive CmdError where
  | scan (e : ScanError)
  | save (title : Str) (e : SaveError)
  | reload (title : Str) (e : ParseError)
  | noContactBeingEdited
  | nameRequired
  | contactsDirMissing (dir : Str)
  | contactsDirInaccessible (dir : Str)
  deriving DecidableEq, Repr

/-- The messages `Update` receives.  `errorMsg` is the struct of
`commands.go`, which has no `Error` method; `errorValue` is a message whose
type implements `error`; `other` is any other message. -/
inductive Msg where
  | WindowSizeMsg (Width Height : Int)
  | KeyMsg (k : KeyMsg)
  | contactsLoadedMsg (contacts : List Contact)
  | contactUpdatedMsg (contact : Contact) (message : Str)
  | clearMessageMsg
  | errorMsg (err : CmdError)
  | errorValue (text : Str)
  | other
  deriving DecidableEq, Repr

/-- The commands `Update` returns: nil, `tea.Quit`, the timer of
`clearMessageAfter`, and the closures of `commands.go`, each with the model
value and contact it captures. -/
inductive Cmd where
  | none
  | Quit
  | clearMessageAfter (seconds : Nat)
  | loadContacts (m : Model)
  | logContactInteraction (m : Model) (contact : Contact)
  | bumpContact (m : Model) (contact : Contact)
  | saveEditedContact (m : Model)
  | saveQuickTypeChange (m : Model) (contact : Contact)
  | saveNewContact (m : Model)
  deriving DecidableEq, Repr

/-- What stops a run of the embedding: a Go run-time panic (index out of
range), which stops the code as well; or a model text that is not valid UTF-8
on its way into a contact, where the code goes on with the bytes and the
embedding, whose contacts hold text, does not follow it. -/
inductive Fault where
  | panic
  | invalidUTF8
  deriving DecidableEq, Repr

/-- Function `NewModel`. -/
def NewModel (contactsDir : Str) : Model :=
  { contacts := [], contactsDir := contactsDir, currentView := .ViewList, cursor := 0,
    selectedContact := none, contactToMark := none, interactionType := [],
    interactionState := [], interactionNote := [], contactLogStep := 0,
    editingContact := none, editField := 0, editValues := [], searchQuery := [],
    searchMode := false, filtered := [], filterType := [], filterState := [],
    filterStatus := [], showFilterPopup := false, width := 80, height := 24, ready := true,
    err := none, message := [], entryView := .ViewList }

/-- A slice element `s[i]`: `none` is the index-out-of-range panic. -/
def index {α : Type} (s : List α) (i : Int) : Option α :=
  if 0 ≤ i then s[i.toNat]? else none

/-- The assignment `s[i] = v`: `none` is the index-out-of-range panic. -/
def setIndex {α : Type} (s : List α) (i : Int) (v : α) : Option (List α) :=
  if 0 ≤ i ∧ i.toNat < s.length then some (s.set i.toNat v) else none

/-! ## `internal/ui/search_view.go` -/

/-- Method `Model.contactMatchesSearch`.  The query is lower-cased rune by
rune as `strings.ToLower` does, an invalid byte counting as `RuneError`. -/
def contactMatchesSearch (table : Char → Char) (contact : Contact) (query : Bytes) : Bool :=
  let query := ToLower table (runes query)
  if Contains (ToLower table contact.Title) query then true
  else if Contains (ToLower table contact.Company) query then true
  else if Contains (ToLower table contact.Email) query then true
  else if contact.Tags.any (fun tag => Contains (ToLower table tag) query) then true
  else if Contains (ToLower table contact.Label) query then true
  else if Contains (ToLower table contact.Role) query then true
  else false

/-- The body of the loop of `applyFilters`: whether the contact is appended to
the filtered view.  `now` is the reading of the clock the status predicates use. -/
def passesFilters (table : Char → Char) (now : Time) (m : Model) (contact : Contact) : Bool :=
  if m.searchQuery ≠ [] ∧ contactMatchesSearch table contact m.searchQuery = false then false
  else if m.filterType ≠ [] ∧ contact.RelationshipType ≠ m.filterType then false
  else if m.filterState ≠ [] ∧ contact.State ≠ m.filterState then false
  else if m.filterStatus ≠ [] then
    if m.filterStatus = "overdue".toList then IsOverdue contact now
    else if m.filterStatus = "needsAttention".toList then NeedsAttention contact now
    else if m.filterStatus = "ok".toList then IsWithinThreshold contact now
    else true
  else true

/-- Method `Model.applyFilters`: rebuild the filtered view, then reset a cursor
that is at or beyond its end. -/
def applyFilters (table : Char → Char) (now : Time) (m : Model) : Model :=
  let filtered := m.contacts.filter (passesFilters table now m)
  let cursor : Int :=
    if m.cursor ≥ filtered.length then
      let c : Int := filtered.length - 1
      if c < 0 then 0 else c
    else m.cursor
  { m with filtered := filtered, cursor := cursor }

/-- Method `Model.updateSearch`: input in search mode. -/
def updateSearch (table : Char → Char) (now : Time) (m : Model) (msg : KeyMsg) : Model × Cmd :=
  match msg.Kind with
  | .KeyEscape =>
    ({ m with searchMode := false, searchQuery := [], filtered := m.contacts, cursor := 0 }, .none)
  | .KeyEnter => ({ m with searchMode := false }, .none)
  | .KeyBackspace =>
    if m.searchQuery.length > 0 then
      let m := applyFilters table now { m with searchQuery := m.searchQuery.dropLast }
      ({ m with cursor := 0 }, .none)
    else (m, .none)
  | .KeyRunes =>
    let m := applyFilters table now { m with searchQuery := m.searchQuery ++ utf8 msg.Runes }
    ({ m with cursor := 0 }, .none)
  | .other _ => (m, .none)

/-! ## `internal/ui/filter_view.go` -/

/-- Method `Model.applyFilterAndReturn`: apply a single filter and return to the
list. -/
def applyFilterAndReturn (table : Char → Char) (now : Time) (m : Model)
    (filterType value message : Str) : Model × Cmd :=
  let m := { m with filterType := [], filterState := [], filterStatus := [] }
  let m :=
    if filterType = "type".toList then { m with filterType := value }
    else if filterType = "state".toList then { m with filterState := value }
    else if filterType = "status".toList then { m with filterStatus := value }
    else m
  let m := applyFilters table now m
  ({ m with showFilterPopup := false, message := message }, .clearMessageAfter 3)

/-- The filter hotkeys of `updateFilter`: key, dimension, value, message. -/
def filterKeys : List (Str × Str × Str × Str) :=
  [ ("f".toList, "type".toList, "family".toList, "Filtered to family".toList),
    ("c".toList, "type".toList, "close".toList, "Filtered to close".toList),
    ("n".toList, "type".toList, "network".toList, "Filtered to network".toList),
    ("w".toList, "type".toList, "work".toList, "Filtered to work".toList),
    ("r".toList, "type".toList, "recruiters".toList, "Filtered to recruiters".toList),
    ("p".toList, "type".toList, "providers".toList, "Filtered to providers".toList),
    ("s".toList, "type".toList, "social".toList, "Filtered to social".toList),
    ("F".toList, "state".toList, "followup".toList, "Filtered to follow up".toList),
    ("P".toList, "state".toList, "ping".toList, "Filtered to ping".toList),
    ("S".toList, "state".toList, "scheduled".toList, "Filtered to scheduled".toList),
    ("T".toList, "state".toList, "timeout".toList, "Filtered to timeout".toList),
    ("o".toList, "status".toList, "overdue".toList, "Filtered to overdue".toList),
    ("d".toList, "status".toList, "needsAttention".toList, "Filtered to due soon".toList),
    ("g".toList, "status".toList, "ok".toList, "Filtered to good timing".toList) ]

/-- Method `Model.updateFilter`: input in the filter popup. -/
def updateFilter (table : Char → Char) (now : Time) (m : Model) (msg : KeyMsg) : Model × Cmd :=
  let s := msg.String
  if s = "esc".toList ∨ s = "q".toList then ({ m with showFilterPopup := false }, .none)
  else if s = "a".toList then
    let m := { m with filterType := [], filterState := [], filterStatus := [] }
    let m := applyFilters table now m
    ({ m with showFilterPopup := false, message := "Cleared all filters".toList },
      .clearMessageAfter 3)
  else
    match filterKeys.find? (fun e => e.1 = s) with
    | some (_, filterType, value, message) =>
      applyFilterAndReturn table now m filterType value message
    | none => (m, .none)

/-! ## `internal/ui/edit_view.go` and `create_view.go` -/

def fieldTitle : Int := 0
def fieldEmail : Int := 1
def fieldPhone : Int := 2
def fieldCompany : Int := 3
def fieldRole : Int := 4
def fieldLocation : Int := 5
def fieldRelationType : Int := 6
def fieldContactStyle : Int := 7
def fieldState : Int := 8
def fieldTags : Int := 9
def fieldCount : Nat := 10

/-- Method `Model.initializeEditValues`: the edit form filled from a contact,
the tags joined with spaces without `contact`. -/
def initializeEditValues (m : Model) (contact : Contact) : Model :=
  { m with editValues :=
      [ utf8 contact.Title, utf8 contact.Email, utf8 contact.Phone, utf8 contact.Company,
        utf8 contact.Role, utf8 contact.Location, utf8 contact.RelationshipType,
        utf8 contact.ContactStyle, utf8 contact.State,
        utf8 (Join (contact.Tags.filter (fun tag => tag ≠ contactTag)) " ".toList) ] }

/-- Method `Model.initializeCreateValues`: an empty form with the defaults
network, periodic, ok. -/
def initializeCreateValues (m : Model) : Model :=
  { m with editValues :=
      [ [], [], [], [], [], [], utf8 "network".toList, utf8 "periodic".toList,
        utf8 "ok".toList, [] ] }

/-- The field selection hotkeys of `updateEdit` and `updateCreate`. -/
def fieldKeys : List (Str × Int) :=
  [ ("n".toList, fieldTitle), ("e".toList, fieldEmail), ("p".toList, fieldPhone),
    ("c".toList, fieldCompany), ("r".toList, fieldRole), ("l".toList, fieldLocation),
    ("t".toList, fieldRelationType), ("s".toList, fieldContactStyle),
    ("S".toList, fieldState), ("T".toList, fieldTags) ]

/-- The hotkeys of `handleTypeSelection` and `handleCreateTypeSelection`. -/
def typeKeys : List (Str × Str) :=
  [ ("f".toList, "family".toList), ("c".toList, "close".toList), ("n".toList, "network".toList),
    ("r".toList, "recruiters".toList), ("w".toList, "work".toList),
    ("p".toList, "providers".toList), ("s".toList, "social".toList) ]

/-- The hotkeys of `handleStyleSelection` and `handleCreateStyleSelection`. -/
def styleKeys : List (Str × Str) :=
  [ ("p".toList, "periodic".toList), ("a".toList, "ambient".toList),
    ("t".toList, "triggered".toList) ]

/-- The hotkeys of `handleStateSelection` and `handleCreateStateSelection`. -/
def stateKeys : List (Str × Str) :=
  [ ("o".toList, "ok".toList), ("f".toList, "followup".toList), ("p".toList, "ping".toList),
    ("s".toList, "scheduled".toList), ("t".toList, "timeout".toList) ]

/-- The states that make a save create a task. -/
def taskStates : List Str :=
  ["followup".toList, "ping".toList, "scheduled".toList, "timeout".toList]

/-- The common shape of the six selection handlers: a listed key stores its
value in the field and returns to field selection, any other key does nothing. -/
def handleSelection (keys : List (Str × Str)) (field : Int) (m : Model) (msg : KeyMsg) :
    Except Fault Model :=
  match keys.find? (fun e => e.1 = msg.String) with
  | some (_, value) =>
    match setIndex m.editValues field (utf8 value) with
    | some values => .ok { m with editValues := values, editField := -1 }
    | none => .error .panic
  | none => .ok m

/-- Methods `Model.handleTypeSelection` and `Model.handleCreateTypeSelection`. -/
def handleTypeSelection (m : Model) (msg : KeyMsg) : Except Fault Model :=
  handleSelection typeKeys fieldRelationType m msg

/-- Methods `Model.handleStyleSelection` and `Model.handleCreateStyleSelection`. -/
def handleStyleSelection (m : Model) (msg : KeyMsg) : Except Fault Model :=
  handleSelection styleKeys fieldContactStyle m msg

/-- Method `Model.handleCreateStateSelection`. -/
def handleCreateStateSelection (m : Model) (msg : KeyMsg) : Except Fault Model :=
  handleSelection stateKeys fieldState m msg

/-- Method `Model.handleStateSelection`: as for a new contact, and a message
when the state changed to one that creates a task. -/
def handleStateSelection (m : Model) (msg : KeyMsg) : Except Fault Model :=
  match index m.editValues fieldState with
  | none => .error .panic
  | some oldState =>
    match handleSelection stateKeys fieldState m msg with
    | .error f => .error f
    | .ok m =>
      match index m.editValues fieldState with
      | none => .error .panic
      | some newState =>
        if oldState ≠ newState ∧ newState ≠ [] ∧ newState ≠ utf8 "ok".toList then
          match taskStates.find? (fun s => utf8 s = newState) with
          | some s =>
            .ok { m with message :=
              "Task will be created when saved (state → ".toList ++ s ++ ")".toList }
          | none => .ok m
        else .ok m

/-- The field editing mode shared by `updateEdit` and `updateCreate`; the two
differ in the state handler only. -/
def updateField (stateHandler : Model → KeyMsg → Except Fault Model) (m : Model)
    (msg : KeyMsg) : Except Fault (Model × Cmd) :=
  let s := msg.String
  if s = "esc".toList then .ok ({ m with editField := -1 }, .none)
  else if s = "enter".toList then .ok ({ m with editField := -1 }, .none)
  else if s = "backspace".toList then
    match index m.editValues m.editField with
    | none => .error .panic
    | some v =>
      if v.length > 0 then
        match setIndex m.editValues m.editField v.dropLast with
        | some values => .ok ({ m with editValues := values }, .none)
        | none => .error .panic
      else .ok (m, .none)
  else if m.editField = fieldRelationType then (handleTypeSelection m msg).map (fun m => (m, Cmd.none))
  else if m.editField = fieldContactStyle then
    (handleStyleSelection m msg).map (fun m => (m, Cmd.none))
  else if m.editField = fieldState then (stateHandler m msg).map (fun m => (m, Cmd.none))
  else if (utf8 s).length = 1 then
    match index m.editValues m.editField with
    | none => .error .panic
    | some v =>
      match setIndex m.editValues m.editField (v ++ utf8 s) with
      | some values => .ok ({ m with editValues := values }, .none)
      | none => .error .panic
  else .ok (m, .none)

/-- Method `Model.updateEdit`: input in the edit view. -/
def updateEdit (m : Model) (msg : KeyMsg) : Except Fault (Model × Cmd) :=
  if m.editingContact = none then .ok (m, .none)
  else if m.editField = -1 then
    let s := msg.String
    if s = "esc".toList then
      .ok ({ m with currentView := m.entryView, editingContact := none, editField := -1,
                    editValues := [] }, .none)
    else if s = "q".toList then .ok (m, .saveEditedContact m)
    else
      match fieldKeys.find? (fun e => e.1 = s) with
      | some (_, field) => .ok ({ m with editField := field }, .none)
      | none => .ok (m, .none)
  else updateField handleStateSelection m msg

/-- Method `Model.updateCreate`: input in the create view. -/
def updateCreate (m : Model) (msg : KeyMsg) : Except Fault (Model × Cmd) :=
  if m.editField = -1 then
    let s := msg.String
    if s = "esc".toList then
      .ok ({ m with currentView := m.entryView, editField := -1, editValues := [] }, .none)
    else if s = "q".toList then .ok (m, .saveNewContact m)
    else
      match fieldKeys.find? (fun e => e.1 = s) with
      | some (_, field) => .ok ({ m with editField := field }, .none)
      | none => .ok (m, .none)
  else updateField handleCreateStateSelection m msg

/-! ## `internal/ui/interaction_view.go` and `quicktype_view.go` -/

/-- The table `interactionTypes`: key and value. -/
def interactionTypes : List (Str × Str) :=
  [ ("p".toList, "phone".toList), ("e".toList, "email".toList), ("t".toList, "text".toList),
    ("m".toList, "meeting".toList), ("v".toList, "video".toList), ("s".toList, "social".toList),
    ("l".toList, "mail".toList), ("o".toList, "other".toList) ]

/-- The table `contactStates`: key and value. -/
def contactStates : List (Str × Str) :=
  [ ("o".toList, "ok".toList), ("f".toList, "followup".toList), ("p".toList, "ping".toList),
    ("s".toList, "scheduled".toList), ("t".toList, "timeout".toList) ]

/-- Method `Model.resetContactLogging`: clear the logging state and return to
the entry view. -/
def resetContactLogging (m : Model) : Model :=
  { m with currentView := m.entryView, contactToMark := none, interactionType := [],
           interactionState := [], interactionNote := [], contactLogStep := 0 }

/-- Method `Model.updateInteractionType`: input in the contact logging flow. -/
def updateInteractionType (m : Model) (msg : KeyMsg) : Model × Cmd :=
  let s := msg.String
  if m.contactLogStep = 0 then
    if s = "esc".toList ∨ s = "q".toList then (resetContactLogging m, .none)
    else if s ∈ ["p".toList, "e".toList, "t".toList, "m".toList, "v".toList, "s".toList,
        "l".toList, "o".toList] then
      match interactionTypes.find? (fun it => it.1 = s) with
      | some it => ({ m with interactionType := it.2, contactLogStep := 1 }, .none)
      | none => (m, .none)
    else (m, .none)
  else if m.contactLogStep = 1 then
    if s = "esc".toList then ({ m with contactLogStep := 0, interactionType := [] }, .none)
    else if s = "q".toList then (resetContactLogging m, .none)
    else if s ∈ ["o".toList, "f".toList, "p".toList, "s".toList, "n".toList, "t".toList] then
      match contactStates.find? (fun st => st.1 = s) with
      | some st => ({ m with interactionState := st.2, contactLogStep := 2 }, .none)
      | none => (m, .none)
    else (m, .none)
  else if m.contactLogStep = 2 then
    if s = "esc".toList then
      ({ m with contactLogStep := 1, interactionState := [], interactionNote := [] }, .none)
    else if s = "ctrl+c".toList ∨ s = "ctrl+q".toList then (resetContactLogging m, .none)
    else if s = "enter".toList then
      match m.contactToMark with
      | some contact => (m, .logContactInteraction m contact)
      | none => (m, .none)
    else if s = "ctrl+s".toList then
      match m.contactToMark with
      | some contact =>
        if m.interactionNote ≠ [] then (m, .logContactInteraction m contact) else (m, .none)
      | none => (m, .none)
    else if s = "backspace".toList then
      if m.interactionNote.length > 0 then
        ({ m with interactionNote := m.interactionNote.dropLast }, .none)
      else (m, .none)
    else if (utf8 s).length = 1 ∧ m.interactionNote.length < 200 then
      ({ m with interactionNote := m.interactionNote ++ utf8 s }, .none)
    else (m, .none)
  else (m, .none)

/-- Method `Model.saveQuickType`: the command that saves the contact with the
new relationship type. -/
def saveQuickType (m : Model) (newType : Str) : Model × Cmd :=
  match m.contactToMark with
  | none => (m, .none)
  | some contact => (m, .saveQuickTypeChange m { contact with RelationshipType := newType })

/-- The type hotkeys of `updateQuickType`. -/
def quickTypeKeys : List (Str × Str) :=
  [ ("f".toList, "family".toList), ("c".toList, "close".toList), ("n".toList, "network".toList),
    ("w".toList, "work".toList), ("r".toList, "recruiters".toList),
    ("p".toList, "providers".toList), ("s".toList, "social".toList) ]

/-- Method `Model.updateQuickType`: input in the quick type change view. -/
def updateQuickType (m : Model) (msg : KeyMsg) : Model × Cmd :=
  if m.contactToMark = none then ({ m with currentView := .ViewList }, .none)
  else
    let s := msg.String
    if s = "esc".toList ∨ s = "ctrl+c".toList then
      ({ m with currentView := m.entryView, contactToMark := none }, .none)
    else
      match quickTypeKeys.find? (fun e => e.1 = s) with
      | some (_, newType) => saveQuickType m newType
      | none => (m, .none)

/-! ## `internal/ui/list_view.go` and `detail_view.go` -/

/-- Method `Model.updateList`: input in the list view. -/
def updateList (m : Model) (msg : KeyMsg) : Except Fault (Model × Cmd) :=
  if msg.String = "ctrl+c".toList ∨ msg.String = "q".toList then .ok (m, .Quit)
  else if msg.String = "j".toList ∨ msg.String = "down".toList then
    .ok (if m.cursor < (m.filtered.length : Int) - 1 then { m with cursor := m.cursor + 1 }
         else m, .none)
  else if msg.String = "k".toList ∨ msg.String = "up".toList then
    .ok (if m.cursor > 0 then { m with cursor := m.cursor - 1 } else m, .none)
  else if msg.String = "g".toList ∨ msg.String = "home".toList then
    .ok ({ m with cursor := 0 }, .none)
  else if msg.String = "G".toList ∨ msg.String = "end".toList then
    .ok ({ m with cursor := (m.filtered.length : Int) - 1 }, .none)
  else if msg.String = "ctrl+d".toList then
    let c := m.cursor + 10
    .ok ({ m with cursor :=
            if c ≥ (m.filtered.length : Int) then (m.filtered.length : Int) - 1 else c }, .none)
  else if msg.String = "ctrl+u".toList then
    let c := m.cursor - 10
    .ok ({ m with cursor := if c < 0 then 0 else c }, .none)
  else if msg.String = "enter".toList then
    if m.cursor < (m.filtered.length : Int) then
      match index m.filtered m.cursor with
      | none => .error .panic
      | some contact =>
        .ok ({ m with selectedContact := some contact, currentView := .ViewDetail }, .none)
    else .ok (m, .none)
  else if msg.String = "/".toList then .ok ({ m with searchMode := true, searchQuery := [] }, .none)
  else if msg.String = "f".toList ∨ msg.String = "F".toList then
    .ok ({ m with showFilterPopup := true }, .none)
  else if msg.String = "d".toList then
    if m.cursor < (m.filtered.length : Int) then
      match index m.filtered m.cursor with
      | none => .error .panic
      | some contact =>
        .ok ({ m with contactToMark := some contact, entryView := m.currentView,
                      currentView := .ViewInteractionType, contactLogStep := 0,
                      interactionType := [], interactionState := [], interactionNote := [] },
             .none)
    else .ok (m, .none)
  else if msg.String = "b".toList then
    if m.cursor < (m.filtered.length : Int) then
      match index m.filtered m.cursor with
      | none => .error .panic
      | some contact => .ok (m, .bumpContact m contact)
    else .ok (m, .none)
  else if msg.String = "e".toList then
    if m.cursor < (m.filtered.length : Int) then
      match index m.filtered m.cursor with
      | none => .error .panic
      | some contact =>
        let m := initializeEditValues { m with editingContact := some contact } contact
        .ok ({ m with entryView := m.currentView, currentView := .ViewEdit, editField := -1 },
             .none)
    else .ok (m, .none)
  else if msg.String = "c".toList then
    let m := initializeCreateValues m
    .ok ({ m with entryView := m.currentView, currentView := .ViewCreate, editField := -1 },
         .none)
  else if msg.String = "s".toList then
    if m.cursor < (m.filtered.length : Int) then
      match index m.filtered m.cursor with
      | none => .error .panic
      | some contact =>
        .ok ({ m with contactToMark := some contact, entryView := m.currentView,
                      currentView := .ViewInteractionType, contactLogStep := 1,
                      interactionType := "note".toList, interactionState := [],
                      interactionNote := [] }, .none)
    else .ok (m, .none)
  else if msg.String = "T".toList then
    if m.cursor < (m.filtered.length : Int) then
      match index m.filtered m.cursor with
      | none => .error .panic
      | some contact =>
        .ok ({ m with contactToMark := some contact, entryView := m.currentView,
                      currentView := .ViewQuickType }, .none)
    else .ok (m, .none)
  else .ok (m, .none)

/-- Method `Model.updateDetail`: input in the detail view. -/
def updateDetail (m : Model) (msg : KeyMsg) : Model × Cmd :=
  let s := msg.String
  if s = "esc".toList ∨ s = "q".toList then
    ({ m with currentView := .ViewList, selectedContact := none }, .none)
  else if s = "d".toList then
    match m.selectedContact with
    | some contact =>
      ({ m with contactToMark := some contact, entryView := m.currentView,
                currentView := .ViewInteractionType, contactLogStep := 0,
                interactionType := [], interactionState := [], interactionNote := [] }, .none)
    | none => (m, .none)
  else if s = "b".toList then
    match m.selectedContact with
    | some contact => (m, .bumpContact m contact)
    | none => (m, .none)
  else if s = "e".toList then
    match m.selectedContact with
    | some contact =>
      let m := initializeEditValues { m with editingContact := some contact } contact
      ({ m with entryView := m.currentView, currentView := .ViewEdit, editField := -1 }, .none)
    | none => (m, .none)
  else (m, .none)

/-! ## `internal/ui/model.go`: `Update` and `View` -/

/-- The loop of `Update` over `m.contacts`: replace the first contact with the
file path of the updated one. -/
def replaceFirst (contact : Contact) : List Contact → List Contact
  | [] => []
  | c :: rest =>
    if c.FilePath = contact.FilePath then contact :: rest else c :: replaceFirst contact rest

/-- Method `Model.Update`.  `table` is the Unicode case table and `now` the
reading of the clock, both used by `applyFilters`. -/
def Update (table : Char → Char) (now : Time) (m : Model) (msg : Msg) :
    Except Fault (Model × Cmd) :=
  match msg with
  | .WindowSizeMsg w h =>
    .ok ({ m with width := if w = 0 then 80 else w, height := if h = 0 then 24 else h,
                  ready := true }, .none)
  | .KeyMsg k =>
    match m.currentView with
    | .ViewList =>
      if m.searchMode then .ok (updateSearch table now m k)
      else if m.showFilterPopup then .ok (updateFilter table now m k)
      else updateList m k
    | .ViewDetail => .ok (updateDetail m k)
    | .ViewEdit => updateEdit m k
    | .ViewCreate => updateCreate m k
    | .ViewInteractionType => .ok (updateInteractionType m k)
    | .ViewQuickType => .ok (updateQuickType m k)
    | .ViewFilter => .ok (m, .none)
  | .contactsLoadedMsg contacts => .ok ({ m with contacts := contacts, filtered := contacts }, .none)
  | .contactUpdatedMsg contact message =>
    let m := { m with contacts := replaceFirst contact m.contacts }
    let m :=
      match m.selectedContact with
      | some sel =>
        if sel.FilePath = contact.FilePath then { m with selectedContact := some contact } else m
      | none => m
    let m := applyFilters table now m
    let m := { m with message := message }
    if m.currentView = .ViewInteractionType then
      .ok ({ m with currentView := m.entryView, contactToMark := none, interactionType := [],
                    interactionState := [], interactionNote := [], contactLogStep := 0 },
           .clearMessageAfter 3)
    else if m.currentView = .ViewEdit then
      .ok ({ m with currentView := m.entryView, editingContact := none, editField := -1,
                    editValues := [] }, .clearMessageAfter 3)
    else if m.currentView = .ViewCreate then
      let m := { m with currentView := m.entryView, editField := -1, editValues := [] }
      .ok (m, .loadContacts m)
    else if m.currentView = .ViewQuickType then
      .ok ({ m with currentView := m.entryView, contactToMark := none }, .clearMessageAfter 3)
    else .ok (m, .clearMessageAfter 3)
  | .clearMessageMsg => .ok ({ m with message := [] }, .none)
  | .errorValue text => .ok ({ m with err := some text }, .none)
  | .errorMsg _ => .ok (m, .none)
  | .other => .ok (m, .none)

/-- What `View` shows: the loading text, the error text, or the rendering of
the current view (the rendering itself is presentation and not modelled). -/
inductive Screen where
  | loading
  | error (text : Str)
  | view (v : ViewMode) (popup : Bool)
  deriving DecidableEq, Repr

/-- Method `Model.View`, up to the choice of what is rendered. -/
def View (m : Model) : Screen :=
  if !m.ready then .loading
  else
    match m.err with
    | some text => .error ("Error: ".toList ++ text)
    | none => .view m.currentView (m.showFilterPopup && m.currentView == .ViewList)

/-! ## `internal/ui/commands.go`: the commands -/

/-- What the operating system and the libraries supply to a command. -/
structure Env where
  yaml : Yaml
  table : Char → Char
  sortSlice : (Contact → Contact → Bool) → List Contact → List Contact
  /-- Result of `os.UserHomeDir` (its error is ignored by the code). -/
  homeDir : Str
  /-- Function `filepath.Join` on two elements. -/
  pathJoin : Str → Str → Str
  /-- Function `os.MkdirAll`: `none` on success, else the text of its error. -/
  mkdirAll : Str → Option Str
  /-- Text of the error a failed `os.WriteFile` reports for a path. -/
  writeErrorText : Str → Str
  /-- Function `os.Stat` on a directory. -/
  stat : Str → StatResult
  /-- What `filepath.Walk` meets under a root. -/
  walk : Str → List WalkEntry

/-- The readings of `time.Now()` during one command, in program order: by the
command itself, by `GenerateFilename`, by `SaveContactFile`, and by
`createTaskForContact`. -/
structure Clock where
  now : Time
  nowName : Time
  nowStamp : Time
  nowTask : Time

/-- The map `actionStates` of `createTaskForContact`: state and title prefix. -/
def actionStates : List (Str × Str) :=
  [ ("followup".toList, "Follow up with".toList), ("ping".toList, "Ping".toList),
    ("scheduled".toList, "Meeting with".toList), ("timeout".toList, "Follow up with".toList) ]

/-- The apostrophe, as a character. -/
def apostrophe : Char := Char.ofNat 39

/-- The title of the task for a contact title, a new state and its prefix. -/
def taskTitle (taskPrefix title newState : Str) : Str :=
  taskPrefix ++ " ".toList ++ title ++
    (if newState = "timeout".toList then " (no response)".toList else [])

/-- The sentence that describes the task, by new state. -/
def taskDescription (title newState : Str) : Str :=
  if newState = "followup".toList then
    "Follow up with ".toList ++ title ++ " regarding previous conversation.\n".toList
  else if newState = "ping".toList then
    "Send a quick check-in message to ".toList ++ title ++ ".\n".toList
  else if newState = "scheduled".toList then
    "Scheduled meeting or call with ".toList ++ title ++ ".\n".toList
  else if newState = "timeout".toList then
    title ++ " has not responded. Consider following up or closing the loop.\n".toList
  else []

/-- The file name and the content of the task file that
`createTaskForContact` builds, for a state with title prefix `taskPrefix`. -/
def taskFile (table : Char → Char) (now : Time) (contact : Contact) (newState taskPrefix : Str) :
    Str × Str :=
  let title := taskTitle taskPrefix contact.Title newState
  let dateStr := now.Format20060102T150405
  let titleSlug := ToLower table (ReplaceAll title ' ' "-".toList)
  let titleSlug := ReplaceAll titleSlug '(' []
  let titleSlug := ReplaceAll titleSlug ')' []
  let titleSlug := ReplaceAll titleSlug apostrophe []
  let titleSlug := ReplaceAll titleSlug '.' []
  let tags := ["task".toList, "contact-".toList ++ newState]
  let indexID := Int.tmod now.Unix 100000
  let content :=
    "---\n".toList ++ ("title: ".toList ++ title ++ "\n".toList) ++
    ("date: ".toList ++ now.Format2006_01_02 ++ "\n".toList) ++
    ("tags: [".toList ++ Join tags ", ".toList ++ "]\n".toList) ++
    ("identifier: ".toList ++ dateStr ++ "\n".toList) ++
    ("index_id: ".toList ++ formatInt indexID ++ "\n".toList) ++
    "type: task\n".toList ++ "status: open\n".toList ++
    (if contact.Label ≠ [] then "label: ".toList ++ contact.Label ++ "\n".toList else []) ++
    ("contact_id: ".toList ++ contact.Identifier ++ "\n".toList) ++
    "---\n\n".toList ++ taskDescription contact.Title newState
  (dateStr ++ "--".toList ++ titleSlug ++ "__task.md".toList, content)

/-- Method `Model.createTaskForContact`: for a state of `actionStates`, write
the task file under the notes directory; the result is the new file system, or
the text of the error. -/
def createTaskForContact (env : Env) (now : Time) (fs : FS) (contact : Contact) (newState : Str) :
    Except Str FS :=
  match actionStates.lookup newState with
  | none => .ok fs
  | some taskPrefix =>
    let (filename, content) := taskFile env.table now contact newState taskPrefix
    let notesDir := env.pathJoin env.homeDir "notes".toList
    match env.mkdirAll notesDir with
    | some text => .error ("failed to create notes directory: ".toList ++ text)
    | none =>
      let taskPath := env.pathJoin notesDir filename
      match fs.WriteFile taskPath content with
      | none =>
        .error ("failed to create task file ".toList ++ [apostrophe] ++ filename ++
          [apostrophe] ++ ": ".toList ++ env.writeErrorText taskPath)
      | some fs' => .ok fs'

/-- The contact `logContactInteraction` saves: last contact, interaction type
and state set, and a non-empty note put before the body under a dated heading. -/
def loggedContact (m : Model) (contact : Contact) (now : Time) (note : Str) : Contact :=
  let contact : Contact :=
    { contact with LastContacted := some now, LastInteractionType := m.interactionType,
                   State := m.interactionState }
  if note ≠ [] then
    { contact with Content :=
        "## ".toList ++ now.Format2006_01_02 ++ " - ".toList ++ m.interactionType ++
          "\n\n".toList ++ note ++ "\n\n".toList ++ contact.Content }
  else contact

/-- The task step of `logContactInteraction`: the file system after it,
whether a task was created, and the annotation of a task error. -/
def annotatedTask (env : Env) (now : Time) (fs : FS) (contact : Contact) (newState : Str) :
    FS × Bool × Str :=
  match createTaskForContact env now fs contact newState with
  | .error text => (fs, false, " [task error: ".toList ++ text ++ "]".toList)
  | .ok fs' => (fs', decide (newState ∈ taskStates), [])

/-- Method `Model.logContactInteraction`: the command that logs a complete
interaction.  The result is the message it reports and the file system it
leaves.  The note is read as text; a note that is not valid UTF-8 (the note
step appends one-byte keys only, so none it builds is) ends the run in
`Fault.invalidUTF8`. -/
def logContactInteraction (env : Env) (clk : Clock) (fs : FS) (m : Model) (contact : Contact) :
    Except Fault (Msg × FS) :=
  match decodeStrict m.interactionNote with
  | none => .error .invalidUTF8
  | some note =>
    let oldState := contact.State
    let contact := loggedContact m contact clk.now note
    match SaveContactFile env.yaml env.table clk.nowName clk.nowStamp fs contact with
    | .error e => .ok (.errorMsg (.save contact.Title e), fs)
    | .ok fs1 =>
      let task : FS × Bool × Str :=
        if oldState ≠ m.interactionState then
          annotatedTask env clk.nowTask fs1 contact m.interactionState
        else (fs1, false, [])
      match ParseContactFile env.yaml task.1 contact.FilePath with
      | .error e => .ok (.errorMsg (.reload contact.Title e), task.1)
      | .ok updatedContact =>
        let message :=
          "Logged ".toList ++ m.interactionType ++ " interaction with ".toList ++ contact.Title
        let message :=
          if m.interactionState ≠ "ok".toList then
            message ++ " (â†’ ".toList ++ m.interactionState ++ ")".toList
          else message
        let message := if task.2.1 then message ++ " [task created]".toList else message
        .ok (.contactUpdatedMsg updatedContact (message ++ task.2.2), task.1)

/-- Method `Model.bumpContact`: the command that updates the bump date. -/
def bumpContact (env : Env) (clk : Clock) (fs : FS) (contact : Contact) :
    Except Fault (Msg × FS) :=
  let contact : Contact :=
    { contact with LastBumpDate := some clk.now, BumpCount := contact.BumpCount + 1 }
  match SaveContactFile env.yaml env.table clk.nowName clk.nowStamp fs contact with
  | .error e => .ok (.errorMsg (.save contact.Title e), fs)
  | .ok fs1 =>
    match ParseContactFile env.yaml fs1 contact.FilePath with
    | .error e => .ok (.errorMsg (.reload contact.Title e), fs1)
    | .ok updatedContact =>
      .ok (.contactUpdatedMsg updatedContact
        ("Bumped ".toList ++ contact.Title ++ " (review #".toList ++
          formatInt contact.BumpCount ++ ")".toList), fs1)

/-- An edit value as the save commands read it: `strings.TrimSpace` of
`m.editValues[field]`, for a value that is valid UTF-8.  A value that is not
(Backspace removes one byte, and can cut a rune of the loaded contact in two)
is trimmed and saved by the code as the bytes it is; no contact of this
embedding holds it, and the result here is `Fault.invalidUTF8`. -/
def editText (m : Model) (field : Int) : Except Fault Str :=
  match index m.editValues field with
  | none => .error .panic
  | some v =>
    match decodeStrict v with
    | none => .error .invalidUTF8
    | some s => .ok (TrimSpace s)

/-- The tag list the save commands rebuild from the tags edit value:
`contact`, then each field of the value without one leading `#`, empty
entries and `contact` left out. -/
def rebuildTags (tagStr : Str) : List Str :=
  contactTag ::
    ((Fields tagStr).map (fun tag => TrimPrefix tag "#".toList)).filter
      (fun tag => tag ≠ [] ∧ tag ≠ contactTag)

/-- The task step of `saveEditedContact` and `saveNewContact`: the file system
after it and whether a task was created; an error of the task is dropped. -/
def silentTask (env : Env) (now : Time) (fs : FS) (contact : Contact) : FS × Bool :=
  match createTaskForContact env now fs contact contact.State with
  | .error _ => (fs, false)
  | .ok fs' => (fs', decide (contact.State ∈ taskStates))

/-- The contact `saveEditedContact` saves: the edited contact with the values
of the form applied. -/
def editedContact (m : Model) (contact : Contact) (now : Time) : Except Fault Contact :=
  do
    let title ← editText m fieldTitle
    let email ← editText m fieldEmail
    let phone ← editText m fieldPhone
    let company ← editText m fieldCompany
    let role ← editText m fieldRole
    let location ← editText m fieldLocation
    let relationType ← editText m fieldRelationType
    let contactStyle ← editText m fieldContactStyle
    let state ← editText m fieldState
    let tagStr ← editText m fieldTags
    pure { contact with Title := title, Email := email, Phone := phone, Company := company,
                        Role := role, Location := location, RelationshipType := relationType,
                        ContactStyle := contactStyle, State := state,
                        Tags := rebuildTags tagStr, UpdatedAt := now }

/-- Method `Model.saveEditedContact`: the command that saves the edited
contact. -/
def saveEditedContact (env : Env) (clk : Clock) (fs : FS) (m : Model) :
    Except Fault (Msg × FS) :=
  match m.editingContact with
  | none => .ok (.errorMsg .noContactBeingEdited, fs)
  | some old =>
    match editedContact m old clk.now with
    | .error f => .error f
    | .ok contact =>
      match SaveContactFile env.yaml env.table clk.nowName clk.nowStamp fs contact with
      | .error e => .ok (.errorMsg (.save contact.Title e), fs)
      | .ok fs1 =>
        let task : FS × Bool :=
          if old.State ≠ contact.State then silentTask env clk.nowTask fs1 contact
          else (fs1, false)
        match ParseContactFile env.yaml task.1 contact.FilePath with
        | .error e => .ok (.errorMsg (.reload contact.Title e), task.1)
        | .ok updatedContact =>
          let message := "Updated ".toList ++ contact.Title
          let message := if task.2 then message ++ " [task created]".toList else message
          .ok (.contactUpdatedMsg updatedContact message, task.1)

/-- Method `Model.saveQuickTypeChange`: the command that saves a quick type
change. -/
def saveQuickTypeChange (env : Env) (clk : Clock) (fs : FS) (contact : Contact) :
    Except Fault (Msg × FS) :=
  let contact : Contact := { contact with UpdatedAt := clk.now }
  match SaveContactFile env.yaml env.table clk.nowName clk.nowStamp fs contact with
  | .error e => .ok (.errorMsg (.save contact.Title e), fs)
  | .ok fs1 =>
    match ParseContactFile env.yaml fs1 contact.FilePath with
    | .error e => .ok (.errorMsg (.reload contact.Title e), fs1)
    | .ok updatedContact =>
      .ok (.contactUpdatedMsg updatedContact
        ("Changed ".toList ++ contact.Title ++ " to ".toList ++ contact.RelationshipType), fs1)

/-- Method `Model.saveNewContact`: the command that creates and saves a new
contact. -/
def saveNewContact (env : Env) (clk : Clock) (fs : FS) (m : Model) : Except Fault (Msg × FS) :=
  do
    let name ← editText m fieldTitle
    if name = [] then pure (.errorMsg .nameRequired, fs)
    else
      let now := clk.now
      let dateStr := now.Format20060102T150405
      let email ← editText m fieldEmail
      let phone ← editText m fieldPhone
      let company ← editText m fieldCompany
      let role ← editText m fieldRole
      let location ← editText m fieldLocation
      let relationType ← editText m fieldRelationType
      let contactStyle ← editText m fieldContactStyle
      let state ← editText m fieldState
      let tagStr ← editText m fieldTags
      let contact : Contact :=
        { zeroContact with Date := now, Title := name, Identifier := dateStr, Email := email,
                           Phone := phone, Company := company, Role := role,
                           Location := location, RelationshipType := relationType,
                           ContactStyle := contactStyle, State := state, UpdatedAt := now,
                           Tags := rebuildTags tagStr }
      match env.stat m.contactsDir with
      | .notExist => pure (.errorMsg (.contactsDirMissing m.contactsDir), fs)
      | .failed => pure (.errorMsg (.contactsDirInaccessible m.contactsDir), fs)
      | _ =>
        let nameSlug := ToLower env.table (ReplaceAll name ' ' "-".toList)
        let nameSlug := ReplaceAll nameSlug apostrophe []
        let nameSlug := ReplaceAll nameSlug '.' []
        let filename := dateStr ++ "--".toList ++ nameSlug ++ "__contact.md".toList
        let contact : Contact := { contact with FilePath := env.pathJoin m.contactsDir filename }
        match SaveContactFile env.yaml env.table clk.nowName clk.nowStamp fs contact with
        | .error e => pure (.errorMsg (.save name e), fs)
        | .ok fs1 =>
          let task : FS × Bool :=
            if contact.State ≠ [] ∧ contact.State ≠ "ok".toList then
              silentTask env clk.nowTask fs1 contact
            else (fs1, false)
          match ParseContactFile env.yaml task.1 contact.FilePath with
          | .error e => pure (.errorMsg (.reload contact.Title e), task.1)
          | .ok savedContact =>
            let message := "Created ".toList ++ contact.Title
            let message := if task.2 then message ++ " [task created]".toList else message
            pure (.contactUpdatedMsg savedContact message, task.1)

/-- The command of `Model.loadContacts`, run for the directory of the model. -/
def runLoadContacts (env : Env) (fs : FS) (m : Model) : Msg :=
  match loadContacts env.yaml env.table env.sortSlice fs (env.stat m.contactsDir)
      (env.stat m.contactsDir) (env.walk m.contactsDir) with
  | .error e => .errorMsg (.scan e)
  | .ok contacts => .contactsLoadedMsg contacts

/-- Run a command: the message it delivers, if any, and the file system it
leaves. -/
def runCmd (env : Env) (clk : Clock) (fs : FS) : Cmd → Except Fault (Option Msg × FS)
  | .none => .ok (none, fs)
  | .Quit => .ok (none, fs)
  | .clearMessageAfter _ => .ok (some .clearMessageMsg, fs)
  | .loadContacts m => .ok (some (runLoadContacts env fs m), fs)
  | .logContactInteraction m contact =>
    (logContactInteraction env clk fs m contact).map (fun r => (some r.1, r.2))
  | .bumpContact _ contact => (bumpContact env clk fs contact).map (fun r => (some r.1, r.2))
  | .saveEditedContact m => (saveEditedContact env clk fs m).map (fun r => (some r.1, r.2))
  | .saveQuickTypeChange _ contact =>
    (saveQuickTypeChange env clk fs contact).map (fun r => (some r.1, r.2))
  | .saveNewContact m => (saveNewContact env clk fs m).map (fun r => (some r.1, r.2))

/-! ## Sample data for the application state -/

/-- Jane as loaded from her file, state `ok`. -/
def janeOnDisk : Contact :=
  { jane with FilePath := "contacts/20240305--jane-q-doe__contact.md".toList,
              State := "ok".toList }

/-- Jane after her state was set to `followup` and saved at `sampleLater`. -/
def janeFollowup : Contact :=
  { janeOnDisk with State := "followup".toList, UpdatedAt := sampleLater }

/-- Header `yaml.v3` writes for `janeFollowup`. -/
def janeFollowupHeader : Str :=
  ("title: Jane Q. Doe\ndate: 2024-03-05T00:00:00Z\ntags:\n    - contact\n" ++
   "identifier: 20240305T000000\nrelationship_type: close\nstate: followup\n" ++
   "updated_at: 2024-06-01T12:00:00Z\n").toList

/-- Jane after an email interaction was logged at `sampleLater` with next
state `followup`. -/
def janeLogged : Contact :=
  { janeFollowup with LastContacted := some sampleLater,
                      LastInteractionType := "email".toList }

/-- Header `yaml.v3` writes for `janeLogged`. -/
def janeLoggedHeader : Str :=
  ("title: Jane Q. Doe\ndate: 2024-03-05T00:00:00Z\ntags:\n    - contact\n" ++
   "identifier: 20240305T000000\nrelationship_type: close\nstate: followup\n" ++
   "last_contacted: 2024-06-01T12:00:00Z\nupdated_at: 2024-06-01T12:00:00Z\n" ++
   "last_interaction_type: email\n").toList

/-- The codec on the documents of the save examples. -/
def saveYaml : Yaml :=
  tableYaml
    [ (janeFollowupHeader, headerOf janeFollowup),
      (janeLoggedHeader, headerOf janeLogged) ]

/-- An environment in which every operation succeeds; paths are joined with
a slash. -/
def sampleEnv : Env where
  yaml := saveYaml
  table := id
  sortSlice := insertionSortSlice
  homeDir := "/home/me".toList
  pathJoin := fun a b => a ++ "/".toList ++ b
  mkdirAll := fun _ => none
  writeErrorText := fun _ => "permission denied".toList
  stat := fun _ => StatResult.dir
  walk := fun _ => []

/-- A file system holding nothing in which nothing under `/home/me/notes` can
be written. -/
def lockedNotesFS : FS where
  files := fun _ => none
  writable := fun p => !HasPrefix p "/home/me/notes".toList

/-- Every reading of the clock is `sampleLater`. -/
def sampleClock : Clock := ⟨sampleLater, sampleLater, sampleLater, sampleLater⟩

/-- The list view showing Jane alone. -/
def listOfJane : Model :=
  { NewModel "contacts".toList with contacts := [janeOnDisk], filtered := [janeOnDisk] }

/-- The edit view on Jane, entered from the list, with the state set to
`followup`. -/
def editOfJane : Model :=
  let m := initializeEditValues { listOfJane with editingContact := some janeOnDisk } janeOnDisk
  { m with currentView := .ViewEdit, entryView := .ViewList, editField := -1,
           editValues := m.editValues.set 8 (utf8 "followup".toList) }

/-- Feed a sequence of keys to `Update`, dropping the commands. -/
def pressKeys (table : Char → Char) (now : Time) : Model → List KeyMsg → Except Fault Model
  | m, [] => .ok m
  | m, k :: rest =>
    match Update table now m (.KeyMsg k) with
    | .error f => .error f
    | .ok (m', _) => pressKeys table now m' rest

/-- An environment whose contacts directory does not exist. -/
def missingDirEnv : Env := { sampleEnv with stat := fun _ => StatResult.notExist }

/-- A file system holding nothing in which no file can be written. -/
def readOnlyFS : FS where
  files := fun _ => none
  writable := fun _ => false

/-- A contact of the company Acme Corp. -/
def acmeContact : Contact :=
  { zeroContact with Title := "Bob".toList, Tags := [contactTag], Company := "Acme Corp".toList }

/-! ## Notions used to state the workflow properties -/

/-- The views of the workflows entered from the list or the detail view. -/
def isWorkflow (v : ViewMode) : Prop :=
  v = .ViewEdit ∨ v = .ViewCreate ∨ v = .ViewInteractionType ∨ v = .ViewQuickType

/-- The transient fields of the workflow of view `v` are cleared in `m`. -/
def cleared (v : ViewMode) (m : Model) : Prop :=
  match v with
  | .ViewEdit => m.editingContact = none ∧ m.editValues = []
  | .ViewCreate => m.editValues = []
  | .ViewInteractionType =>
    m.contactToMark = none ∧ m.interactionType = [] ∧ m.interactionState = [] ∧
      m.interactionNote = [] ∧ m.contactLogStep = 0
  | .ViewQuickType => m.contactToMark = none
  | _ => True

/-- The step from `m` to `m'` stays in the view of `m`: same current view,
same entry view, and in the quick type view still a contact to mark. -/
def staysIn (m m' : Model) : Prop :=
  m'.currentView = m.currentView ∧ m'.entryView = m.entryView ∧
    (m.currentView = .ViewQuickType → m'.contactToMark ≠ none)

/-- The step from `m` to `m'` ends the workflow of `m`: the current view is
the entry view of `m` and the transient fields of the workflow are cleared. -/
def endsWorkflow (m m' : Model) : Prop :=
  m'.currentView = m.entryView ∧ cleared m.currentView m'

/-- What holds of a model that has just entered the workflow of its current
view: the form is in selection mode, the logging flow is at its first or
second step, and the contact the workflow acts on is set. -/
def fresh (m : Model) : Prop :=
  match m.currentView with
  | .ViewEdit => m.editingContact ≠ none ∧ m.editField = -1
  | .ViewCreate => m.editField = -1
  | .ViewInteractionType => m.contactLogStep = 0 ∨ m.contactLogStep = 1
  | .ViewQuickType => m.contactToMark ≠ none
  | _ => True

/-- The models reached from `e` by messages after each of which the current
view is still the view of `e`. -/
inductive Within (table : Char → Char) (now : Time) (e : Model) : Model → Prop where
  | start : Within table now e e
  | step (m : Model) (msg : Msg) (r : Model × Cmd) : Within table now e m →
      Update table now m msg = .ok r → r.1.currentView = e.currentView →
      Within table now e r.1

/-- The model and command after the key `e` in the list showing Jane. -/
def janeEntered : Model × Cmd :=
  ({ initializeEditValues { listOfJane with editingContact := some janeOnDisk } janeOnDisk with
       entryView := .ViewList, currentView := .ViewEdit, editField := -1 }, .none)

/-! ## The task rule in the words of the specification -/

/-- The title of the task by new state, in the words of the specification. -/
def taskTitleSpec (title state : Str) : Str :=
  if state = "followup".toList then "Follow up with ".toList ++ title
  else if state = "ping".toList then "Ping ".toList ++ title
  else if state = "scheduled".toList then "Meeting with ".toList ++ title
  else "Follow up with ".toList ++ title ++ " (no response)".toList

/-- A save with previous state `oldState` and new state `newState` is to
write a task: the state changed, to one of followup, ping, scheduled, timeout. -/
def taskDue (oldState newState : Str) : Prop :=
  oldState ≠ newState ∧ newState ∈ taskStates

/-- The directory the tasks are written to. -/
def notesDir (env : Env) : Str := env.pathJoin env.homeDir "notes".toList

/-- Between `fs1` and `fs2` exactly one file was written, under the notes
directory, and it opens with the title line of the specification. -/
def oneTaskWritten (env : Env) (fs1 fs2 : FS) (title state : Str) : Prop :=
  ∃ name rest : Str,
    fs1.WriteFile (env.pathJoin (notesDir env) name)
      ("---\ntitle: ".toList ++ taskTitleSpec title state ++ "\n".toList ++ rest) = some fs2

/-- The file system after Jane, set to `followup`, was saved to the empty
file system. -/
def janeSavedFS : FS :=
  match SaveContactFile saveYaml id sampleLater sampleLater emptyFS janeFollowup with
  | .ok fs => fs
  | .error _ => emptyFS

/-- The message and the file system after the edit of Jane was saved to the
empty file system. -/
def janeEditSaved : Msg × FS :=
  match saveEditedContact sampleEnv sampleClock emptyFS editOfJane with
  | .ok r => r
  | .error _ => (Msg.other, emptyFS)

/-! ## `internal/ui/list_view.go`: the status shown on a line -/

/-- The status indicators of `renderContactLine`. -/
inductive Indicator where
  | overdue
  | attention
  | good
  | plain
  deriving DecidableEq, Repr

/-- The choice of the status indicator in `renderContactLine`: overdue before
needs-attention before within-threshold. -/
def statusIndicator (contact : Contact) (now : Time) : Indicator :=
  if IsOverdue contact now then .overdue
  else if NeedsAttention contact now then .attention
  else if IsWithinThreshold contact now then .good
  else .plain

/-- A contact with custom frequency `freq` last contacted `days` whole days
before `sampleNow`. -/
def contactedDaysAgo (freq days : Int) : Contact :=
  { contactedAt (-(days * 24 * Hour)) with CustomFrequencyDays := freq }

/-- The list view showing Jane (close) and the contact of Acme Corp (no
relationship type). -/
def listOfTwo : Model :=
  { NewModel "contacts".toList with contacts := [janeOnDisk, acmeContact],
                                    filtered := [janeOnDisk, acmeContact] }

/-! ## The logged note in the words of the specification -/

/-- The body after a logged interaction of type `t` with note `n` on the day
`date`, in the words of the specification: the dated heading and the note
before the previous body, or the previous body when there is no note. -/
def loggedBodySpec (date t n previous : Str) : Str :=
  if n = [] then previous
  else "## ".toList ++ date ++ " - ".toList ++ t ++ "\n\n".toList ++ n ++ "\n\n".toList ++ previous

/-- The logging flow on Jane at its last step: an email, next state
`followup`, with the note `Lunch`. -/
def loggingJane : Model :=
  { listOfJane with currentView := .ViewInteractionType, contactToMark := some janeOnDisk,
                    contactLogStep := 2, interactionType := "email".toList,
                    interactionState := "followup".toList,
                    interactionNote := utf8 "Lunch".toList }

/-- The file system after the logged contact of `loggingJane` was saved to
the empty file system. -/
def janeLoggedFS : FS :=
  match SaveContactFile saveYaml id sampleLater sampleLater emptyFS
      (loggedContact loggingJane janeOnDisk sampleLater "Lunch".toList) with
  | .ok fs => fs
  | .error _ => emptyFS

/-! ## Sample data for the quick state change -/

/-- The logging flow on Jane after the list key `s` and the state key `f`:
type `note`, next state `followup`, no note. -/
def quickJane : Model :=
  { listOfJane with currentView := .ViewInteractionType, entryView := .ViewList,
                    contactToMark := some janeOnDisk, contactLogStep := 2,
                    interactionType := "note".toList,
                    interactionState := "followup".toList, interactionNote := [] }

/-- Jane as the quick state change to `followup` at `sampleLater` saves her. -/
def janeQuick : Contact :=
  { janeFollowup with LastContacted := some sampleLater,
                      LastInteractionType := "note".toList }

/-- Header `yaml.v3` writes for `janeQuick`. -/
def janeQuickHeader : Str :=
  ("title: Jane Q. Doe\ndate: 2024-03-05T00:00:00Z\ntags:\n    - contact\n" ++
   "identifier: 20240305T000000\nrelationship_type: close\nstate: followup\n" ++
   "last_contacted: 2024-06-01T12:00:00Z\nupdated_at: 2024-06-01T12:00:00Z\n" ++
   "last_interaction_type: note\n").toList

/-- The sample environment with the codec on the document of `janeQuick`. -/
def quickEnv : Env :=
  { sampleEnv with yaml := tableYaml [(janeQuickHeader, headerOf janeQuick)] }

/-- The file system after the quick state change on Jane was saved to the
empty file system. -/
def janeQuickFS : FS :=
  match SaveContactFile quickEnv.yaml id sampleLater sampleLater emptyFS
      (loggedContact quickJane janeOnDisk sampleLater []) with
  | .ok fs => fs
  | .error _ => emptyFS

/-! ## The quick state change in the words of the amended claim -/

/-- The logging flow as the list key `s` and a state key leave it: on the
contact `c`, at the note step, with type `note`, next state `st` and no note. -/
def quickChange (m : Model) (c : Contact) (st : Str) : Model :=
  { m with contactToMark := some c, entryView := m.currentView,
           currentView := .ViewInteractionType, contactLogStep := 2,
           interactionType := "note".toList, interactionState := st, interactionNote := [] }

/-- The contact `c` changed in state, last contact, last interaction type and
update time only. -/
def quickRecord (c : Contact) (st : Str) (now nowStamp : Time) : Contact :=
  { c with State := st, LastContacted := some now, LastInteractionType := "note".toList,
           UpdatedAt := nowStamp }

/-! ## The file name of a new contact -/

/-- The slug `saveNewContact` computes from the name: spaces to hyphens,
lower case, apostrophes and periods removed. -/
def createSlug (table : Char → Char) (name : Str) : Str :=
  ReplaceAll (ReplaceAll (ToLower table (ReplaceAll name ' ' "-".toList)) apostrophe []) '.' []

/-- The file name `saveNewContact` builds for a contact named `name` and
created at `now`. -/
def createFileName (table : Char → Char) (now : Time) (name : Str) : Str :=
  now.Format20060102T150405 ++ "--".toList ++ createSlug table name ++ "__contact.md".toList

/-- The characters of a plain name: ASCII letters, digits, space, hyphen,
period and apostrophe. -/
def plainAlphabet : Str :=
  "ABCDEFGHIJKLMNOPQRSTUVWXYZabcdefghijklmnopqrstuvwxyz0123456789 -.".toList ++ [apostrophe]

/-- The create form, entered from the list, with the name `Bob` typed. -/
def createOfBob : Model :=
  let m := initializeCreateValues listOfJane
  { m with currentView := .ViewCreate, entryView := .ViewList, editField := -1,
           editValues := m.editValues.set 0 (utf8 "Bob".toList) }

/-- Bob as the create form saves him at `sampleLater` (2024-06-01T12:00:00Z)
in the directory `contacts`. -/
def bobCreated : Contact :=
  { zeroContact with
    Date := sampleLater, Title := "Bob".toList, Identifier := "20240601T120000".toList,
    RelationshipType := "network".toList, ContactStyle := "periodic".toList,
    State := "ok".toList, UpdatedAt := sampleLater, Tags := [contactTag],
    FilePath := "contacts/20240601T120000--bob__contact.md".toList }

/-- Header `yaml.v3` writes for `bobCreated`. -/
def bobHeader : Str :=
  ("title: Bob\ndate: 2024-06-01T12:00:00Z\ntags:\n    - contact\n" ++
   "identifier: 20240601T120000\nrelationship_type: network\nstate: ok\n" ++
   "contact_style: periodic\nupdated_at: 2024-06-01T12:00:00Z\n").toList

/-- The sample environment with the codec on the document of `bobCreated`. -/
def createEnv : Env :=
  { sampleEnv with yaml := tableYaml [(bobHeader, headerOf bobCreated)] }

/-! ## The tags through the edit form -/

/-- The tags of a contact after an edit that leaves the tags field as it was
filled: `initializeEditValues` joins the tags other than `contact` with
spaces, `saveEditedContact` trims the field and rebuilds the list from it. -/
def retag (tags : List Str) : List Str :=
  rebuildTags (TrimSpace (Join (tags.filter (fun tag => tag ≠ contactTag)) " ".toList))

/-- Jane with a tag that begins with two `#`. -/
def janeTagged : Contact := { janeOnDisk with Tags := [contactTag, "##vip".toList] }

/-- The edit form on the contact `c`, entered from the list, with nothing
typed. -/
def editFormOf (c : Contact) : Model :=
  let m := initializeEditValues { listOfJane with editingContact := some c } c
  { m with currentView := .ViewEdit, entryView := .ViewList, editField := -1 }

/-! ## What a command writes, in the words of the amended claims -/

/-- The name of the file `createTaskForContact` writes for a contact and a
new state of `actionStates` (`filename` in the code). -/
def taskFileName (env : Env) (now : Time) (contact : Contact) (state : Str) : Str :=
  match actionStates.lookup state with
  | some taskPrefix => (taskFile env.table now contact state taskPrefix).1
  | none => []

/-- The task file can be written: `os.MkdirAll` of the notes directory
succeeds, and so does `os.WriteFile` on the path of the task file under it. -/
def taskWritable (env : Env) (now : Time) (fs : FS) (contact : Contact) (state : Str) : Prop :=
  env.mkdirAll (notesDir env) = none ∧
    fs.writable (env.pathJoin (notesDir env) (taskFileName env now contact state)) = true

/-- Between `fs1` and `fs2` nothing was written, or one file under the notes
directory. -/
def atMostTaskWritten (env : Env) (fs1 fs2 : FS) : Prop :=
  fs2 = fs1 ∨
    ∃ name content : Str, fs1.WriteFile (env.pathJoin (notesDir env) name) content = some fs2

/-- The message is the report of a failed reload, or the `contactUpdatedMsg`
with the contact parsed from `path` in `fs2`. -/
def reloadedFrom (env : Env) (fs2 : FS) (path : Str) (msg : Msg) : Prop :=
  (∃ (title : Str) (e : ParseError),
    ParseContactFile env.yaml fs2 path = .error e ∧ msg = Msg.errorMsg (CmdError.reload title e)) ∨
  (∃ (updated : Contact) (message : Str),
    ParseContactFile env.yaml fs2 path = .ok updated ∧
      msg = Msg.contactUpdatedMsg updated message)

/-- Every byte of the text is ASCII. -/
def asciiBytes (b : Bytes) : Prop := ∀ x ∈ b, x.toNat < 128

/-! ## Sample data for the entry from the detail view -/

/-- The detail view on Jane, as Enter in the list showing her opens it. -/
def detailOfJane : Model :=
  { listOfJane with selectedContact := some janeOnDisk, currentView := .ViewDetail }

/-- The model and command after the key `e` in the detail view on Jane. -/
def janeEnteredFromDetail : Model × Cmd :=
  ({ initializeEditValues { detailOfJane with editingContact := some janeOnDisk } janeOnDisk with
       entryView := .ViewDetail, currentView := .ViewEdit, editField := -1 }, .none)

/-- The detail view on Jane after her edit was saved: the updated contact is
selected and listed, the form is cleared, the message is shown. -/
def janeBackInDetail : Model :=
  { detailOfJane with contacts := [janeFollowup], filtered := [janeFollowup],
                      selectedContact := some janeFollowup,
                      message := "Updated Jane Q. Doe".toList, entryView := .ViewDetail,
                      editField := -1 }

/-! ## Theorems: the status engine -/

theorem GetFrequencyDays_nonneg (c : Contact) : 0 ≤ GetFrequencyDays c := by
  unfold GetFrequencyDays
  split_ifs <;> omega

theorem DaysSinceContact_none (c : Contact) (now : Time) (h : c.LastContacted = none) :
    DaysSinceContact c now = -1 := by
  simp [DaysSinceContact, h]

/-- Away from the sentinel collision (`lastContacted` set and
`DaysSinceContact = -1`), `IsOverdue` agrees with its specification. -/
theorem IsOverdue_eq_spec_of (c : Contact) (now : Time)
    (h : c.LastContacted = none ∨ DaysSinceContact c now ≠ -1) :
    IsOverdue c now = IsOverdueSpec c now := by
  unfold IsOverdue IsOverdueSpec
  by_cases hs : c.ContactStyle ≠ StylePeriodic ∧ c.ContactStyle ≠ []
  · have hs' : c.ContactStyle ≠ [] ∧ c.ContactStyle ≠ StylePeriodic := ⟨hs.2, hs.1⟩
    rw [if_pos hs, if_pos hs']
  · have hs' : ¬ (c.ContactStyle ≠ [] ∧ c.ContactStyle ≠ StylePeriodic) :=
      fun h => hs ⟨h.2, h.1⟩
    rw [if_neg hs, if_neg hs']
    by_cases hf : GetFrequencyDays c = 0
    · simp [hf]
    · simp only [hf, if_false]
      by_cases hn : c.LastContacted = none
      · simp [hn, DaysSinceContact_none c now hn]
      · have hd : DaysSinceContact c now ≠ -1 := by
          rcases h with h | h
          · exact absurd h hn
          · exact h
        simp [hn, hd]

/-- Away from the sentinel collision, `NeedsAttention` agrees with its
specification. -/
theorem NeedsAttention_eq_spec_of (c : Contact) (now : Time)
    (h : c.LastContacted = none ∨ DaysSinceContact c now ≠ -1) :
    NeedsAttention c now = NeedsAttentionSpec c now := by
  unfold NeedsAttention NeedsAttentionSpec
  by_cases hs : c.ContactStyle ≠ StylePeriodic ∧ c.ContactStyle ≠ []
  · have hs' : c.ContactStyle ≠ [] ∧ c.ContactStyle ≠ StylePeriodic := ⟨hs.2, hs.1⟩
    rw [if_pos hs, if_pos hs']
  · have hs' : ¬ (c.ContactStyle ≠ [] ∧ c.ContactStyle ≠ StylePeriodic) :=
      fun h => hs ⟨h.2, h.1⟩
    rw [if_neg hs, if_neg hs']
    by_cases hf : GetFrequencyDays c = 0
    · simp [hf]
    · simp only [hf, if_false]
      by_cases hn : c.LastContacted = none
      · simp [hn, DaysSinceContact_none c now hn]
      · have hd : DaysSinceContact c now ≠ -1 := by
          rcases h with h | h
          · exact absurd h hn
          · exact h
        simp [hn, hd]

/-- C2, evaluated where the code departs from the reference definition: for a
close contact whose `lastContacted` is 36 hours after the current time,
`DaysSinceContact` is `int(-1.5) = -1`, `IsOverdue` takes its never-contacted
branch and returns true, while the reference definition (contacted, and
`-1 > 30` false) gives false. -/
theorem IsOverdue_sentinel_collision :
    (contactedAt (36 * Hour)).LastContacted ≠ none ∧
    DaysSinceContact (contactedAt (36 * Hour)) sampleNow = -1 ∧
    IsOverdue (contactedAt (36 * Hour)) sampleNow = true ∧
    IsOverdueSpec (contactedAt (36 * Hour)) sampleNow = false :=
  ⟨by decide, by rfl, by rfl, by rfl⟩

/-- C3, evaluated where the code departs from the reference definition: for a
close contact whose `lastContacted` is 36 hours after the current time,
`NeedsAttention` takes its never-contacted branch and returns true, while the
reference definition (contacted, and `23 < -1` false) gives false. -/
theorem NeedsAttention_sentinel_collision :
    (contactedAt (36 * Hour)).LastContacted ≠ none ∧
    GetFrequencyDays (contactedAt (36 * Hour)) = 30 ∧
    NeedsAttention (contactedAt (36 * Hour)) sampleNow = true ∧
    NeedsAttentionSpec (contactedAt (36 * Hour)) sampleNow = false :=
  ⟨by decide, by rfl, by rfl, by rfl⟩

/-- At `DaysSinceContact = GetFrequencyDays` exactly, a periodic contact with
a frequency needs attention and is not overdue. -/
theorem boundary_day (c : Contact) (now : Time)
    (hs : c.ContactStyle = StylePeriodic ∨ c.ContactStyle = [])
    (hf : GetFrequencyDays c ≠ 0)
    (hd : DaysSinceContact c now = GetFrequencyDays c) :
    NeedsAttention c now = true ∧ IsOverdue c now = false := by
  have hnn := GetFrequencyDays_nonneg c
  have hs' : ¬ (c.ContactStyle ≠ StylePeriodic ∧ c.ContactStyle ≠ []) := by
    rintro ⟨h1, h2⟩
    rcases hs with h | h
    · exact h1 h
    · exact h2 h
  have hne : GetFrequencyDays c ≠ -1 := by omega
  constructor
  · unfold NeedsAttention
    simp [hs', hf, hd, hne]
  · unfold IsOverdue
    simp [hs', hf, hd, hne]

/-- C4 as stated fails: a never-contacted close contact (empty style,
frequency 30) is overdue and needs attention although its `DaysSinceContact`
is the sentinel `-1`, which is neither above 30 nor inside `(23, 30]`. -/
theorem status_implications_never_contacted :
    ¬ (∀ (c : Contact) (now : Time),
        (c.ContactStyle = StylePeriodic ∨ c.ContactStyle = []) →
        0 < GetFrequencyDays c →
        (IsOverdue c now = true → DaysSinceContact c now > GetFrequencyDays c) ∧
        (NeedsAttention c now = true →
          GetFrequencyDays c - 7 < DaysSinceContact c now ∧
          DaysSinceContact c now ≤ GetFrequencyDays c) ∧
        (IsWithinThreshold c now = true →
          0 ≤ DaysSinceContact c now ∧
          DaysSinceContact c now ≤ GetFrequencyDays c / 2)) := by
  intro h
  have h1 := (h neverContacted sampleNow (Or.inr rfl) (by decide)).1 (by decide)
  exact absurd h1 (by decide)

/-- C4, amended: for a contact with periodic or empty style and positive
frequency whose `DaysSinceContact` is not the sentinel `-1`, `IsOverdue`
implies `DaysSinceContact > GetFrequencyDays` and `NeedsAttention` implies
`GetFrequencyDays - 7 < DaysSinceContact ≤ GetFrequencyDays`; and, sentinel or
not, `IsWithinThreshold` implies `0 ≤ DaysSinceContact ≤ GetFrequencyDays / 2`. -/
theorem status_implications (c : Contact) (now : Time)
    (hs : c.ContactStyle = StylePeriodic ∨ c.ContactStyle = [])
    (hf : 0 < GetFrequencyDays c) :
    (DaysSinceContact c now ≠ -1 → IsOverdue c now = true →
      DaysSinceContact c now > GetFrequencyDays c) ∧
    (DaysSinceContact c now ≠ -1 → NeedsAttention c now = true →
      GetFrequencyDays c - 7 < DaysSinceContact c now ∧
      DaysSinceContact c now ≤ GetFrequencyDays c) ∧
    (IsWithinThreshold c now = true →
      0 ≤ DaysSinceContact c now ∧
      DaysSinceContact c now ≤ GetFrequencyDays c / 2) := by
  have hs' : ¬ (c.ContactStyle ≠ StylePeriodic ∧ c.ContactStyle ≠ []) := by
    rintro ⟨h1, h2⟩
    rcases hs with h | h
    · exact h1 h
    · exact h2 h
  have hf0 : GetFrequencyDays c ≠ 0 := by omega
  have hdiv : Int.tdiv (GetFrequencyDays c) 2 = GetFrequencyDays c / 2 :=
    Int.tdiv_eq_ediv (by omega) (by omega)
  refine ⟨?_, ?_, ?_⟩
  · intro hd ho
    unfold IsOverdue at ho
    simpa [hs', hf0, hd] using ho
  · intro hd hn
    unfold NeedsAttention at hn
    simpa [hs', hf0, hd] using hn
  · intro hw
    unfold IsWithinThreshold at hw
    by_cases hd : DaysSinceContact c now = -1
    · simp [hs', hf0, hd] at hw
    · rw [← hdiv]
      simpa [hs', hf0, hd] using hw

/-- Witness of `status_implications`: a close contact last contacted 40 days
ago is overdue, and its 40 days exceed the frequency of 30. -/
theorem status_implications_witness :
    IsOverdue (contactedAt (-(40 * 24 * Hour))) sampleNow = true ∧
    DaysSinceContact (contactedAt (-(40 * 24 * Hour))) sampleNow >
      GetFrequencyDays (contactedAt (-(40 * 24 * Hour))) :=
  have hd : DaysSinceContact (contactedAt (-(40 * 24 * Hour))) sampleNow = 40 := by rfl
  ⟨by rfl,
    (status_implications (contactedAt (-(40 * 24 * Hour))) sampleNow (Or.inr rfl)
      (by decide)).1 (by rw [hd]; decide) (by rfl)⟩

/-- C5, evaluated where the code departs from the claim: for a
`lastContacted` one hour after the current time the duration is `-1h`,
`Hours() / 24` is about `-0.04` and `int(...)` truncates it to `0`, which is
neither negative nor the floor `-1` of the elapsed days. -/
theorem DaysSinceContact_future_truncates :
    (contactedAt Hour).LastContacted = some ⟨sampleNow.unixNano + Hour, 0⟩ ∧
    Since sampleNow ⟨sampleNow.unixNano + Hour, 0⟩ = -Hour ∧
    DaysSinceContact (contactedAt Hour) sampleNow = 0 ∧
    DaysSinceContactSpec (contactedAt Hour) sampleNow = -1 :=
  ⟨by rfl, by rfl, by rfl, by rfl⟩

/-- Rounding inside `Duration.Hours`: one nanosecond short of 200 days the
sum `4799 + 0.99999999999972` rounds to `4800.0`, so `DaysSinceContact` is
`200` although only 199 whole days have passed. -/
theorem DaysSinceContact_rounds_up :
    DaysSinceContact (contactedAt (-(200 * 24 * Hour - 1))) sampleNow = 200 ∧
    DaysSinceContactSpec (contactedAt (-(200 * 24 * Hour - 1))) sampleNow = 199 :=
  ⟨by rfl, by rfl⟩

/-- C6: `GetFrequencyDays` returns a positive custom frequency as it is, and
otherwise 30 for close and family, 60 for work, 90 for network and 0 for
every other relationship type; a custom value below 1 never overrides. -/
theorem GetFrequencyDays_cases (c : Contact) :
    (0 < c.CustomFrequencyDays → GetFrequencyDays c = c.CustomFrequencyDays) ∧
    (c.CustomFrequencyDays ≤ 0 →
      ((c.RelationshipType = RelationshipClose ∨ c.RelationshipType = RelationshipFamily) →
        GetFrequencyDays c = 30) ∧
      (c.RelationshipType = RelationshipWork → GetFrequencyDays c = 60) ∧
      (c.RelationshipType = RelationshipNetwork → GetFrequencyDays c = 90) ∧
      (c.RelationshipType ∉
          [RelationshipClose, RelationshipFamily, RelationshipWork, RelationshipNetwork] →
        GetFrequencyDays c = 0) ∧
      (c.RelationshipType ∈
          [RelationshipSocial, RelationshipProviders, RelationshipRecruiters, []] →
        GetFrequencyDays c = 0)) := by
  refine ⟨fun h => by simp [GetFrequencyDays, h], fun h => ?_⟩
  have hc : ¬ c.CustomFrequencyDays > 0 := by omega
  refine ⟨?_, ?_, ?_, ?_, ?_⟩
  · intro hr
    simp [GetFrequencyDays, hc, hr]
  · intro hr
    have h1 : ¬ (RelationshipWork = RelationshipClose ∨ RelationshipWork = RelationshipFamily) := by
      decide
    simp [GetFrequencyDays, hc, hr, h1]
  · intro hr
    have h1 : ¬ (RelationshipNetwork = RelationshipClose ∨
        RelationshipNetwork = RelationshipFamily) := by decide
    have h2 : RelationshipNetwork ≠ RelationshipWork := by decide
    simp [GetFrequencyDays, hc, hr, h1, h2]
  · intro hr
    simp only [List.mem_cons, List.mem_singleton, List.not_mem_nil, or_false, not_or] at hr
    obtain ⟨h1, h2, h3, h4⟩ := hr
    simp [GetFrequencyDays, hc, h1, h2, h3, h4]
  · intro hr
    simp only [List.mem_cons, List.mem_singleton, List.not_mem_nil, or_false] at hr
    rcases hr with hr | hr | hr | hr <;> rw [GetFrequencyDays, if_neg hc, hr] <;> decide

/-- Witness of `GetFrequencyDays_cases`: a custom frequency of 45 wins over the
type default, and a work contact with custom frequency 0 gets 60. -/
theorem GetFrequencyDays_cases_witness :
    GetFrequencyDays { neverContacted with CustomFrequencyDays := 45 } = 45 ∧
    GetFrequencyDays { neverContacted with RelationshipType := RelationshipWork } = 60 ∧
    GetFrequencyDays { neverContacted with RelationshipType := RelationshipSocial,
                                           CustomFrequencyDays := -3 } = 0 :=
  ⟨(GetFrequencyDays_cases { neverContacted with CustomFrequencyDays := 45 }).1 (by decide),
    ((GetFrequencyDays_cases { neverContacted with RelationshipType := RelationshipWork }).2
      (by decide)).2.1 rfl,
    ((GetFrequencyDays_cases { neverContacted with RelationshipType := RelationshipSocial,
                                                   CustomFrequencyDays := -3 }).2
      (by decide)).2.2.2.2 (by decide)⟩

/-! ## Theorems: strings -/

theorem containsTag_iff (tags : List Str) (tag : Str) :
    containsTag tags tag = true ↔ tag ∈ tags := by
  induction tags with
  | nil => simp [containsTag]
  | cons t ts ih =>
    unfold containsTag
    by_cases h : t = tag
    · simp [h]
    · have h' : ¬ tag = t := fun e => h e.symm
      simp [h, h', ih]

theorem HasPrefix_iff (s p : Str) : HasPrefix s p = true ↔ p <+: s := by
  induction s generalizing p with
  | nil =>
    cases p with
    | nil => simp [HasPrefix]
    | cons d p => simp [HasPrefix]
  | cons c s ih =>
    cases p with
    | nil => simp [HasPrefix]
    | cons d p =>
      simp only [HasPrefix, Bool.and_eq_true, beq_iff_eq, ih, List.cons_prefix_cons]
      constructor
      · rintro ⟨h1, h2⟩; exact ⟨h1.symm, h2⟩
      · rintro ⟨h1, h2⟩; exact ⟨h1.symm, h2⟩

theorem HasSuffix_iff (s t : Str) : HasSuffix s t = true ↔ t <:+ s := by
  unfold HasSuffix
  rw [HasPrefix_iff, List.reverse_prefix]

theorem Index_ge (s sep : Str) : -1 ≤ Index s sep := by
  induction s with
  | nil => unfold Index; split_ifs <;> omega
  | cons c s ih => unfold Index; simp only []; split_ifs <;> omega

theorem Index_nonneg_iff (s sep : Str) : 0 ≤ Index s sep ↔ sep <:+: s := by
  induction s with
  | nil =>
    unfold Index
    by_cases h : sep = []
    · simp [h]
    · simp [h]
  | cons c s ih =>
    unfold Index
    by_cases hp : HasPrefix (c :: s) sep = true
    · simp only [hp, if_true, le_refl, true_iff]
      exact ((HasPrefix_iff _ _).1 hp).isInfix
    · simp only [hp]
      have hp' : ¬ sep <+: c :: s := fun h => hp ((HasPrefix_iff _ _).2 h)
      rw [List.infix_cons_iff]
      constructor
      · intro h
        right
        apply ih.1
        by_contra hneg
        have : Index s sep < 0 := by omega
        simp [this] at h
      · rintro (h | h)
        · exact absurd h hp'
        · have := ih.2 h
          have h2 : ¬ Index s sep < 0 := by omega
          simp only [h2, if_false, Bool.false_eq_true]
          omega

theorem Contains_of_HasSuffix (s t : Str) (h : HasSuffix s t = true) : Contains s t = true := by
  unfold Contains
  rw [decide_eq_true_iff]
  exact (Index_nonneg_iff s t).2 ((HasSuffix_iff s t).1 h).isInfix

theorem ReplaceAll_single (s : Str) (old new : Char) :
    ReplaceAll s old [new] = s.map (fun ch => if ch = old then new else ch) := by
  induction s with
  | nil => rfl
  | cons c s ih =>
    have ih' : List.flatMap s (fun ch => if ch = old then [new] else [ch]) =
        s.map (fun ch => if ch = old then new else ch) := ih
    unfold ReplaceAll
    by_cases h : c = old <;> simp [List.flatMap_cons, h, ih']

theorem sanitize_keep_iff (ch : Char) :
    ((decide ('a' ≤ ch) && decide (ch ≤ 'z')) || (decide ('0' ≤ ch) && decide (ch ≤ '9')) ||
      ch == '-') = true ↔ ch ∈ slugAlphabet := by
  constructor
  · intro h
    have key : ∀ n, n < 128 →
        (((decide ('a' ≤ Char.ofNat n) && decide (Char.ofNat n ≤ 'z')) ||
          (decide ('0' ≤ Char.ofNat n) && decide (Char.ofNat n ≤ '9')) ||
          Char.ofNat n == '-') = true → Char.ofNat n ∈ slugAlphabet) := by
      decide
    have hlt : ch.toNat < 128 := by
      simp only [Bool.or_eq_true, Bool.and_eq_true, decide_eq_true_eq, beq_iff_eq] at h
      rcases h with (⟨_, h⟩ | ⟨_, h⟩) | h
      · have : ch.toNat ≤ 'z'.toNat := h
        have e : 'z'.toNat = 122 := by decide
        omega
      · have : ch.toNat ≤ '9'.toNat := h
        have e : '9'.toNat = 57 := by decide
        omega
      · rw [h]; decide
    have := key ch.toNat hlt
    rw [Char.ofNat_toNat] at this
    exact this h
  · intro h
    have key : ∀ x ∈ slugAlphabet,
        ((decide ('a' ≤ x) && decide (x ≤ 'z')) || (decide ('0' ≤ x) && decide (x ≤ '9')) ||
          x == '-') = true := by decide
    exact key ch h

theorem sanitizeName_eq (name : Str) :
    sanitizeName name = name.filter (fun ch => decide (ch ∈ slugAlphabet)) := by
  unfold sanitizeName
  congr 1
  funext ch
  rw [Bool.eq_iff_iff, sanitize_keep_iff, decide_eq_true_iff]

theorem Base_suffix (p : Str) (h1 : p ≠ []) (h2 : p.getLast? ≠ some '/') : Base p <:+ p := by
  obtain ⟨r, rfl⟩ : ∃ r, p = r.reverse := ⟨p.reverse, (List.reverse_reverse p).symm⟩
  cases r with
  | nil => simp at h1
  | cons c r =>
    have hc : c ≠ '/' := by
      intro e
      apply h2
      simp [e]
    unfold Base
    simp only [List.reverse_reverse, h1, if_false]
    have hb : (c == '/') = false := by simpa using hc
    have hd : List.dropWhile (fun ch => ch == '/') (c :: r) = c :: r := by
      rw [List.dropWhile_cons]
      simp only [hb]
      rfl
    rw [hd]
    have ht : List.takeWhile (fun ch => ch != '/') (c :: r) =
        c :: List.takeWhile (fun ch => ch != '/') r := by
      rw [List.takeWhile_cons]
      simp [hc]
    have hne : (List.takeWhile (fun ch => ch != '/') (c :: r)).reverse ≠ [] := by
      rw [ht]; simp
    rw [if_neg hne, List.reverse_suffix]
    exact List.takeWhile_prefix _

/-! ## Theorems: parser and file names -/

theorem ParseContactFile_read (Y : Yaml) (fs : FS) (path content : Str)
    (hread : fs.files path = some content) :
    ParseContactFile Y fs path = parseParts Y path (SplitN content delimiter 3) := by
  unfold ParseContactFile
  rw [hread]

/-- C7: once the file is read, `ParseContactFile` fails with the
no-frontmatter error whenever the text splits on the delimiter into fewer than
three segments, and fails with the not-a-contact error whenever the header
decodes to a contact whose tags lack `contact`; the two errors differ, and in
both cases the result is an error, not a contact. -/
theorem ParseContactFile_failures (Y : Yaml) (fs : FS) (path content : Str)
    (hread : fs.files path = some content) :
    ((SplitN content delimiter 3).length < 3 →
      ParseContactFile Y fs path = .error .noFrontmatter) ∧
    (∀ contact : Contact, 3 ≤ (SplitN content delimiter 3).length →
      Y.Unmarshal ((SplitN content delimiter 3).getD 1 []) = some contact →
      contactTag ∉ contact.Tags →
      ParseContactFile Y fs path = .error .notContact) ∧
    (Except.error ParseError.notContact : Except ParseError Contact) ≠
      .error .noFrontmatter := by
  rw [ParseContactFile_read Y fs path content hread]
  refine ⟨?_, ?_, by simp⟩
  · intro hlen
    rcases hs : SplitN content delimiter 3 with _ | ⟨a, _ | ⟨b, _ | ⟨c, r⟩⟩⟩
    · rfl
    · rfl
    · rfl
    · rw [hs] at hlen
      simp only [List.length_cons] at hlen
      omega
  · intro contact hlen hdec htag
    rcases hs : SplitN content delimiter 3 with _ | ⟨a, _ | ⟨b, _ | ⟨c, r⟩⟩⟩
    · rw [hs] at hlen; simp at hlen
    · rw [hs] at hlen; simp at hlen
    · rw [hs] at hlen; simp at hlen
    · rw [hs] at hdec
      have hdec' : Y.Unmarshal b = some contact := by simpa using hdec
      have hc : containsTag contact.Tags contactTag = false := by
        rw [← Bool.not_eq_true, containsTag_iff]
        exact htag
      simp [parseParts, hdec', hc]

/-- Witness of `ParseContactFile_failures`: the sample file without an opening
delimiter and the sample task file. -/
theorem ParseContactFile_failures_witness :
    ParseContactFile sampleYaml sampleFS "contacts/20240104--broken__contact.md".toList =
      .error .noFrontmatter ∧
    ParseContactFile sampleYaml sampleFS "contacts/20240104--buy-milk__contact.md".toList =
      .error .notContact :=
  ⟨(ParseContactFile_failures sampleYaml sampleFS
      "contacts/20240104--broken__contact.md".toList
      "title: broken\n---\nno opening delimiter\n".toList (by rfl)).1 (by decide),
   (ParseContactFile_failures sampleYaml sampleFS
      "contacts/20240104--buy-milk__contact.md".toList
      (fileText (plainHeader "Buy milk" "20240104T090000" "task") []) (by rfl)).2.1
      (plainContact "Buy milk" "20240104T090000" "task") (by decide) (by rfl) (by decide)⟩

/-- C8: for a contact with a non-zero creation date, `GenerateFilename` is the
date in layout `20060102`, then `--`, then the slug of the title (lower-cased,
spaces to hyphens, everything outside `[a-z0-9-]` removed), then
`__contact.md`; it depends only on title and date; and for a title
`Jane Q. Doe` dated 2024-03-05 it is `20240305--jane-q-doe__contact.md`. -/
theorem GenerateFilename_spec (table : Char → Char) (now : Time) (c : Contact)
    (hdate : c.Date.IsZero = false) :
    GenerateFilename table now c =
      c.Date.Format20060102 ++ "--".toList ++ slugSpec table c.Title ++ "__contact.md".toList ∧
    (∀ (table' : Char → Char) (now' : Time) (c' : Contact),
      table' = table → c'.Title = c.Title → c'.Date = c.Date →
      GenerateFilename table' now' c' = GenerateFilename table now c) ∧
    (c.Title = "Jane Q. Doe".toList → c.Date.Date = (2024, 3, 5) →
      GenerateFilename table now c = "20240305--jane-q-doe__contact.md".toList) := by
  have hmain : ∀ (n : Time) (d : Contact), d.Date.IsZero = false →
      GenerateFilename table n d =
        d.Date.Format20060102 ++ "--".toList ++ slugSpec table d.Title ++
          "__contact.md".toList := by
    intro n d hd
    have hr : ReplaceAll (ToLower table d.Title) ' ' "-".toList =
        (ToLower table d.Title).map (fun ch => if ch = ' ' then '-' else ch) :=
      ReplaceAll_single _ _ _
    simp only [GenerateFilename, hd, slugSpec, hr, sanitizeName_eq]
    rfl
  refine ⟨hmain now c hdate, ?_, ?_⟩
  · intro table' now' c' ht hT hD
    subst ht
    rw [hmain now' c' (by rw [hD]; exact hdate), hmain now c hdate, hT, hD]
  · intro hT hD
    rw [hmain now c hdate, hT]
    have hf : c.Date.Format20060102 = "20240305".toList := by
      unfold Time.Format20060102
      rw [hD]
      rfl
    rw [hf]
    rfl

/-- Witness of `GenerateFilename_spec`: the sample contact `jane`. -/
theorem GenerateFilename_spec_witness :
    GenerateFilename id sampleLater jane = "20240305--jane-q-doe__contact.md".toList :=
  (GenerateFilename_spec id sampleLater jane (by rfl)).2.2 (by rfl) (by rfl)

/-- C10 as stated fails: the file `contacts/a__contact.md.bak.md` is admitted
for parsing although its base name does not end with `__contact.md`. -/
theorem visit_admits_non_suffix :
    visit ⟨"contacts/a__contact.md.bak.md".toList, false, false⟩ = Visit.parse ∧
    HasSuffix (Base "contacts/a__contact.md.bak.md".toList) "__contact.md".toList = false :=
  ⟨by decide, by decide⟩

/-- C10, amended: a path met during the scan is admitted for parsing if and
only if the walk reports no error for it, it is not a directory, the path ends
with `.md` and its base name contains `__contact.md`; in particular every
file whose base name ends with `__contact.md` is admitted. -/
theorem visit_parse_iff (e : WalkEntry) :
    (visit e = Visit.parse ↔
      e.err = false ∧ e.isDir = false ∧ HasSuffix e.path ".md".toList = true ∧
        Contains (Base e.path) "__contact.md".toList = true) ∧
    (e.err = false → e.isDir = false → e.path.getLast? ≠ some '/' →
      HasSuffix (Base e.path) "__contact.md".toList = true → visit e = Visit.parse) := by
  have hiff : visit e = Visit.parse ↔
      e.err = false ∧ e.isDir = false ∧ HasSuffix e.path ".md".toList = true ∧
        Contains (Base e.path) "__contact.md".toList = true := by
    unfold visit
    cases e.err <;> cases e.isDir <;> cases HasSuffix e.path ".md".toList <;>
      cases Contains (Base e.path) "__contact.md".toList <;> simp
  refine ⟨hiff, ?_⟩
  intro herr hdir hlast hsuf
  refine hiff.2 ⟨herr, hdir, ?_, Contains_of_HasSuffix _ _ hsuf⟩
  have hne : e.path ≠ [] := by
    intro h
    rw [h] at hsuf
    exact absurd hsuf (by decide)
  have h1 : "__contact.md".toList <:+ Base e.path := (HasSuffix_iff _ _).1 hsuf
  have h2 : ".md".toList <:+ "__contact.md".toList := (HasSuffix_iff _ _).1 (by decide)
  exact (HasSuffix_iff _ _).2 ((h2.trans h1).trans (Base_suffix e.path hne hlast))

/-- Witness of `visit_parse_iff`: a contact file of the sample walk. -/
theorem visit_parse_iff_witness :
    visit ⟨"contacts/20240101--bob__contact.md".toList, false, false⟩ = Visit.parse :=
  (visit_parse_iff ⟨"contacts/20240101--bob__contact.md".toList, false, false⟩).2
    rfl rfl (by decide) (by decide)


/-! ## Theorems: the directory scan -/

theorem strLess_iff_lex (a b : Str) : strLess a b = true ↔ List.Lex (· < ·) a b := by
  induction a generalizing b with
  | nil =>
    cases b with
    | nil => simp [strLess]
    | cons d b => simp [strLess, List.Lex.nil]
  | cons c a ih =>
    cases b with
    | nil => simp [strLess]
    | cons d b =>
      unfold strLess
      by_cases h1 : c < d
      · simp only [h1, if_true, true_iff]
        exact List.Lex.rel h1
      · by_cases h2 : d < c
        · simp only [h1, h2, if_true, if_false, Bool.false_eq_true, false_iff]
          intro h
          cases h with
          | cons h => exact lt_irrefl _ h2
          | rel h => exact h1 h
        · have e : c = d := le_antisymm (not_lt.1 h2) (not_lt.1 h1)
          subst e
          simp only [h1, if_false, ih]
          constructor
          · intro h; exact List.Lex.cons h
          · intro h
            cases h with
            | cons h => exact h
            | rel h => exact absurd h h1

theorem strLess_total (a b : Str) : strLess b a = false ∨ strLess a b = false := by
  by_cases h : strLess b a = true
  · right
    rw [← Bool.not_eq_true, strLess_iff_lex]
    rw [strLess_iff_lex] at h
    exact fun h' => asymm h h'
  · left
    simpa using h

theorem strLess_le_trans (a b c : Str) (h1 : strLess b a = false) (h2 : strLess c b = false) :
    strLess c a = false := by
  rw [← Bool.not_eq_true, strLess_iff_lex] at *
  intro h
  rcases (inferInstance : IsOrderConnected (List Char) (List.Lex (· < ·))).conn c b a h with h' | h'
  · exact h2 h'
  · exact h1 h'

theorem insertionSortSlice_contract (table : Char → Char) (l : List Contact) :
    (insertionSortSlice (titleLess table) l).Perm l ∧
    (insertionSortSlice (titleLess table) l).Pairwise
      (fun a b => titleLess table b a = false) := by
  haveI : IsTotal Contact (fun a b => titleLess table b a = false) :=
    ⟨fun a b => strLess_total _ _⟩
  haveI : IsTrans Contact (fun a b => titleLess table b a = false) :=
    ⟨fun a b c h1 h2 => strLess_le_trans _ _ _ h1 h2⟩
  exact ⟨List.perm_insertionSort _ l, List.sorted_insertionSort _ l⟩

theorem walkFn_ok (Y : Yaml) (fs : FS) (acc : List Contact) (e : WalkEntry)
    (h : e.err = false) :
    walkFn Y fs acc e = .ok (acc ++ (scanned Y fs e).toList) := by
  unfold walkFn scanned
  have hv : visit e ≠ Visit.abort := by
    unfold visit
    rw [h]
    simp only [Bool.false_eq_true, if_false]
    split_ifs <;> simp
  cases hvis : visit e with
  | abort => exact absurd hvis hv
  | skip => simp
  | parse =>
    cases hp : ParseContactFile Y fs e.path with
    | error err => simp
    | ok c => simp

theorem Walk_ok (Y : Yaml) (fs : FS) (entries : List WalkEntry) (acc : List Contact)
    (h : ∀ e ∈ entries, e.err = false) :
    Walk Y fs entries acc = .ok (acc ++ entries.filterMap (scanned Y fs)) := by
  induction entries generalizing acc with
  | nil => simp [Walk]
  | cons e rest ih =>
    unfold Walk
    rw [walkFn_ok Y fs acc e (h e (List.mem_cons_self _ _))]
    simp only []
    rw [ih _ (fun x hx => h x (List.mem_cons_of_mem _ hx))]
    cases hs : scanned Y fs e with
    | none => simp [List.filterMap_cons, hs]
    | some c => simp [List.filterMap_cons, hs]

/-- C9: for a directory whose walk reports no error, and a sort routine that
meets the contract of `sort.Slice` for the title comparison, `loadContacts`
succeeds and returns a permutation of exactly the contacts of the admitted
files that parse (failing files left out), as many as there are, ordered so
that the lower-cased titles never decrease. -/
theorem loadContacts_sorted_perm (Y : Yaml) (table : Char → Char)
    (sortSlice : (Contact → Contact → Bool) → List Contact → List Contact)
    (fs : FS) (entries : List WalkEntry)
    (hsort : ∀ l : List Contact, (sortSlice (titleLess table) l).Perm l ∧
      (sortSlice (titleLess table) l).Pairwise (fun a b => titleLess table b a = false))
    (hwalk : ∀ e ∈ entries, e.err = false) :
    ∃ l : List Contact,
      loadContacts Y table sortSlice fs StatResult.dir StatResult.dir entries = .ok l ∧
      l.Perm (entries.filterMap (scanned Y fs)) ∧
      l.length = (entries.filterMap (scanned Y fs)).length ∧
      l.Pairwise (fun a b =>
        strLess (ToLower table b.Title) (ToLower table a.Title) = false) := by
  refine ⟨sortSlice (titleLess table) (entries.filterMap (scanned Y fs)), ?_, ?_, ?_, ?_⟩
  · unfold loadContacts
    simp only []
    rw [Walk_ok Y fs entries [] hwalk]
    simp
  · exact (hsort _).1
  · exact (hsort _).1.length_eq
  · exact (hsort _).2

/-- Witness of `loadContacts_sorted_perm`: the sample directory, three contact
files and one without frontmatter, scanned with an insertion sort. -/
theorem loadContacts_sorted_perm_witness :
    ∃ l : List Contact,
      loadContacts sampleYaml id insertionSortSlice sampleFS StatResult.dir StatResult.dir
        sampleWalk = .ok l ∧
      l.Perm (sampleWalk.filterMap (scanned sampleYaml sampleFS)) ∧
      l.length = (sampleWalk.filterMap (scanned sampleYaml sampleFS)).length ∧
      l.Pairwise (fun a b => strLess (ToLower id b.Title) (ToLower id a.Title) = false) :=
  loadContacts_sorted_perm sampleYaml id insertionSortSlice sampleFS sampleWalk
    (insertionSortSlice_contract id) (by decide)

/-- The sample scan, evaluated: the three contacts come back ordered Alice,
bob, carol, and the file without frontmatter is left out. -/
theorem loadContacts_sample :
    (loadContacts sampleYaml id insertionSortSlice sampleFS StatResult.dir StatResult.dir
        sampleWalk).toOption.map (fun l => l.map (fun c => c.Title)) =
      some ["Alice".toList, "bob".toList, "carol".toList] := by
  rfl

/-! ## Theorems: the round trip through a file -/

theorem delimiter_eq : delimiter = ['-', '-', '-', '\n'] := by decide

theorem HasPrefix_delimiter_straddle (c : Char) (h body : Str)
    (hp : HasPrefix (c :: h) delimiter = false) :
    HasPrefix (c :: (h ++ delimiter ++ body)) delimiter = false := by
  rw [delimiter_eq] at *
  rcases h with _ | ⟨x, _ | ⟨y, _ | ⟨z, rest⟩⟩⟩
  · simp [HasPrefix]
  · simp [HasPrefix]
  · simp [HasPrefix]
  · simpa [HasPrefix] using hp

theorem Index_header_delimiter (header body : Str) (h : Index header delimiter = -1) :
    Index (header ++ delimiter ++ body) delimiter = header.length := by
  induction header with
  | nil =>
    rw [delimiter_eq]
    simp [Index, HasPrefix]
  | cons c hd ih =>
    unfold Index at h
    by_cases hp : HasPrefix (c :: hd) delimiter = true
    · simp [hp] at h
    · have hp' : HasPrefix (c :: hd) delimiter = false := by simpa using hp
      simp only [hp', Bool.false_eq_true, if_false] at h
      have hge := Index_ge hd delimiter
      have hi : Index hd delimiter = -1 := by
        by_contra hne
        have : ¬ Index hd delimiter < 0 := by omega
        simp only [this, if_false] at h
        omega
      have ih' := ih hi
      have hs := HasPrefix_delimiter_straddle c hd body hp'
      have e : (c :: hd) ++ delimiter ++ body = c :: (hd ++ delimiter ++ body) := by simp
      rw [e]
      unfold Index
      simp only [hs, Bool.false_eq_true, if_false, ih']
      have : ¬ ((hd.length : Int) < 0) := by omega
      simp only [this, if_false, List.length_cons]
      push_cast
      rfl

theorem SplitN_file (header body : Str) (h : Index header delimiter = -1) :
    SplitN (delimiter ++ header ++ delimiter ++ body) delimiter 3 = [[], header, body] := by
  have hlen : min 3 ((delimiter ++ header ++ delimiter ++ body).length + 1) - 1 = 2 := by
    rw [delimiter_eq]
    simp only [List.length_append, List.length_cons, List.length_nil]
    omega
  unfold SplitN
  rw [if_neg (by decide), hlen]
  have h0 : Index (delimiter ++ header ++ delimiter ++ body) delimiter = 0 := by
    rw [delimiter_eq]
    simp [Index, HasPrefix]
  have hd : List.drop (0 + delimiter.length) (delimiter ++ header ++ delimiter ++ body) =
      header ++ delimiter ++ body := by
    rw [delimiter_eq]
    simp
  have h1 := Index_header_delimiter header body h
  have hd2 : List.drop (header.length + delimiter.length) (header ++ delimiter ++ body) =
      body := by
    rw [List.append_assoc, List.drop_append, List.drop_left]
  have ht : List.take header.length (header ++ delimiter ++ body) = header := by
    rw [List.append_assoc, List.take_left]
  simp only [splitLoop, h0, h1, lt_self_iff_false, if_false, Int.toNat_zero, List.take_zero,
    hd, Int.toNat_ofNat, hd2, ht]
  have : ¬ ((header.length : Int) < 0) := by omega
  simp [this]

theorem deriveIdentifier_set (path : Str) (c : Contact) (h : c.Identifier ≠ []) :
    deriveIdentifier path c = c := by
  unfold deriveIdentifier
  rw [if_neg h]

/-- C1 as stated fails: `janeNoId` carries the `contact` tag and an empty
identifier; saved (to the generated `20240305--jane-q-doe__contact.md`) and
parsed back, it comes out with the identifier `20240305` taken from the file
name. -/
theorem roundtrip_derives_identifier :
    contactTag ∈ janeNoId.Tags ∧
    janeNoId.Identifier = [] ∧
    parseAfterSave sampleYaml id sampleNow sampleLater emptyFS janeNoId =
      some { janeNoId with
        Identifier := "20240305".toList, UpdatedAt := sampleLater,
        FilePath := "20240305--jane-q-doe__contact.md".toList } :=
  ⟨by decide, by rfl, by rfl⟩

/-- C1, amended: for a contact `x` that has the `contact` tag and a non-empty
identifier, whose file can be written, whose encoded header decodes back to
the header fields of `x` (with some `UpdatedAt`) and does not contain the
delimiter text, saving `x` and parsing the written file succeeds and yields
`x` in every field, body included, except `UpdatedAt` and `FilePath`. -/
theorem roundtrip (Y : Yaml) (table : Char → Char) (nowName now : Time) (fs : FS)
    (x : Contact) (header : Str) (u : Time)
    (htag : contactTag ∈ x.Tags)
    (hid : x.Identifier ≠ [])
    (hwrite : fs.writable (stamped table nowName now x).FilePath = true)
    (henc : Y.Marshal (stamped table nowName now x) = some header)
    (hdec : Y.Unmarshal header = some { headerOf x with UpdatedAt := u })
    (hdelim : Index header delimiter = -1) :
    parseAfterSave Y table nowName now fs x =
      some { x with UpdatedAt := u, FilePath := (stamped table nowName now x).FilePath } := by
  have hcontent : (stamped table nowName now x).Content = x.Content := by
    unfold stamped
    split_ifs <;> rfl
  have htag' : containsTag x.Tags contactTag = true := (containsTag_iff _ _).2 htag
  unfold parseAfterSave SaveContactFile
  simp only [henc, FS.WriteFile, hwrite, if_true]
  rw [ParseContactFile_read Y _ _
    (delimiter ++ header ++ delimiter ++ (stamped table nowName now x).Content) (by simp)]
  rw [SplitN_file header _ hdelim]
  simp only [parseParts, hdec, headerOf, htag', Bool.not_true, Bool.false_eq_true, if_false]
  rw [deriveIdentifier_set, hcontent]
  exact hid

/-- Witness of `roundtrip`: the sample contact `jane`, saved at `sampleLater`. -/
theorem roundtrip_witness :
    parseAfterSave sampleYaml id sampleNow sampleLater emptyFS jane =
      some { jane with
        UpdatedAt := sampleLater,
        FilePath := (stamped id sampleNow sampleLater jane).FilePath } :=
  roundtrip sampleYaml id sampleNow sampleLater emptyFS jane janeHeader sampleLater
    (by decide) (by decide) (by rfl) (by rfl) (by rfl) (by rfl)

/-! ## Theorems: `Update` and errors -/

/-- C11, evaluated on the code: an `errorMsg` is a struct without an `Error`
method, so the case `error` of `Update` does not take it; whatever the state
and the error, `Update` returns the state as it was with no command.  A scan
of a missing directory and a save that cannot write both deliver an
`errorMsg`; after it the error field is still unset, the message is still
empty and `View` shows the same view. -/
theorem Update_drops_errorMsg :
    (∀ (table : Char → Char) (now : Time) (m : Model) (e : CmdError),
      Update table now m (Msg.errorMsg e) = .ok (m, Cmd.none)) ∧
    runLoadContacts missingDirEnv emptyFS (NewModel "contacts".toList) =
      Msg.errorMsg (CmdError.scan ScanError.notExist) ∧
    (Update id sampleNow (NewModel "contacts".toList)
        (runLoadContacts missingDirEnv emptyFS (NewModel "contacts".toList))).map
      (fun r => (r.1.err, View r.1)) = .ok (none, Screen.view ViewMode.ViewList false) ∧
    (saveEditedContact sampleEnv sampleClock readOnlyFS editOfJane).map Prod.fst =
      .ok (Msg.errorMsg (CmdError.save "Jane Q. Doe".toList SaveError.write)) ∧
    (Update id sampleNow editOfJane
        (Msg.errorMsg (CmdError.save "Jane Q. Doe".toList SaveError.write))).map
      (fun r => (r.1.err, r.1.message, r.1.currentView)) =
      .ok (none, [], ViewMode.ViewEdit) :=
  ⟨fun _ _ _ _ => rfl, by rfl, by rfl, by rfl, by rfl⟩

/-! ## Theorems: search and filters -/

theorem Contains_iff (s sub : Str) : Contains s sub = true ↔ sub <:+: s := by
  unfold Contains
  rw [decide_eq_true_iff]
  exact Index_nonneg_iff s sub

/-- C13: `contactMatchesSearch` is true exactly when the lower-cased query is a
substring of the lower-cased title, company, email, label or role of the
contact, or of one of its lower-cased tags; and the query `acme` matches a
contact whose company is `Acme Corp`. -/
theorem contactMatchesSearch_iff (table : Char → Char) (c : Contact) (q : Bytes) :
    (contactMatchesSearch table c q = true ↔
      (ToLower table (runes q) <:+: ToLower table c.Title ∨
       ToLower table (runes q) <:+: ToLower table c.Company ∨
       ToLower table (runes q) <:+: ToLower table c.Email ∨
       ToLower table (runes q) <:+: ToLower table c.Label ∨
       ToLower table (runes q) <:+: ToLower table c.Role ∨
       ∃ tag ∈ c.Tags, ToLower table (runes q) <:+: ToLower table tag)) ∧
    (c.Company = "Acme Corp".toList →
      contactMatchesSearch table c (utf8 "acme".toList) = true) := by
  have hiff : contactMatchesSearch table c q = true ↔
      (ToLower table (runes q) <:+: ToLower table c.Title ∨
       ToLower table (runes q) <:+: ToLower table c.Company ∨
       ToLower table (runes q) <:+: ToLower table c.Email ∨
       ToLower table (runes q) <:+: ToLower table c.Label ∨
       ToLower table (runes q) <:+: ToLower table c.Role ∨
       ∃ tag ∈ c.Tags, ToLower table (runes q) <:+: ToLower table tag) := by
    unfold contactMatchesSearch
    simp only [← Contains_iff]
    by_cases h1 : Contains (ToLower table c.Title) (ToLower table (runes q)) = true
    · simp [h1]
    by_cases h2 : Contains (ToLower table c.Company) (ToLower table (runes q)) = true
    · simp [h2]
    by_cases h3 : Contains (ToLower table c.Email) (ToLower table (runes q)) = true
    · simp [h3]
    by_cases h4 : (c.Tags.any fun tag =>
        Contains (ToLower table tag) (ToLower table (runes q))) = true
    · have h4' := h4
      rw [List.any_eq_true] at h4'
      simp only [h1, h2, h3, h4, if_true, Bool.false_eq_true, if_false, false_or, true_iff]
      right; right
      exact h4'
    by_cases h5 : Contains (ToLower table c.Label) (ToLower table (runes q)) = true
    · simp [h5]
    by_cases h6 : Contains (ToLower table c.Role) (ToLower table (runes q)) = true
    · simp [h6]
    have h4' : ¬ ∃ tag ∈ c.Tags,
        Contains (ToLower table tag) (ToLower table (runes q)) = true := by
      intro h
      exact h4 (List.any_eq_true.2 h)
    simp only [h1, h2, h3, h4, h5, h6, if_false, Bool.false_eq_true, false_or, false_iff]
    exact h4'
  refine ⟨hiff, ?_⟩
  intro hc
  unfold contactMatchesSearch
  have hq : ToLower table (runes (utf8 "acme".toList)) = "acme".toList := by rfl
  have hco : Contains (ToLower table c.Company) "acme".toList = true := by
    rw [hc]
    rfl
  rw [hq]
  simp only [hco, if_true]
  split_ifs <;> rfl

/-- Witness of `contactMatchesSearch_iff`: the sample contact of Acme Corp. -/
theorem contactMatchesSearch_iff_witness :
    contactMatchesSearch id acmeContact (utf8 "acme".toList) = true :=
  (contactMatchesSearch_iff id acmeContact (utf8 "acme".toList)).2 rfl

theorem passesFilters_no_criteria (table : Char → Char) (now : Time) (m : Model) (c : Contact)
    (hq : m.searchQuery = []) (ht : m.filterType = []) (hs : m.filterState = [])
    (hst : m.filterStatus = []) : passesFilters table now m c = true := by
  simp [passesFilters, hq, ht, hs, hst]

/-- In search mode Escape empties the query, shows the base collection and
puts the cursor at 0. -/
theorem updateSearch_escape (table : Char → Char) (now : Time) (m : Model) :
    (updateSearch table now m escKey).1.searchQuery = [] ∧
    (updateSearch table now m escKey).1.filtered = m.contacts ∧
    (updateSearch table now m escKey).1.cursor = 0 :=
  ⟨rfl, rfl, rfl⟩

/-- In search mode, with no categorical filter, Backspace on a query of one
byte empties the query, shows the base collection and puts the cursor at 0. -/
theorem updateSearch_backspace_one_byte (table : Char → Char) (now : Time) (m : Model)
    (b : UInt8) (hq : m.searchQuery = [b]) (ht : m.filterType = []) (hs : m.filterState = [])
    (hst : m.filterStatus = []) :
    (updateSearch table now m backspaceKey).1.searchQuery = [] ∧
    (updateSearch table now m backspaceKey).1.filtered = m.contacts ∧
    (updateSearch table now m backspaceKey).1.cursor = 0 := by
  have hf : ∀ m' : Model, m'.contacts = m.contacts → m'.searchQuery = [] →
      m'.filterType = [] → m'.filterState = [] → m'.filterStatus = [] →
      (applyFilters table now m').filtered = m.contacts := by
    intro m' hc h1 h2 h3 h4
    unfold applyFilters
    simp only [hc]
    apply List.filter_eq_self.2
    intro c _
    exact passesFilters_no_criteria table now m' c h1 h2 h3 h4
  have hlen : m.searchQuery.length > 0 := by rw [hq]; simp
  have hr : updateSearch table now m backspaceKey =
      ({ applyFilters table now { m with searchQuery := m.searchQuery.dropLast } with
          cursor := 0 }, Cmd.none) := by
    unfold updateSearch
    simp only [backspaceKey, if_pos hlen]
  rw [hr]
  have hd : m.searchQuery.dropLast = [] := by rw [hq]; rfl
  refine ⟨?_, ?_, rfl⟩
  · show m.searchQuery.dropLast = []
    exact hd
  · exact hf _ rfl hd ht hs hst

/-- C14, evaluated where the code departs from the claim: in search mode
with no categorical filter, the query `é` typed (two bytes) and Backspace
pressed, the code cuts one byte: the query is left as the single byte 195,
not empty, and the filtered view is empty although the base collection
holds Jane. -/
theorem backspace_cuts_rune :
    (pressKeys id sampleNow listOfJane [runeKey "/", runeKey "é", backspaceKey]).map
      (fun m => (m.searchMode, m.searchQuery, m.filtered, m.contacts,
        m.filterType, m.filterState, m.filterStatus)) =
      .ok (true, [195], [], [janeOnDisk], [], [], []) := by
  rfl

/-- For a cursor that is not negative, `applyFilters` leaves a valid index,
or 0 when the filtered view is empty. -/
theorem applyFilters_cursor_of_nonneg (table : Char → Char) (now : Time) (m : Model)
    (h : 0 ≤ m.cursor) :
    (0 ≤ (applyFilters table now m).cursor ∧
      (applyFilters table now m).cursor < (applyFilters table now m).filtered.length) ∨
    ((applyFilters table now m).filtered = [] ∧ (applyFilters table now m).cursor = 0) := by
  unfold applyFilters
  simp only []
  generalize List.filter (passesFilters table now m) m.contacts = l
  cases l with
  | nil =>
    right
    refine ⟨rfl, ?_⟩
    simp [h]
  | cons a l =>
    left
    simp only [List.length_cons]
    push_cast
    split_ifs <;> constructor <;> omega

/-- C15, evaluated where the code departs from the claim: `applyFilters`
resets a cursor at or beyond the end only; a cursor of `-1` (what `G` leaves
on an empty list) stays `-1`, which is no index of the one-element filtered
view. -/
theorem applyFilters_keeps_negative_cursor :
    (∀ (table : Char → Char) (now : Time) (m : Model), m.cursor < 0 →
      (applyFilters table now m).cursor = m.cursor) ∧
    (applyFilters id sampleNow { listOfJane with cursor := -1 }).cursor = -1 ∧
    (applyFilters id sampleNow { listOfJane with cursor := -1 }).filtered = [janeOnDisk] ∧
    (pressKeys id sampleNow (NewModel "contacts".toList) [runeKey "G"]).map
      (fun m => m.cursor) = .ok (-1) := by
  refine ⟨?_, by rfl, by rfl, by rfl⟩
  intro table now m h
  unfold applyFilters
  simp only []
  have : ¬ (m.cursor ≥ ((List.filter (passesFilters table now m) m.contacts).length : Int)) := by
    have := Int.natCast_nonneg (List.filter (passesFilters table now m) m.contacts).length
    omega
  rw [if_neg this]

/-! ## Theorems: the edit form -/

/-- C19, evaluated where the code departs from the claim: from the list,
`e` opens the edit form on Jane and `n` enters the name field; a typed `x`
and then Escape leave field-selection mode with the name changed to
`Jane Q. Doex`, not the value held when the field was entered. -/
theorem escape_keeps_typed_text :
    (pressKeys id sampleNow listOfJane [runeKey "e", runeKey "n"]).map
      (fun m => (m.currentView, m.editField, m.editValues.head?)) =
      .ok (ViewMode.ViewEdit, 0, some (utf8 "Jane Q. Doe".toList)) ∧
    (pressKeys id sampleNow listOfJane [runeKey "e", runeKey "n", runeKey "x", escKey]).map
      (fun m => (m.currentView, m.editField, m.editValues.head?)) =
      .ok (ViewMode.ViewEdit, -1, some (utf8 "Jane Q. Doex".toList)) :=
  ⟨by rfl, by rfl⟩

/-- C12 as stated fails: from the list of Jane, the query `a` is typed in
search mode and kept with Enter, then the filter popup is opened and `c`
(close) selected; the search query and the type filter are then both
non-empty. -/
theorem search_and_filter_both_set :
    (pressKeys id sampleNow listOfJane
        [runeKey "/", runeKey "a", enterKey, runeKey "f", runeKey "c"]).map
      (fun m => (m.searchQuery, m.filterType, m.filterState, m.filterStatus)) =
      .ok (utf8 "a".toList, "close".toList, [], []) := by
  rfl

/-- C12, amended: after a filter is selected in the filter popup
(`applyFilterAndReturn`) at most one of `filterType`, `filterState`,
`filterStatus` is non-empty and the search query is as it was; after a
character is typed in search mode the query is longer by it and the three
filters are as they were; and after either the filtered view is the base
collection narrowed by all the stored criteria together. -/
theorem filter_change_criteria (table : Char → Char) (now : Time) (m : Model) :
    (∀ kind value message : Str,
      (applyFilterAndReturn table now m kind value message).1.searchQuery = m.searchQuery ∧
      (((applyFilterAndReturn table now m kind value message).1.filterType = [] ∧
          (applyFilterAndReturn table now m kind value message).1.filterState = []) ∨
        ((applyFilterAndReturn table now m kind value message).1.filterType = [] ∧
          (applyFilterAndReturn table now m kind value message).1.filterStatus = []) ∨
        ((applyFilterAndReturn table now m kind value message).1.filterState = [] ∧
          (applyFilterAndReturn table now m kind value message).1.filterStatus = [])) ∧
      (applyFilterAndReturn table now m kind value message).1.filtered =
        m.contacts.filter
          (passesFilters table now (applyFilterAndReturn table now m kind value message).1)) ∧
    (∀ (r : Str) (alt : Bool),
      (updateSearch table now m ⟨KeyType.KeyRunes, r, alt⟩).1.searchQuery =
        m.searchQuery ++ utf8 r ∧
      (updateSearch table now m ⟨KeyType.KeyRunes, r, alt⟩).1.filterType = m.filterType ∧
      (updateSearch table now m ⟨KeyType.KeyRunes, r, alt⟩).1.filterState = m.filterState ∧
      (updateSearch table now m ⟨KeyType.KeyRunes, r, alt⟩).1.filterStatus = m.filterStatus ∧
      (updateSearch table now m ⟨KeyType.KeyRunes, r, alt⟩).1.filtered =
        m.contacts.filter
          (passesFilters table now (updateSearch table now m ⟨KeyType.KeyRunes, r, alt⟩).1)) := by
  constructor
  · intro kind value message
    unfold applyFilterAndReturn
    by_cases h1 : kind = "type".toList
    · simp only [h1, if_true]
      exact ⟨rfl, Or.inr (Or.inr ⟨rfl, rfl⟩), rfl⟩
    · by_cases h2 : kind = "state".toList
      · simp only [h1, h2, if_true, if_false]
        exact ⟨rfl, Or.inr (Or.inl ⟨rfl, rfl⟩), rfl⟩
      · by_cases h3 : kind = "status".toList
        · simp only [h1, h2, h3, if_true, if_false]
          exact ⟨rfl, Or.inl ⟨rfl, rfl⟩, rfl⟩
        · simp only [h1, h2, h3, if_false]
          exact ⟨rfl, Or.inl ⟨rfl, rfl⟩, rfl⟩
  · intro r alt
    exact ⟨rfl, rfl, rfl, rfl, rfl⟩

/-! ## Theorems: the interaction logging flow -/

theorem find_key_mem (table : List (Str × Str)) (s : Str) (e : Str × Str)
    (h : table.find? (fun it => decide (it.1 = s)) = some e) : (s, e.2) ∈ table := by
  have h1 := List.find?_some h
  have h2 := List.mem_of_find?_eq_some h
  simp only [decide_eq_true_eq] at h1
  rw [← h1]
  exact h2

theorem updateInteractionType_step0 (m : Model) (k : KeyMsg) (h : m.contactLogStep = 0) :
    updateInteractionType m k =
      if k.String = "esc".toList ∨ k.String = "q".toList then (resetContactLogging m, Cmd.none)
      else if k.String ∈ ["p".toList, "e".toList, "t".toList, "m".toList, "v".toList,
          "s".toList, "l".toList, "o".toList] then
        match interactionTypes.find? (fun it => it.1 = k.String) with
        | some it => ({ m with interactionType := it.2, contactLogStep := 1 }, Cmd.none)
        | none => (m, Cmd.none)
      else (m, Cmd.none) := by
  unfold updateInteractionType
  rw [if_pos h]

theorem updateInteractionType_step1 (m : Model) (k : KeyMsg) (h : m.contactLogStep = 1) :
    updateInteractionType m k =
      if k.String = "esc".toList then
        ({ m with contactLogStep := 0, interactionType := [] }, Cmd.none)
      else if k.String = "q".toList then (resetContactLogging m, Cmd.none)
      else if k.String ∈ ["o".toList, "f".toList, "p".toList, "s".toList, "n".toList,
          "t".toList] then
        match contactStates.find? (fun st => st.1 = k.String) with
        | some st => ({ m with interactionState := st.2, contactLogStep := 2 }, Cmd.none)
        | none => (m, Cmd.none)
      else (m, Cmd.none) := by
  unfold updateInteractionType
  have h0 : ¬ m.contactLogStep = 0 := by omega
  rw [if_neg h0, if_pos h]

theorem updateInteractionType_step2 (m : Model) (k : KeyMsg) (h : m.contactLogStep = 2) :
    (updateInteractionType m k).1 =
      if k.String = "esc".toList then
        { m with contactLogStep := 1, interactionState := [], interactionNote := [] }
      else if k.String = "ctrl+c".toList ∨ k.String = "ctrl+q".toList then resetContactLogging m
      else if k.String = "enter".toList then m
      else if k.String = "ctrl+s".toList then m
      else if k.String = "backspace".toList then
        if m.interactionNote.length > 0 then
          { m with interactionNote := m.interactionNote.dropLast }
        else m
      else if (utf8 k.String).length = 1 ∧ m.interactionNote.length < 200 then
        { m with interactionNote := m.interactionNote ++ utf8 k.String }
      else m := by
  unfold updateInteractionType
  have h0 : ¬ m.contactLogStep = 0 := by omega
  have h1 : ¬ m.contactLogStep = 1 := by omega
  rw [if_neg h0, if_neg h1, if_pos h]
  split_ifs <;> first | rfl | (cases m.contactToMark <;> rfl)

/-- C20: in the interaction-logging view at step 0, 1 or 2, every key either
resets the logging state (current view back to the entry view, contact, type,
state and note cleared, step 0) or stays in the view with the entry view
unchanged and a step in 0..2 at most one away; the step grows only on a key
of the table of that step, whose value is then stored; Escape at step 1 or 2
goes back exactly one step; and at each step some key resets. -/
theorem logging_steps (m : Model) (k : KeyMsg)
    (hview : m.currentView = ViewMode.ViewInteractionType)
    (hstep : m.contactLogStep = 0 ∨ m.contactLogStep = 1 ∨ m.contactLogStep = 2) :
    ((updateInteractionType m k).1 = resetContactLogging m ∨
      ((updateInteractionType m k).1.currentView = ViewMode.ViewInteractionType ∧
       (updateInteractionType m k).1.entryView = m.entryView ∧
       ((updateInteractionType m k).1.contactLogStep = 0 ∨
        (updateInteractionType m k).1.contactLogStep = 1 ∨
        (updateInteractionType m k).1.contactLogStep = 2) ∧
       m.contactLogStep - 1 ≤ (updateInteractionType m k).1.contactLogStep ∧
       (updateInteractionType m k).1.contactLogStep ≤ m.contactLogStep + 1)) ∧
    (m.contactLogStep < (updateInteractionType m k).1.contactLogStep →
      (m.contactLogStep = 0 ∧ ∃ v, (k.String, v) ∈ interactionTypes ∧
        (updateInteractionType m k).1.interactionType = v) ∨
      (m.contactLogStep = 1 ∧ ∃ v, (k.String, v) ∈ contactStates ∧
        (updateInteractionType m k).1.interactionState = v)) ∧
    (k.String = "esc".toList → m.contactLogStep ≠ 0 →
      (updateInteractionType m k).1.currentView = ViewMode.ViewInteractionType ∧
      (updateInteractionType m k).1.contactLogStep = m.contactLogStep - 1) ∧
    (∃ k' : KeyMsg, (updateInteractionType m k').1 = resetContactLogging m) ∧
    ((resetContactLogging m).currentView = m.entryView ∧
      (resetContactLogging m).contactToMark = none ∧
      (resetContactLogging m).interactionType = [] ∧
      (resetContactLogging m).interactionState = [] ∧
      (resetContactLogging m).interactionNote = [] ∧
      (resetContactLogging m).contactLogStep = 0) := by
  refine ⟨?_, ?_, ?_, ?_, ⟨rfl, rfl, rfl, rfl, rfl, rfl⟩⟩
  · rcases hstep with h | h | h
    · rw [updateInteractionType_step0 m k h]
      split_ifs
      · left; rfl
      · cases hf : interactionTypes.find? (fun it => decide (it.1 = k.String)) with
        | none => right; simp [hview, h]
        | some it => right; simp [hview, h]
      · right; simp [hview, h]
    · rw [updateInteractionType_step1 m k h]
      split_ifs
      · right; simp [hview, h]
      · left; rfl
      · cases hf : contactStates.find? (fun st => decide (st.1 = k.String)) with
        | none => right; simp [hview, h]
        | some st => right; simp [hview, h]
      · right; simp [hview, h]
    · rw [updateInteractionType_step2 m k h]
      split_ifs
      · right; simp [hview, h]
      · left; rfl
      all_goals (right; simp [hview, h])
  · intro hlt
    rcases hstep with h | h | h
    · left
      refine ⟨h, ?_⟩
      rw [updateInteractionType_step0 m k h] at hlt ⊢
      split_ifs at hlt ⊢ with h1 h2
      · simp [resetContactLogging, h] at hlt
      · cases hf : interactionTypes.find? (fun it => decide (it.1 = k.String)) with
        | none => rw [hf] at hlt; simp at hlt
        | some it => exact ⟨it.2, find_key_mem _ _ _ hf, rfl⟩
      · simp at hlt
    · right
      refine ⟨h, ?_⟩
      rw [updateInteractionType_step1 m k h] at hlt ⊢
      split_ifs at hlt ⊢ with h1 h2 h3
      · simp [h] at hlt
      · simp [resetContactLogging, h] at hlt
      · cases hf : contactStates.find? (fun st => decide (st.1 = k.String)) with
        | none => rw [hf] at hlt; simp at hlt
        | some st => exact ⟨st.2, find_key_mem _ _ _ hf, rfl⟩
      · simp at hlt
    · exfalso
      rw [updateInteractionType_step2 m k h] at hlt
      split_ifs at hlt <;> simp [resetContactLogging, h] at hlt
  · intro hesc hne
    rcases hstep with h | h | h
    · exact absurd h hne
    · rw [updateInteractionType_step1 m k h, if_pos hesc]
      simp [hview, h]
    · rw [updateInteractionType_step2 m k h, if_pos hesc]
      simp [hview, h]
  · rcases hstep with h | h | h
    · refine ⟨runeKey "q", ?_⟩
      rw [updateInteractionType_step0 _ _ h]
      rfl
    · refine ⟨runeKey "q", ?_⟩
      rw [updateInteractionType_step1 _ _ h]
      rfl
    · refine ⟨namedKey "ctrl+c", ?_⟩
      rw [updateInteractionType_step2 _ _ h]
      rfl

/-- Witness of `logging_steps`: in the logging view on Jane at step 1, with the
type `email` chosen, Escape goes back to step 0. -/
theorem logging_steps_witness :
    (updateInteractionType
        { listOfJane with currentView := ViewMode.ViewInteractionType,
                          contactToMark := some janeOnDisk, contactLogStep := 1,
                          interactionType := "email".toList } escKey).1.contactLogStep = 0 :=
  ((logging_steps
      { listOfJane with currentView := ViewMode.ViewInteractionType,
                        contactToMark := some janeOnDisk, contactLogStep := 1,
                        interactionType := "email".toList } escKey rfl (Or.inr (Or.inl rfl))).2.2.1
    rfl (by decide)).2

/-! ## Theorems: entering and leaving a workflow -/

theorem handleSelection_views (keys : List (Str × Str)) (field : Int) (m : Model) (k : KeyMsg)
    (m' : Model) (h : handleSelection keys field m k = .ok m') :
    m'.currentView = m.currentView ∧ m'.entryView = m.entryView ∧
      m'.contactToMark = m.contactToMark := by
  unfold handleSelection at h
  split at h
  · split at h
    · injection h with h; subst h; exact ⟨rfl, rfl, rfl⟩
    · cases h
  · injection h with h; subst h; exact ⟨rfl, rfl, rfl⟩

theorem handleStateSelection_views (m : Model) (k : KeyMsg) (m' : Model)
    (h : handleStateSelection m k = .ok m') :
    m'.currentView = m.currentView ∧ m'.entryView = m.entryView ∧
      m'.contactToMark = m.contactToMark := by
  unfold handleStateSelection at h
  split at h
  · cases h
  · split at h
    · cases h
    · rename_i m1 hm1
      have hv := handleSelection_views _ _ _ _ _ hm1
      split at h
      · cases h
      · split at h
        · split at h
          · injection h with h; subst h; exact hv
          · injection h with h; subst h; exact hv
        · injection h with h; subst h; exact hv

theorem updateField_views (stateHandler : Model → KeyMsg → Except Fault Model)
    (hs : ∀ m k m', stateHandler m k = .ok m' →
      m'.currentView = m.currentView ∧ m'.entryView = m.entryView ∧
        m'.contactToMark = m.contactToMark)
    (m : Model) (k : KeyMsg) (r : Model × Cmd) (h : updateField stateHandler m k = .ok r) :
    r.1.currentView = m.currentView ∧ r.1.entryView = m.entryView ∧
      r.1.contactToMark = m.contactToMark := by
  unfold updateField at h
  simp only [] at h
  split_ifs at h
  · injection h with h; subst h; exact ⟨rfl, rfl, rfl⟩
  · injection h with h; subst h; exact ⟨rfl, rfl, rfl⟩
  · split at h
    · cases h
    · split_ifs at h
      · split at h
        · injection h with h; subst h; exact ⟨rfl, rfl, rfl⟩
        · cases h
      · injection h with h; subst h; exact ⟨rfl, rfl, rfl⟩
  · cases hh : handleTypeSelection m k with
    | error f => rw [hh] at h; cases h
    | ok m1 =>
      rw [hh] at h
      injection h with h; subst h
      exact handleSelection_views _ _ _ _ _ hh
  · cases hh : handleStyleSelection m k with
    | error f => rw [hh] at h; cases h
    | ok m1 =>
      rw [hh] at h
      injection h with h; subst h
      exact handleSelection_views _ _ _ _ _ hh
  · cases hh : stateHandler m k with
    | error f => rw [hh] at h; cases h
    | ok m1 =>
      rw [hh] at h
      injection h with h; subst h
      exact hs _ _ _ hh
  · split at h
    · cases h
    · split at h
      · injection h with h; subst h; exact ⟨rfl, rfl, rfl⟩
      · cases h
  · injection h with h; subst h; exact ⟨rfl, rfl, rfl⟩


theorem updateEdit_step (m : Model) (k : KeyMsg) (r : Model × Cmd)
    (hv : m.currentView = ViewMode.ViewEdit) (h : updateEdit m k = .ok r) :
    staysIn m r.1 ∨ endsWorkflow m r.1 := by
  have hq : ¬ m.currentView = ViewMode.ViewQuickType := by rw [hv]; decide
  unfold updateEdit at h
  split_ifs at h
  · injection h with h; subst h; exact Or.inl ⟨rfl, rfl, fun e => absurd e hq⟩
  · simp only [] at h
    split_ifs at h
    · injection h with h; subst h
      right
      refine ⟨rfl, ?_⟩
      rw [hv]
      exact ⟨rfl, rfl⟩
    · injection h with h; subst h; exact Or.inl ⟨rfl, rfl, fun e => absurd e hq⟩
    · split at h
      · injection h with h; subst h; exact Or.inl ⟨rfl, rfl, fun e => absurd e hq⟩
      · injection h with h; subst h; exact Or.inl ⟨rfl, rfl, fun e => absurd e hq⟩
  · have := updateField_views _ handleStateSelection_views m k r h
    exact Or.inl ⟨this.1, this.2.1, fun e => absurd e hq⟩

theorem updateCreate_step (m : Model) (k : KeyMsg) (r : Model × Cmd)
    (hv : m.currentView = ViewMode.ViewCreate) (h : updateCreate m k = .ok r) :
    staysIn m r.1 ∨ endsWorkflow m r.1 := by
  have hq : ¬ m.currentView = ViewMode.ViewQuickType := by rw [hv]; decide
  unfold updateCreate at h
  split_ifs at h
  · simp only [] at h
    split_ifs at h
    · injection h with h; subst h
      right
      refine ⟨rfl, ?_⟩
      rw [hv]
      exact rfl
    · injection h with h; subst h; exact Or.inl ⟨rfl, rfl, fun e => absurd e hq⟩
    · split at h
      · injection h with h; subst h; exact Or.inl ⟨rfl, rfl, fun e => absurd e hq⟩
      · injection h with h; subst h; exact Or.inl ⟨rfl, rfl, fun e => absurd e hq⟩
  · have := updateField_views _
      (fun m k m' hh => handleSelection_views stateKeys fieldState m k m' hh) m k r h
    exact Or.inl ⟨this.1, this.2.1, fun e => absurd e hq⟩

theorem updateInteractionType_step (m : Model) (k : KeyMsg)
    (hv : m.currentView = ViewMode.ViewInteractionType) :
    staysIn m (updateInteractionType m k).1 ∨ endsWorkflow m (updateInteractionType m k).1 := by
  have hq : ¬ m.currentView = ViewMode.ViewQuickType := by rw [hv]; decide
  have hreset : endsWorkflow m (resetContactLogging m) := by
    refine ⟨rfl, ?_⟩
    rw [hv]
    exact ⟨rfl, rfl, rfl, rfl, rfl⟩
  have hstay : ∀ m' : Model, m'.currentView = m.currentView → m'.entryView = m.entryView →
      staysIn m m' := fun m' h1 h2 => ⟨h1, h2, fun e => absurd e hq⟩
  by_cases h0 : m.contactLogStep = 0
  · rw [updateInteractionType_step0 m k h0]
    split_ifs
    · exact Or.inr hreset
    · cases hf : interactionTypes.find? (fun it => decide (it.1 = k.String)) with
      | none => exact Or.inl (hstay _ rfl rfl)
      | some it => exact Or.inl (hstay _ rfl rfl)
    · exact Or.inl (hstay _ rfl rfl)
  by_cases h1 : m.contactLogStep = 1
  · rw [updateInteractionType_step1 m k h1]
    split_ifs
    · exact Or.inl (hstay _ rfl rfl)
    · exact Or.inr hreset
    · cases hf : contactStates.find? (fun st => decide (st.1 = k.String)) with
      | none => exact Or.inl (hstay _ rfl rfl)
      | some st => exact Or.inl (hstay _ rfl rfl)
    · exact Or.inl (hstay _ rfl rfl)
  by_cases h2 : m.contactLogStep = 2
  · rw [updateInteractionType_step2 m k h2]
    split_ifs
    · exact Or.inl (hstay _ rfl rfl)
    · exact Or.inr hreset
    all_goals exact Or.inl (hstay _ rfl rfl)
  · have : updateInteractionType m k = (m, Cmd.none) := by
      unfold updateInteractionType
      rw [if_neg h0, if_neg h1, if_neg h2]
    rw [this]
    exact Or.inl (hstay _ rfl rfl)

theorem updateQuickType_step (m : Model) (k : KeyMsg)
    (hv : m.currentView = ViewMode.ViewQuickType) (hc : m.contactToMark ≠ none) :
    staysIn m (updateQuickType m k).1 ∨ endsWorkflow m (updateQuickType m k).1 := by
  unfold updateQuickType
  rw [if_neg hc]
  simp only []
  split_ifs
  · right
    refine ⟨rfl, ?_⟩
    rw [hv]
    exact rfl
  · split
    · unfold saveQuickType
      cases hm : m.contactToMark with
      | none => exact absurd hm hc
      | some c => exact Or.inl ⟨rfl, rfl, fun _ => hc⟩
    · exact Or.inl ⟨rfl, rfl, fun _ => hc⟩

theorem Update_contactUpdated_ends (table : Char → Char) (now : Time) (m : Model)
    (contact : Contact) (message : Str) (hw : isWorkflow m.currentView) :
    ∃ r : Model × Cmd, Update table now m (Msg.contactUpdatedMsg contact message) = .ok r ∧
      endsWorkflow m r.1 := by
  have hview : ∀ X : Model, (applyFilters table now X).currentView = X.currentView :=
    fun _ => rfl
  rcases hw with h | h | h | h
  all_goals
    unfold Update
    simp only []
    cases hs : m.selectedContact with
    | none =>
      simp only [applyFilters, h, reduceCtorEq, if_false, if_true]
      exact ⟨_, rfl, rfl, by rw [h]; simp [cleared]⟩
    | some sel =>
      by_cases hp : sel.FilePath = contact.FilePath
      · simp only [applyFilters, h, hp, reduceCtorEq, if_false, if_true]
        exact ⟨_, rfl, rfl, by rw [h]; simp [cleared]⟩
      · simp only [applyFilters, h, hp, reduceCtorEq, if_false, if_true]
        exact ⟨_, rfl, rfl, by rw [h]; simp [cleared]⟩


theorem updateSearch_view (table : Char → Char) (now : Time) (m : Model) (k : KeyMsg) :
    (updateSearch table now m k).1.currentView = m.currentView := by
  unfold updateSearch
  cases k.Kind with
  | KeyBackspace =>
    simp only []
    split_ifs <;> rfl
  | _ => rfl

theorem updateFilter_view (table : Char → Char) (now : Time) (m : Model) (k : KeyMsg) :
    (updateFilter table now m k).1.currentView = m.currentView := by
  unfold updateFilter
  simp only []
  split_ifs
  · rfl
  · rfl
  · split
    · unfold applyFilterAndReturn
      simp only []
      split_ifs <;> rfl
    · rfl

theorem updateList_entry (m : Model) (k : KeyMsg) (r : Model × Cmd)
    (hv : m.currentView = ViewMode.ViewList) (h : updateList m k = .ok r)
    (hw : isWorkflow r.1.currentView) :
    r.1.entryView = m.currentView ∧ fresh r.1 := by
  unfold updateList at h
  by_cases c0 : k.String = "ctrl+c".toList ∨ k.String = "q".toList
  · rw [if_pos c0] at h
    repeat' split at h
    all_goals first
      | (cases h; done)
      | (injection h with h; subst h
         first
          | exact ⟨rfl, by simp [fresh, initializeEditValues, initializeCreateValues]⟩
          | (exfalso; revert hw; simp [isWorkflow, hv]))
  rw [if_neg c0] at h
  by_cases c1 : k.String = "j".toList ∨ k.String = "down".toList
  · rw [if_pos c1] at h
    repeat' split at h
    all_goals first
      | (cases h; done)
      | (injection h with h; subst h
         first
          | exact ⟨rfl, by simp [fresh, initializeEditValues, initializeCreateValues]⟩
          | (exfalso; revert hw; simp [isWorkflow, hv]))
  rw [if_neg c1] at h
  by_cases c2 : k.String = "k".toList ∨ k.String = "up".toList
  · rw [if_pos c2] at h
    repeat' split at h
    all_goals first
      | (cases h; done)
      | (injection h with h; subst h
         first
          | exact ⟨rfl, by simp [fresh, initializeEditValues, initializeCreateValues]⟩
          | (exfalso; revert hw; simp [isWorkflow, hv]))
  rw [if_neg c2] at h
  by_cases c3 : k.String = "g".toList ∨ k.String = "home".toList
  · rw [if_pos c3] at h
    repeat' split at h
    all_goals first
      | (cases h; done)
      | (injection h with h; subst h
         first
          | exact ⟨rfl, by simp [fresh, initializeEditValues, initializeCreateValues]⟩
          | (exfalso; revert hw; simp [isWorkflow, hv]))
  rw [if_neg c3] at h
  by_cases c4 : k.String = "G".toList ∨ k.String = "end".toList
  · rw [if_pos c4] at h
    repeat' split at h
    all_goals first
      | (cases h; done)
      | (injection h with h; subst h
         first
          | exact ⟨rfl, by simp [fresh, initializeEditValues, initializeCreateValues]⟩
          | (exfalso; revert hw; simp [isWorkflow, hv]))
  rw [if_neg c4] at h
  by_cases c5 : k.String = "ctrl+d".toList
  · rw [if_pos c5] at h
    repeat' split at h
    all_goals first
      | (cases h; done)
      | (injection h with h; subst h
         first
          | exact ⟨rfl, by simp [fresh, initializeEditValues, initializeCreateValues]⟩
          | (exfalso; revert hw; simp [isWorkflow, hv]))
  rw [if_neg c5] at h
  by_cases c6 : k.String = "ctrl+u".toList
  · rw [if_pos c6] at h
    repeat' split at h
    all_goals first
      | (cases h; done)
      | (injection h with h; subst h
         first
          | exact ⟨rfl, by simp [fresh, initializeEditValues, initializeCreateValues]⟩
          | (exfalso; revert hw; simp [isWorkflow, hv]))
  rw [if_neg c6] at h
  by_cases c7 : k.String = "enter".toList
  · rw [if_pos c7] at h
    repeat' split at h
    all_goals first
      | (cases h; done)
      | (injection h with h; subst h
         first
          | exact ⟨rfl, by simp [fresh, initializeEditValues, initializeCreateValues]⟩
          | (exfalso; revert hw; simp [isWorkflow, hv]))
  rw [if_neg c7] at h
  by_cases c8 : k.String = "/".toList
  · rw [if_pos c8] at h
    repeat' split at h
    all_goals first
      | (cases h; done)
      | (injection h with h; subst h
         first
          | exact ⟨rfl, by simp [fresh, initializeEditValues, initializeCreateValues]⟩
          | (exfalso; revert hw; simp [isWorkflow, hv]))
  rw [if_neg c8] at h
  by_cases c9 : k.String = "f".toList ∨ k.String = "F".toList
  · rw [if_pos c9] at h
    repeat' split at h
    all_goals first
      | (cases h; done)
      | (injection h with h; subst h
         first
          | exact ⟨rfl, by simp [fresh, initializeEditValues, initializeCreateValues]⟩
          | (exfalso; revert hw; simp [isWorkflow, hv]))
  rw [if_neg c9] at h
  by_cases c10 : k.String = "d".toList
  · rw [if_pos c10] at h
    repeat' split at h
    all_goals first
      | (cases h; done)
      | (injection h with h; subst h
         first
          | exact ⟨rfl, by simp [fresh, initializeEditValues, initializeCreateValues]⟩
          | (exfalso; revert hw; simp [isWorkflow, hv]))
  rw [if_neg c10] at h
  by_cases c11 : k.String = "b".toList
  · rw [if_pos c11] at h
    repeat' split at h
    all_goals first
      | (cases h; done)
      | (injection h with h; subst h
         first
          | exact ⟨rfl, by simp [fresh, initializeEditValues, initializeCreateValues]⟩
          | (exfalso; revert hw; simp [isWorkflow, hv]))
  rw [if_neg c11] at h
  by_cases c12 : k.String = "e".toList
  · rw [if_pos c12] at h
    repeat' split at h
    all_goals first
      | (cases h; done)
      | (injection h with h; subst h
         first
          | exact ⟨rfl, by simp [fresh, initializeEditValues, initializeCreateValues]⟩
          | (exfalso; revert hw; simp [isWorkflow, hv]))
  rw [if_neg c12] at h
  by_cases c13 : k.String = "c".toList
  · rw [if_pos c13] at h
    repeat' split at h
    all_goals first
      | (cases h; done)
      | (injection h with h; subst h
         first
          | exact ⟨rfl, by simp [fresh, initializeEditValues, initializeCreateValues]⟩
          | (exfalso; revert hw; simp [isWorkflow, hv]))
  rw [if_neg c13] at h
  by_cases c14 : k.String = "s".toList
  · rw [if_pos c14] at h
    repeat' split at h
    all_goals first
      | (cases h; done)
      | (injection h with h; subst h
         first
          | exact ⟨rfl, by simp [fresh, initializeEditValues, initializeCreateValues]⟩
          | (exfalso; revert hw; simp [isWorkflow, hv]))
  rw [if_neg c14] at h
  by_cases c15 : k.String = "T".toList
  · rw [if_pos c15] at h
    repeat' split at h
    all_goals first
      | (cases h; done)
      | (injection h with h; subst h
         first
          | exact ⟨rfl, by simp [fresh, initializeEditValues, initializeCreateValues]⟩
          | (exfalso; revert hw; simp [isWorkflow, hv]))
  rw [if_neg c15] at h
  injection h with h; subst h
  exact absurd hw (by simp [isWorkflow, hv])

theorem updateDetail_entry (m : Model) (k : KeyMsg)
    (hv : m.currentView = ViewMode.ViewDetail)
    (hw : isWorkflow (updateDetail m k).1.currentView) :
    (updateDetail m k).1.entryView = m.currentView ∧ fresh (updateDetail m k).1 := by
  unfold updateDetail at hw ⊢
  simp only [] at hw ⊢
  split_ifs at hw ⊢
  all_goals try split at hw
  all_goals try split
  all_goals first
    | exact ⟨rfl, by simp [fresh, initializeEditValues, initializeCreateValues]⟩
    | (exfalso; revert hw; simp [isWorkflow, hv])

theorem Update_entry (table : Char → Char) (now : Time) (m : Model) (k : KeyMsg)
    (r : Model × Cmd)
    (hv : m.currentView = ViewMode.ViewList ∨ m.currentView = ViewMode.ViewDetail)
    (h : Update table now m (Msg.KeyMsg k) = .ok r) (hw : isWorkflow r.1.currentView) :
    r.1.entryView = m.currentView ∧ fresh r.1 := by
  have hno : ∀ v : ViewMode, v = ViewMode.ViewList → ¬ isWorkflow v := by
    intro v e; subst e; simp [isWorkflow]
  unfold Update at h
  rcases hv with hv | hv
  · simp only [hv] at h
    split_ifs at h with hs hp
    · injection h with h; subst h
      exact absurd hw (hno _ ((updateSearch_view table now m k).trans hv))
    · injection h with h; subst h
      exact absurd hw (hno _ ((updateFilter_view table now m k).trans hv))
    · exact updateList_entry m k r hv h hw
  · simp only [hv] at h
    injection h with h; subst h
    exact updateDetail_entry m k hv hw

theorem cancel_fresh (table : Char → Char) (now : Time) (m : Model)
    (hw : isWorkflow m.currentView) (hf : fresh m) :
    ∃ (kc : KeyMsg) (r : Model × Cmd), Update table now m (Msg.KeyMsg kc) = .ok r ∧
      endsWorkflow m r.1 := by
  rcases hw with h | h | h | h
  · simp only [fresh, h] at hf
    have hu : Update table now m (Msg.KeyMsg escKey) =
        .ok ({ m with currentView := m.entryView, editingContact := none, editField := -1,
                      editValues := [] }, Cmd.none) := by
      unfold Update
      simp only [h]
      unfold updateEdit
      rw [if_neg hf.1, if_pos hf.2]
      rfl
    exact ⟨escKey, _, hu, rfl, by rw [h]; exact ⟨rfl, rfl⟩⟩
  · simp only [fresh, h] at hf
    have hu : Update table now m (Msg.KeyMsg escKey) =
        .ok ({ m with currentView := m.entryView, editField := -1, editValues := [] },
             Cmd.none) := by
      unfold Update
      simp only [h]
      unfold updateCreate
      rw [if_pos hf]
      rfl
    exact ⟨escKey, _, hu, rfl, by rw [h]; exact rfl⟩
  · simp only [fresh, h] at hf
    have hreset : endsWorkflow m (resetContactLogging m) := by
      refine ⟨rfl, ?_⟩
      rw [h]
      exact ⟨rfl, rfl, rfl, rfl, rfl⟩
    refine ⟨runeKey "q", (resetContactLogging m, Cmd.none), ?_, hreset⟩
    unfold Update
    simp only [h]
    rcases hf with h0 | h1
    · rw [updateInteractionType_step0 m _ h0]
      rfl
    · rw [updateInteractionType_step1 m _ h1]
      rfl
  · simp only [fresh, h] at hf
    have hu : Update table now m (Msg.KeyMsg escKey) =
        .ok ({ m with currentView := m.entryView, contactToMark := none }, Cmd.none) := by
      unfold Update
      simp only [h]
      unfold updateQuickType
      rw [if_neg hf]
      rfl
    exact ⟨escKey, _, hu, rfl, by rw [h]; exact rfl⟩

theorem Update_step (table : Char → Char) (now : Time) (m : Model) (msg : Msg)
    (r : Model × Cmd) (hw : isWorkflow m.currentView)
    (hq : m.currentView = ViewMode.ViewQuickType → m.contactToMark ≠ none)
    (h : Update table now m msg = .ok r) :
    staysIn m r.1 ∨ endsWorkflow m r.1 := by
  cases msg with
  | contactUpdatedMsg contact message =>
    obtain ⟨r', h', he⟩ := Update_contactUpdated_ends table now m contact message hw
    rw [h'] at h
    injection h with h; subst h
    exact Or.inr he
  | KeyMsg k =>
    unfold Update at h
    rcases hw with hv | hv | hv | hv
    · simp only [hv] at h
      exact updateEdit_step m k r hv h
    · simp only [hv] at h
      exact updateCreate_step m k r hv h
    · simp only [hv] at h
      injection h with h; subst h
      exact updateInteractionType_step m k hv
    · simp only [hv] at h
      injection h with h; subst h
      exact updateQuickType_step m k hv (hq hv)
  | WindowSizeMsg w h' =>
    unfold Update at h
    injection h with h; subst h
    exact Or.inl ⟨rfl, rfl, hq⟩
  | contactsLoadedMsg contacts =>
    unfold Update at h
    injection h with h; subst h
    exact Or.inl ⟨rfl, rfl, hq⟩
  | clearMessageMsg =>
    unfold Update at h
    injection h with h; subst h
    exact Or.inl ⟨rfl, rfl, hq⟩
  | errorMsg err =>
    unfold Update at h
    injection h with h; subst h
    exact Or.inl ⟨rfl, rfl, hq⟩
  | errorValue text =>
    unfold Update at h
    injection h with h; subst h
    exact Or.inl ⟨rfl, rfl, hq⟩
  | other =>
    unfold Update at h
    injection h with h; subst h
    exact Or.inl ⟨rfl, rfl, hq⟩

theorem Within_inv (table : Char → Char) (now : Time) (e m : Model)
    (hw : isWorkflow e.currentView) (hent : ¬ isWorkflow e.entryView) (hf : fresh e)
    (h : Within table now e m) :
    m.currentView = e.currentView ∧ m.entryView = e.entryView ∧
      (m.currentView = ViewMode.ViewQuickType → m.contactToMark ≠ none) := by
  induction h with
  | start =>
    refine ⟨rfl, rfl, fun hq => ?_⟩
    simpa only [fresh, hq] using hf
  | step m msg r _ hu hview ih =>
    have hwm : isWorkflow m.currentView := by rw [ih.1]; exact hw
    rcases Update_step table now m msg r hwm ih.2.2 hu with hs | he
    · exact ⟨hview, hs.2.1.trans ih.2.1, fun hq => hs.2.2 (by rw [ih.1, ← hview]; exact hq)⟩
    · exfalso
      apply hent
      rw [← ih.2.1, ← he.1, hview]
      exact hw

theorem index_some_lt {α : Type} (s : List α) (i : Int) (a : α) (h : index s i = some a) :
    i < (s.length : Int) := by
  unfold index at h
  split_ifs at h with h0
  have := (List.getElem?_eq_some.1 h).1
  omega

theorem updateList_log_key (m : Model) (c : Contact)
    (hi : index m.filtered m.cursor = some c) :
    updateList m (runeKey "d") =
      .ok ({ m with contactToMark := some c, entryView := m.currentView,
                    currentView := ViewMode.ViewInteractionType, contactLogStep := 0,
                    interactionType := [], interactionState := [], interactionNote := [] },
           Cmd.none) := by
  have hc := index_some_lt _ _ _ hi
  unfold updateList
  rw [if_neg (show ¬ ((runeKey "d").String = "ctrl+c".toList ∨ (runeKey "d").String = "q".toList) from by decide)]
  rw [if_neg (show ¬ ((runeKey "d").String = "j".toList ∨ (runeKey "d").String = "down".toList) from by decide)]
  rw [if_neg (show ¬ ((runeKey "d").String = "k".toList ∨ (runeKey "d").String = "up".toList) from by decide)]
  rw [if_neg (show ¬ ((runeKey "d").String = "g".toList ∨ (runeKey "d").String = "home".toList) from by decide)]
  rw [if_neg (show ¬ ((runeKey "d").String = "G".toList ∨ (runeKey "d").String = "end".toList) from by decide)]
  rw [if_neg (show ¬ ((runeKey "d").String = "ctrl+d".toList) from by decide)]
  rw [if_neg (show ¬ ((runeKey "d").String = "ctrl+u".toList) from by decide)]
  rw [if_neg (show ¬ ((runeKey "d").String = "enter".toList) from by decide)]
  rw [if_neg (show ¬ ((runeKey "d").String = "/".toList) from by decide)]
  rw [if_neg (show ¬ ((runeKey "d").String = "f".toList ∨ (runeKey "d").String = "F".toList) from by decide)]
  rw [if_pos (show (runeKey "d").String = "d".toList from rfl)]
  rw [if_pos hc, hi]

theorem updateList_edit_key (m : Model) (c : Contact)
    (hi : index m.filtered m.cursor = some c) :
    updateList m (runeKey "e") =
      .ok ({ initializeEditValues { m with editingContact := some c } c with
                entryView := (initializeEditValues { m with editingContact := some c } c).currentView,
                currentView := ViewMode.ViewEdit, editField := -1 }, Cmd.none) := by
  have hc := index_some_lt _ _ _ hi
  unfold updateList
  rw [if_neg (show ¬ ((runeKey "e").String = "ctrl+c".toList ∨ (runeKey "e").String = "q".toList) from by decide)]
  rw [if_neg (show ¬ ((runeKey "e").String = "j".toList ∨ (runeKey "e").String = "down".toList) from by decide)]
  rw [if_neg (show ¬ ((runeKey "e").String = "k".toList ∨ (runeKey "e").String = "up".toList) from by decide)]
  rw [if_neg (show ¬ ((runeKey "e").String = "g".toList ∨ (runeKey "e").String = "home".toList) from by decide)]
  rw [if_neg (show ¬ ((runeKey "e").String = "G".toList ∨ (runeKey "e").String = "end".toList) from by decide)]
  rw [if_neg (show ¬ ((runeKey "e").String = "ctrl+d".toList) from by decide)]
  rw [if_neg (show ¬ ((runeKey "e").String = "ctrl+u".toList) from by decide)]
  rw [if_neg (show ¬ ((runeKey "e").String = "enter".toList) from by decide)]
  rw [if_neg (show ¬ ((runeKey "e").String = "/".toList) from by decide)]
  rw [if_neg (show ¬ ((runeKey "e").String = "f".toList ∨ (runeKey "e").String = "F".toList) from by decide)]
  rw [if_neg (show ¬ ((runeKey "e").String = "d".toList) from by decide)]
  rw [if_neg (show ¬ ((runeKey "e").String = "b".toList) from by decide)]
  rw [if_pos (show (runeKey "e").String = "e".toList from rfl)]
  rw [if_pos hc, hi]

theorem updateList_type_key (m : Model) (c : Contact)
    (hi : index m.filtered m.cursor = some c) :
    updateList m (runeKey "T") =
      .ok ({ m with contactToMark := some c, entryView := m.currentView,
                    currentView := ViewMode.ViewQuickType }, Cmd.none) := by
  have hc := index_some_lt _ _ _ hi
  unfold updateList
  rw [if_neg (show ¬ ((runeKey "T").String = "ctrl+c".toList ∨ (runeKey "T").String = "q".toList) from by decide)]
  rw [if_neg (show ¬ ((runeKey "T").String = "j".toList ∨ (runeKey "T").String = "down".toList) from by decide)]
  rw [if_neg (show ¬ ((runeKey "T").String = "k".toList ∨ (runeKey "T").String = "up".toList) from by decide)]
  rw [if_neg (show ¬ ((runeKey "T").String = "g".toList ∨ (runeKey "T").String = "home".toList) from by decide)]
  rw [if_neg (show ¬ ((runeKey "T").String = "G".toList ∨ (runeKey "T").String = "end".toList) from by decide)]
  rw [if_neg (show ¬ ((runeKey "T").String = "ctrl+d".toList) from by decide)]
  rw [if_neg (show ¬ ((runeKey "T").String = "ctrl+u".toList) from by decide)]
  rw [if_neg (show ¬ ((runeKey "T").String = "enter".toList) from by decide)]
  rw [if_neg (show ¬ ((runeKey "T").String = "/".toList) from by decide)]
  rw [if_neg (show ¬ ((runeKey "T").String = "f".toList ∨ (runeKey "T").String = "F".toList) from by decide)]
  rw [if_neg (show ¬ ((runeKey "T").String = "d".toList) from by decide)]
  rw [if_neg (show ¬ ((runeKey "T").String = "b".toList) from by decide)]
  rw [if_neg (show ¬ ((runeKey "T").String = "e".toList) from by decide)]
  rw [if_neg (show ¬ ((runeKey "T").String = "c".toList) from by decide)]
  rw [if_neg (show ¬ ((runeKey "T").String = "s".toList) from by decide)]
  rw [if_pos (show (runeKey "T").String = "T".toList from rfl)]
  rw [if_pos hc, hi]

theorem updateList_create_key (m : Model) :
    updateList m (runeKey "c") =
      .ok ({ initializeCreateValues m with
                entryView := (initializeCreateValues m).currentView,
                currentView := ViewMode.ViewCreate, editField := -1 }, Cmd.none) := by
  unfold updateList
  rw [if_neg (show ¬ ((runeKey "c").String = "ctrl+c".toList ∨ (runeKey "c").String = "q".toList) from by decide)]
  rw [if_neg (show ¬ ((runeKey "c").String = "j".toList ∨ (runeKey "c").String = "down".toList) from by decide)]
  rw [if_neg (show ¬ ((runeKey "c").String = "k".toList ∨ (runeKey "c").String = "up".toList) from by decide)]
  rw [if_neg (show ¬ ((runeKey "c").String = "g".toList ∨ (runeKey "c").String = "home".toList) from by decide)]
  rw [if_neg (show ¬ ((runeKey "c").String = "G".toList ∨ (runeKey "c").String = "end".toList) from by decide)]
  rw [if_neg (show ¬ ((runeKey "c").String = "ctrl+d".toList) from by decide)]
  rw [if_neg (show ¬ ((runeKey "c").String = "ctrl+u".toList) from by decide)]
  rw [if_neg (show ¬ ((runeKey "c").String = "enter".toList) from by decide)]
  rw [if_neg (show ¬ ((runeKey "c").String = "/".toList) from by decide)]
  rw [if_neg (show ¬ ((runeKey "c").String = "f".toList ∨ (runeKey "c").String = "F".toList) from by decide)]
  rw [if_neg (show ¬ ((runeKey "c").String = "d".toList) from by decide)]
  rw [if_neg (show ¬ ((runeKey "c").String = "b".toList) from by decide)]
  rw [if_neg (show ¬ ((runeKey "c").String = "e".toList) from by decide)]
  rw [if_pos (show (runeKey "c").String = "c".toList from rfl)]

theorem updateList_quick_key (m : Model) (c : Contact)
    (hi : index m.filtered m.cursor = some c) :
    updateList m (runeKey "s") =
      .ok ({ m with contactToMark := some c, entryView := m.currentView,
                    currentView := ViewMode.ViewInteractionType, contactLogStep := 1,
                    interactionType := "note".toList, interactionState := [],
                    interactionNote := [] }, Cmd.none) := by
  have hc := index_some_lt _ _ _ hi
  unfold updateList
  rw [if_neg (show ¬ ((runeKey "s").String = "ctrl+c".toList ∨ (runeKey "s").String = "q".toList) from by decide)]
  rw [if_neg (show ¬ ((runeKey "s").String = "j".toList ∨ (runeKey "s").String = "down".toList) from by decide)]
  rw [if_neg (show ¬ ((runeKey "s").String = "k".toList ∨ (runeKey "s").String = "up".toList) from by decide)]
  rw [if_neg (show ¬ ((runeKey "s").String = "g".toList ∨ (runeKey "s").String = "home".toList) from by decide)]
  rw [if_neg (show ¬ ((runeKey "s").String = "G".toList ∨ (runeKey "s").String = "end".toList) from by decide)]
  rw [if_neg (show ¬ ((runeKey "s").String = "ctrl+d".toList) from by decide)]
  rw [if_neg (show ¬ ((runeKey "s").String = "ctrl+u".toList) from by decide)]
  rw [if_neg (show ¬ ((runeKey "s").String = "enter".toList) from by decide)]
  rw [if_neg (show ¬ ((runeKey "s").String = "/".toList) from by decide)]
  rw [if_neg (show ¬ ((runeKey "s").String = "f".toList ∨ (runeKey "s").String = "F".toList) from by decide)]
  rw [if_neg (show ¬ ((runeKey "s").String = "d".toList) from by decide)]
  rw [if_neg (show ¬ ((runeKey "s").String = "b".toList) from by decide)]
  rw [if_neg (show ¬ ((runeKey "s").String = "e".toList) from by decide)]
  rw [if_neg (show ¬ ((runeKey "s").String = "c".toList) from by decide)]
  rw [if_pos (show (runeKey "s").String = "s".toList from rfl), if_pos hc, hi]

theorem Update_list (table : Char → Char) (now : Time) (m : Model) (k : KeyMsg)
    (hv : m.currentView = ViewMode.ViewList) (hs : m.searchMode = false)
    (hp : m.showFilterPopup = false) :
    Update table now m (Msg.KeyMsg k) = updateList m k := by
  unfold Update
  simp only [hv, hs, hp, Bool.false_eq_true, if_false]

theorem Update_detail (table : Char → Char) (now : Time) (m : Model) (k : KeyMsg)
    (hv : m.currentView = ViewMode.ViewDetail) :
    Update table now m (Msg.KeyMsg k) = .ok (updateDetail m k) := by
  unfold Update
  simp only [hv]

/-- C18: a model in the detail view with a selected contact enters the edit
form by `e` and the logging flow by `d`; a model in the list view (no search,
no filter popup) enters the create form by `c` and, with a contact under the
cursor, the edit form by `e`, the logging flow by `d` and by `s`, and the
quick type change by `T`; each of these sets the entry view slot to the view
the key was pressed in.  And whenever a key pressed in the list or the detail
view enters one of these workflows, the entry view slot holds the view the
key was pressed in, and some cancel key pressed right away ends the workflow;
in every model reached while the workflow lasts, each message either leaves
the current view in the workflow or ends it, and the `contactUpdatedMsg` of a
save always ends it.  Ending means: the current view is the view of entry and
the transient fields of the workflow are cleared. -/
theorem entry_view_restored (table : Char → Char) (now : Time) (m0 : Model) :
    (m0.currentView = ViewMode.ViewDetail → ∀ c : Contact, m0.selectedContact = some c →
      (∃ e : Model × Cmd, Update table now m0 (Msg.KeyMsg (runeKey "e")) = .ok e ∧
        e.1.currentView = ViewMode.ViewEdit ∧ e.1.entryView = ViewMode.ViewDetail ∧
        e.1.editingContact = some c) ∧
      (∃ e : Model × Cmd, Update table now m0 (Msg.KeyMsg (runeKey "d")) = .ok e ∧
        e.1.currentView = ViewMode.ViewInteractionType ∧
        e.1.entryView = ViewMode.ViewDetail ∧ e.1.contactToMark = some c ∧
        e.1.contactLogStep = 0)) ∧
    (m0.currentView = ViewMode.ViewList → m0.searchMode = false →
      m0.showFilterPopup = false →
      (∃ e : Model × Cmd, Update table now m0 (Msg.KeyMsg (runeKey "c")) = .ok e ∧
        e.1.currentView = ViewMode.ViewCreate ∧ e.1.entryView = ViewMode.ViewList) ∧
      ∀ c : Contact, index m0.filtered m0.cursor = some c →
        (∃ e : Model × Cmd, Update table now m0 (Msg.KeyMsg (runeKey "e")) = .ok e ∧
          e.1.currentView = ViewMode.ViewEdit ∧ e.1.entryView = ViewMode.ViewList ∧
          e.1.editingContact = some c) ∧
        (∃ e : Model × Cmd, Update table now m0 (Msg.KeyMsg (runeKey "d")) = .ok e ∧
          e.1.currentView = ViewMode.ViewInteractionType ∧
          e.1.entryView = ViewMode.ViewList ∧ e.1.contactToMark = some c ∧
          e.1.contactLogStep = 0) ∧
        (∃ e : Model × Cmd, Update table now m0 (Msg.KeyMsg (runeKey "s")) = .ok e ∧
          e.1.currentView = ViewMode.ViewInteractionType ∧
          e.1.entryView = ViewMode.ViewList ∧ e.1.contactToMark = some c ∧
          e.1.contactLogStep = 1) ∧
        (∃ e : Model × Cmd, Update table now m0 (Msg.KeyMsg (runeKey "T")) = .ok e ∧
          e.1.currentView = ViewMode.ViewQuickType ∧ e.1.entryView = ViewMode.ViewList ∧
          e.1.contactToMark = some c)) ∧
    (m0.currentView = ViewMode.ViewList ∨ m0.currentView = ViewMode.ViewDetail →
      ∀ (k : KeyMsg) (e : Model × Cmd), Update table now m0 (Msg.KeyMsg k) = .ok e →
      isWorkflow e.1.currentView →
      e.1.entryView = m0.currentView ∧
      (∃ (kc : KeyMsg) (r : Model × Cmd), Update table now e.1 (Msg.KeyMsg kc) = .ok r ∧
        r.1.currentView = m0.currentView ∧ cleared e.1.currentView r.1) ∧
      ∀ m : Model, Within table now e.1 m →
        (∀ (msg : Msg) (r : Model × Cmd), Update table now m msg = .ok r →
          r.1.currentView = e.1.currentView ∨
            (r.1.currentView = m0.currentView ∧ cleared e.1.currentView r.1)) ∧
        (∀ (contact : Contact) (message : Str), ∃ r : Model × Cmd,
          Update table now m (Msg.contactUpdatedMsg contact message) = .ok r ∧
            r.1.currentView = m0.currentView ∧ cleared e.1.currentView r.1)) := by
  refine ⟨?_, ?_, ?_⟩
  · intro hv c hc
    constructor
    · refine ⟨_, Update_detail table now m0 _ hv, ?_⟩
      unfold updateDetail
      simp only [hc]
      exact ⟨rfl, hv, rfl⟩
    · refine ⟨_, Update_detail table now m0 _ hv, ?_⟩
      unfold updateDetail
      simp only [hc]
      exact ⟨rfl, hv, rfl, rfl⟩
  · intro hv hs hp
    constructor
    · exact ⟨_, (Update_list table now m0 _ hv hs hp).trans (updateList_create_key m0),
        rfl, hv⟩
    · intro c hi
      refine ⟨?_, ?_, ?_, ?_⟩
      · exact ⟨_, (Update_list table now m0 _ hv hs hp).trans (updateList_edit_key m0 c hi),
          rfl, hv, rfl⟩
      · exact ⟨_, (Update_list table now m0 _ hv hs hp).trans (updateList_log_key m0 c hi),
          rfl, hv, rfl, rfl⟩
      · exact ⟨_, (Update_list table now m0 _ hv hs hp).trans (updateList_quick_key m0 c hi),
          rfl, hv, rfl, rfl⟩
      · exact ⟨_, (Update_list table now m0 _ hv hs hp).trans (updateList_type_key m0 c hi),
          rfl, hv, rfl⟩
  · intro hv k e he hw
    obtain ⟨hentry, hfresh⟩ := Update_entry table now m0 k e hv he hw
    have hent : ¬ isWorkflow e.1.entryView := by
      rw [hentry]
      rcases hv with hv | hv <;> rw [hv] <;> simp [isWorkflow]
    refine ⟨hentry, ?_, ?_⟩
    · obtain ⟨kc, r, hr, hends⟩ := cancel_fresh table now e.1 hw hfresh
      exact ⟨kc, r, hr, hends.1.trans hentry, hends.2⟩
    · intro m hm
      obtain ⟨h1, h2, h3⟩ := Within_inv table now e.1 m hw hent hfresh hm
      have hwm : isWorkflow m.currentView := by rw [h1]; exact hw
      constructor
      · intro msg r hr
        rcases Update_step table now m msg r hwm h3 hr with hs | hends
        · exact Or.inl (hs.1.trans h1)
        · right
          refine ⟨hends.1.trans (h2.trans hentry), ?_⟩
          rw [← h1]
          exact hends.2
      · intro contact message
        obtain ⟨r, hr, hends⟩ := Update_contactUpdated_ends table now m contact message hwm
        refine ⟨r, hr, hends.1.trans (h2.trans hentry), ?_⟩
        rw [← h1]
        exact hends.2

/-- Witness of C18, from the detail view to the edit form and back: Enter in
the list showing Jane opens the detail view on her; there the key `e` enters
the edit form with the entry view slot holding the detail view; and the
`contactUpdatedMsg` of the save ends the form in the detail view, with the
editing contact and the edit values cleared. -/
theorem entry_view_restored_witness :
    pressKeys id sampleNow listOfJane [enterKey] = .ok detailOfJane ∧
    detailOfJane.currentView = ViewMode.ViewDetail ∧
    detailOfJane.selectedContact = some janeOnDisk ∧
    Update id sampleNow detailOfJane (Msg.KeyMsg (runeKey "e")) = .ok janeEnteredFromDetail ∧
    janeEnteredFromDetail.1.currentView = ViewMode.ViewEdit ∧
    Update id sampleNow janeEnteredFromDetail.1
        (Msg.contactUpdatedMsg janeFollowup "Updated Jane Q. Doe".toList) =
      .ok (janeBackInDetail, Cmd.clearMessageAfter 3) ∧
    janeBackInDetail.currentView = ViewMode.ViewDetail ∧
    (∃ e : Model × Cmd, Update id sampleNow detailOfJane (Msg.KeyMsg (runeKey "e")) = .ok e ∧
      e.1.currentView = ViewMode.ViewEdit ∧ e.1.entryView = ViewMode.ViewDetail ∧
      e.1.editingContact = some janeOnDisk) ∧
    janeEnteredFromDetail.1.entryView = detailOfJane.currentView ∧
    ∃ r : Model × Cmd,
      Update id sampleNow janeEnteredFromDetail.1
          (Msg.contactUpdatedMsg janeFollowup "Updated Jane Q. Doe".toList) = .ok r ∧
        r.1.currentView = detailOfJane.currentView ∧
        cleared janeEnteredFromDetail.1.currentView r.1 :=
  have h := entry_view_restored id sampleNow detailOfJane
  have h3 := h.2.2 (Or.inr rfl) (runeKey "e") janeEnteredFromDetail rfl (Or.inl rfl)
  ⟨by rfl, rfl, rfl, by rfl, rfl, by rfl, rfl, (h.1 rfl janeOnDisk rfl).1, h3.1,
    (h3.2.2 janeEnteredFromDetail.1 (Within.start)).2 janeFollowup
      "Updated Jane Q. Doe".toList⟩

/-! ## Theorems: what the save commands write -/

theorem stamped_Content (table : Char → Char) (nowName now : Time) (c : Contact) :
    (stamped table nowName now c).Content = c.Content := by
  unfold stamped
  split_ifs <;> rfl

theorem loggedContact_Content (m : Model) (contact : Contact) (now : Time) (note : Str) :
    (loggedContact m contact now note).Content =
      loggedBodySpec now.Format2006_01_02 m.interactionType note contact.Content := by
  unfold loggedContact loggedBodySpec
  by_cases h : note = []
  · simp [h]
  · simp [h]

theorem loggedContact_Title (m : Model) (contact : Contact) (now : Time) (note : Str) :
    (loggedContact m contact now note).Title = contact.Title := by
  unfold loggedContact
  simp only []
  split_ifs <;> rfl

theorem stamped_FilePath_logged (table : Char → Char) (nowName now : Time) (m : Model)
    (contact : Contact) (t : Time) (note : Str) :
    (stamped table nowName now (loggedContact m contact t note)).FilePath =
      (stamped table nowName now contact).FilePath := by
  unfold stamped loggedContact GenerateFilename
  by_cases hn : note = [] <;> by_cases hp : contact.FilePath = [] <;> simp [hn, hp]

theorem loggedContact_FilePath (m : Model) (contact : Contact) (now : Time) (note : Str) :
    (loggedContact m contact now note).FilePath = contact.FilePath := by
  unfold loggedContact
  simp only []
  split_ifs <;> rfl

theorem SaveContactFile_write (Y : Yaml) (table : Char → Char) (nowName now : Time)
    (fs fs1 : FS) (c : Contact) (h : SaveContactFile Y table nowName now fs c = .ok fs1) :
    ∃ header : Str, Y.Marshal (stamped table nowName now c) = some header ∧
      fs.WriteFile (stamped table nowName now c).FilePath
        (delimiter ++ header ++ delimiter ++ c.Content) = some fs1 := by
  unfold SaveContactFile at h
  simp only [] at h
  cases hm : Y.Marshal (stamped table nowName now c) with
  | none => simp [hm] at h
  | some header =>
    simp only [hm] at h
    split at h
    · cases h
    · rename_i fs' hw
      injection h with h
      subst h
      refine ⟨header, rfl, ?_⟩
      simpa [stamped_Content] using hw

theorem createTask_atMost (env : Env) (now : Time) (fs fs2 : FS) (contact : Contact)
    (state : Str) (h : createTaskForContact env now fs contact state = .ok fs2) :
    atMostTaskWritten env fs fs2 := by
  unfold createTaskForContact at h
  split at h
  · injection h with h
    exact Or.inl h.symm
  · simp only [] at h
    split at h
    · cases h
    · split at h
      · cases h
      · rename_i fs' hw
        injection h with h
        subst h
        exact Or.inr ⟨_, _, hw⟩

theorem annotatedTask_atMost (env : Env) (now : Time) (fs : FS) (contact : Contact)
    (state : Str) : atMostTaskWritten env fs (annotatedTask env now fs contact state).1 := by
  unfold annotatedTask
  split
  · exact Or.inl rfl
  · rename_i fs' h
    exact createTask_atMost env now fs fs' contact state h

theorem silentTask_atMost (env : Env) (now : Time) (fs : FS) (contact : Contact) :
    atMostTaskWritten env fs (silentTask env now fs contact).1 := by
  unfold silentTask
  split
  · exact Or.inl rfl
  · rename_i fs' h
    exact createTask_atMost env now fs fs' contact contact.State h

/-- What `logContactInteraction` delivers and leaves, by the outcome of its
contact write. -/
theorem logContactInteraction_spec (env : Env) (clk : Clock) (fs : FS) (m : Model)
    (contact : Contact) (note : Str) (hn : decodeStrict m.interactionNote = some note) :
    ∃ (msg : Msg) (fs2 : FS), logContactInteraction env clk fs m contact = .ok (msg, fs2) ∧
      ((∃ e : SaveError,
          SaveContactFile env.yaml env.table clk.nowName clk.nowStamp fs
            (loggedContact m contact clk.now note) = .error e ∧
          msg = Msg.errorMsg (CmdError.save contact.Title e) ∧ fs2 = fs) ∨
       (∃ fs1 : FS,
          SaveContactFile env.yaml env.table clk.nowName clk.nowStamp fs
            (loggedContact m contact clk.now note) = .ok fs1 ∧
          fs2 = (if contact.State ≠ m.interactionState then
              annotatedTask env clk.nowTask fs1 (loggedContact m contact clk.now note)
                m.interactionState
            else (fs1, false, [])).1 ∧
          reloadedFrom env fs2 contact.FilePath msg)) := by
  unfold logContactInteraction
  simp only [hn]
  cases hs : SaveContactFile env.yaml env.table clk.nowName clk.nowStamp fs
      (loggedContact m contact clk.now note) with
  | error e =>
    exact ⟨_, _, rfl, Or.inl ⟨e, rfl, by rw [loggedContact_Title], rfl⟩⟩
  | ok fs1 =>
    simp only []
    rw [loggedContact_FilePath]
    cases hp : ParseContactFile env.yaml
        (if contact.State ≠ m.interactionState then
            annotatedTask env clk.nowTask fs1 (loggedContact m contact clk.now note)
              m.interactionState
          else (fs1, false, [])).1 contact.FilePath with
    | error e =>
      exact ⟨_, _, rfl, Or.inr ⟨fs1, rfl, rfl, Or.inl ⟨_, e, hp, rfl⟩⟩⟩
    | ok updated =>
      exact ⟨_, _, rfl, Or.inr ⟨fs1, rfl, rfl, Or.inr ⟨updated, _, hp, rfl⟩⟩⟩

theorem SaveContactFile_error (Y : Yaml) (table : Char → Char) (nowName now : Time)
    (fs : FS) (c : Contact) (e : SaveError)
    (h : SaveContactFile Y table nowName now fs c = .error e) :
    Y.Marshal (stamped table nowName now c) = none ∨
      fs.writable (stamped table nowName now c).FilePath = false := by
  unfold SaveContactFile at h
  simp only [] at h
  cases hm : Y.Marshal (stamped table nowName now c) with
  | none => exact Or.inl rfl
  | some header =>
    right
    simp only [hm] at h
    unfold FS.WriteFile at h
    by_cases hw : fs.writable (stamped table nowName now c).FilePath = true
    · rw [if_pos hw] at h
      cases h
    · simpa using hw

/-! ## Theorems: the task of a state change -/

theorem taskFile_opens (table : Char → Char) (now : Time) (contact : Contact)
    (state p : Str) (ht : taskTitle p contact.Title state = taskTitleSpec contact.Title state) :
    ("---\ntitle: ".toList ++ taskTitleSpec contact.Title state ++ "\n".toList) <+:
      (taskFile table now contact state p).2 := by
  unfold taskFile
  simp only [ht]
  rw [show "---\ntitle: ".toList = "---\n".toList ++ "title: ".toList from rfl]
  simp only [List.append_assoc]
  refine (List.prefix_append_right_inj _).2 ?_
  refine (List.prefix_append_right_inj _).2 ?_
  refine (List.prefix_append_right_inj _).2 ?_
  exact List.prefix_append _ _

theorem createTask_of_lookup (env : Env) (now : Time) (fs : FS) (contact : Contact)
    (state p : Str)
    (hw : taskWritable env now fs contact state)
    (hl : actionStates.lookup state = some p)
    (ht : taskTitle p contact.Title state = taskTitleSpec contact.Title state) :
    ∃ fs2 : FS, createTaskForContact env now fs contact state = .ok fs2 ∧
      oneTaskWritten env fs fs2 contact.Title state := by
  obtain ⟨hd, hw⟩ := hw
  have hd2 : env.mkdirAll (env.pathJoin env.homeDir "notes".toList) = none := hd
  obtain ⟨rest, hrest⟩ := taskFile_opens env.table now contact state p ht
  unfold taskFileName at hw
  rw [hl] at hw
  simp only [] at hw
  cases hf : fs.WriteFile (env.pathJoin (notesDir env) (taskFile env.table now contact state p).1)
      (taskFile env.table now contact state p).2 with
  | none =>
    unfold FS.WriteFile at hf
    rw [if_pos hw] at hf
    cases hf
  | some fs2 =>
    refine ⟨fs2, ?_, (taskFile env.table now contact state p).1, rest, ?_⟩
    · unfold createTaskForContact
      rw [hl]
      simp only [hd2]
      unfold notesDir at hf
      rw [hf]
    · rw [hrest]
      exact hf

theorem lookup_of_taskState (state : Str) (hs : state ∈ taskStates) :
    ∃ p : Str, actionStates.lookup state = some p ∧
      ∀ title : Str, taskTitle p title state = taskTitleSpec title state := by
  simp only [taskStates, List.mem_cons, List.mem_singleton, List.not_mem_nil, or_false] at hs
  rcases hs with hs | hs | hs | hs
  · subst hs
    exact ⟨"Follow up with".toList, rfl, fun _ => by simp [taskTitle, taskTitleSpec]⟩
  · subst hs
    exact ⟨"Ping".toList, rfl, fun _ => by simp [taskTitle, taskTitleSpec]⟩
  · subst hs
    exact ⟨"Meeting with".toList, rfl, fun _ => by simp [taskTitle, taskTitleSpec]⟩
  · subst hs
    exact ⟨"Follow up with".toList, rfl, fun _ => by simp [taskTitle, taskTitleSpec]⟩

theorem createTask_due (env : Env) (now : Time) (fs : FS) (contact : Contact) (state : Str)
    (hw : taskWritable env now fs contact state) (hs : state ∈ taskStates) :
    ∃ fs2 : FS, createTaskForContact env now fs contact state = .ok fs2 ∧
      oneTaskWritten env fs fs2 contact.Title state := by
  obtain ⟨p, hl, ht⟩ := lookup_of_taskState state hs
  exact createTask_of_lookup env now fs contact state p hw hl (ht contact.Title)

theorem createTask_not_due (env : Env) (now : Time) (fs : FS) (contact : Contact) (state : Str)
    (hs : state ∉ taskStates) :
    createTaskForContact env now fs contact state = .ok fs := by
  have hl : actionStates.lookup state = none := by
    simp only [taskStates, List.mem_cons, List.mem_singleton, List.not_mem_nil, or_false,
      not_or] at hs
    obtain ⟨h1, h2, h3, h4⟩ := hs
    have e1 : (state == "followup".toList) = false := by simpa using h1
    have e2 : (state == "ping".toList) = false := by simpa using h2
    have e3 : (state == "scheduled".toList) = false := by simpa using h3
    have e4 : (state == "timeout".toList) = false := by simpa using h4
    simp only [actionStates, List.lookup, e1, e2, e3, e4]
  unfold createTaskForContact
  rw [hl]

theorem createTask_not_writable (env : Env) (now : Time) (fs : FS) (contact : Contact)
    (state : Str) (hs : state ∈ taskStates) (hw : ¬ taskWritable env now fs contact state) :
    ∃ text : Str, createTaskForContact env now fs contact state = .error text := by
  obtain ⟨p, hl, _⟩ := lookup_of_taskState state hs
  unfold createTaskForContact
  rw [hl]
  simp only []
  cases hd : env.mkdirAll (env.pathJoin env.homeDir "notes".toList) with
  | some text => exact ⟨_, rfl⟩
  | none =>
    simp only []
    cases hf : fs.WriteFile
        (env.pathJoin (env.pathJoin env.homeDir "notes".toList)
          (taskFile env.table now contact state p).1)
        (taskFile env.table now contact state p).2 with
    | none => exact ⟨_, rfl⟩
    | some fs2 =>
      exfalso
      apply hw
      refine ⟨hd, ?_⟩
      unfold taskFileName
      rw [hl]
      simp only []
      unfold FS.WriteFile at hf
      by_cases hwr : fs.writable (env.pathJoin (env.pathJoin env.homeDir "notes".toList)
          (taskFile env.table now contact state p).1) = true
      · exact hwr
      · rw [if_neg hwr] at hf
        cases hf

theorem taskFileName_of_Title (env : Env) (now : Time) (c1 c2 : Contact) (state : Str)
    (h : c1.Title = c2.Title) : taskFileName env now c1 state = taskFileName env now c2 state := by
  unfold taskFileName
  split
  · unfold taskFile
    simp only [h]
  · rfl

theorem taskWritable_logged (env : Env) (now : Time) (fs : FS) (m : Model) (contact : Contact)
    (t : Time) (note state : Str) :
    taskWritable env now fs (loggedContact m contact t note) state ↔
      taskWritable env now fs contact state := by
  unfold taskWritable
  rw [taskFileName_of_Title env now (loggedContact m contact t note) contact state
    (loggedContact_Title m contact t note)]

/-- The task step of a save: the file system after `createTaskForContact` was
called when the state changed, an error of it leaving the file system as it
was. -/
theorem taskStep_spec (env : Env) (now : Time) (fs1 : FS) (contact : Contact)
    (oldState state : Str) (fs2 : FS)
    (h : fs2 = (if oldState ≠ state then
        (match createTaskForContact env now fs1 contact state with
          | .error _ => fs1
          | .ok fs' => fs')
      else fs1)) :
    (taskDue oldState state ∧ taskWritable env now fs1 contact state →
      oneTaskWritten env fs1 fs2 contact.Title state) ∧
    (¬ (taskDue oldState state ∧ taskWritable env now fs1 contact state) → fs2 = fs1) := by
  by_cases hne : oldState ≠ state
  · rw [if_pos hne] at h
    by_cases hs : state ∈ taskStates
    · by_cases hw : taskWritable env now fs1 contact state
      · obtain ⟨fs3, h1, h2⟩ := createTask_due env now fs1 contact state hw hs
        rw [h1] at h
        subst h
        exact ⟨fun _ => h2, fun hn => absurd ⟨⟨hne, hs⟩, hw⟩ hn⟩
      · obtain ⟨text, h1⟩ := createTask_not_writable env now fs1 contact state hs hw
        rw [h1] at h
        exact ⟨fun hd => absurd hd.2 hw, fun _ => h⟩
    · rw [createTask_not_due env now fs1 contact state hs] at h
      exact ⟨fun hd => absurd hd.1.2 hs, fun _ => h⟩
  · rw [if_neg hne] at h
    exact ⟨fun hd => absurd hd.1.1 hne, fun _ => h⟩

theorem silentTask_fs (env : Env) (now : Time) (fs : FS) (contact : Contact) :
    (silentTask env now fs contact).1 =
      (match createTaskForContact env now fs contact contact.State with
        | .error _ => fs
        | .ok fs' => fs') := by
  unfold silentTask
  split <;> rfl

theorem annotatedTask_fs (env : Env) (now : Time) (fs : FS) (contact : Contact) (state : Str) :
    (annotatedTask env now fs contact state).1 =
      (match createTaskForContact env now fs contact state with
        | .error _ => fs
        | .ok fs' => fs') := by
  unfold annotatedTask
  split <;> rfl

/-- What `saveEditedContact` delivers and leaves once its contact write has
succeeded. -/
theorem saveEditedContact_saved (env : Env) (clk : Clock) (fs fs1 : FS) (m : Model)
    (old contact : Contact) (hm : m.editingContact = some old)
    (he : editedContact m old clk.now = .ok contact)
    (hs : SaveContactFile env.yaml env.table clk.nowName clk.nowStamp fs contact = .ok fs1) :
    ∃ (msg : Msg) (fs2 : FS), saveEditedContact env clk fs m = .ok (msg, fs2) ∧
      fs2 = (if old.State ≠ contact.State then
          (match createTaskForContact env clk.nowTask fs1 contact contact.State with
            | .error _ => fs1
            | .ok fs' => fs')
        else fs1) ∧
      reloadedFrom env fs2 contact.FilePath msg := by
  have hfs : (if old.State ≠ contact.State then silentTask env clk.nowTask fs1 contact
        else (fs1, false)).1 =
      (if old.State ≠ contact.State then
          (match createTaskForContact env clk.nowTask fs1 contact contact.State with
            | .error _ => fs1
            | .ok fs' => fs')
        else fs1) := by
    split_ifs
    · exact silentTask_fs _ _ _ _
    · rfl
  unfold saveEditedContact
  simp only [hm, he, hs]
  cases hp : ParseContactFile env.yaml
      (if old.State ≠ contact.State then silentTask env clk.nowTask fs1 contact
        else (fs1, false)).1 contact.FilePath with
  | error e => exact ⟨_, _, rfl, hfs, Or.inl ⟨_, e, hp, rfl⟩⟩
  | ok updated => exact ⟨_, _, rfl, hfs, Or.inr ⟨updated, _, hp, rfl⟩⟩

/-- C16 (amended): for an edit save and for an interaction-log save whose
contact write succeeds (the values of the form, and the note, being valid
UTF-8 text), the command delivers a message, and a task is written exactly
when the new state differs from the previous state, is one of followup, ping,
scheduled, timeout, and the task file can be written (the notes directory can
be made and the write of the task file under it succeeds): then the file
system after the command is the one after the contact write with exactly one
more file written, under the notes directory, opening with the title line of
that state; otherwise the file system is the one after the contact write. -/
theorem task_written_iff_due (env : Env) (clk : Clock) (fs fs1 : FS) (m : Model) :
    (∀ old contact : Contact, m.editingContact = some old →
      editedContact m old clk.now = .ok contact →
      SaveContactFile env.yaml env.table clk.nowName clk.nowStamp fs contact = .ok fs1 →
      ∃ (msg : Msg) (fs2 : FS), saveEditedContact env clk fs m = .ok (msg, fs2) ∧
        (taskDue old.State contact.State ∧
            taskWritable env clk.nowTask fs1 contact contact.State →
          oneTaskWritten env fs1 fs2 contact.Title contact.State) ∧
        (¬ (taskDue old.State contact.State ∧
            taskWritable env clk.nowTask fs1 contact contact.State) → fs2 = fs1)) ∧
    (∀ (contact : Contact) (note : Str), decodeStrict m.interactionNote = some note →
      SaveContactFile env.yaml env.table clk.nowName clk.nowStamp fs
        (loggedContact m contact clk.now note) = .ok fs1 →
      ∃ (msg : Msg) (fs2 : FS), logContactInteraction env clk fs m contact = .ok (msg, fs2) ∧
        (taskDue contact.State m.interactionState ∧
            taskWritable env clk.nowTask fs1 contact m.interactionState →
          oneTaskWritten env fs1 fs2 contact.Title m.interactionState) ∧
        (¬ (taskDue contact.State m.interactionState ∧
            taskWritable env clk.nowTask fs1 contact m.interactionState) → fs2 = fs1)) := by
  constructor
  · intro old contact hm he hs
    obtain ⟨msg, fs2, hr, hfs, _⟩ := saveEditedContact_saved env clk fs fs1 m old contact hm he hs
    exact ⟨msg, fs2, hr,
      taskStep_spec env clk.nowTask fs1 contact old.State contact.State fs2 hfs⟩
  · intro contact note hn hs
    obtain ⟨msg, fs2, hr, hcase⟩ := logContactInteraction_spec env clk fs m contact note hn
    refine ⟨msg, fs2, hr, ?_⟩
    rcases hcase with ⟨e, hs', _, _⟩ | ⟨fs1', hs', hfs, _⟩
    · rw [hs] at hs'
      cases hs'
    · rw [hs] at hs'
      injection hs' with hs'
      subst hs'
      have hfs2 : fs2 = (if contact.State ≠ m.interactionState then
            (match createTaskForContact env clk.nowTask fs1
                (loggedContact m contact clk.now note) m.interactionState with
              | .error _ => fs1
              | .ok fs' => fs')
          else fs1) := by
        rw [hfs]
        split_ifs
        · exact annotatedTask_fs _ _ _ _ _
        · rfl
      have h := taskStep_spec env clk.nowTask fs1 (loggedContact m contact clk.now note)
        contact.State m.interactionState fs2 hfs2
      rw [loggedContact_Title, taskWritable_logged] at h
      exact h

set_option maxRecDepth 100000

/-- Witness of C16: saving the edit of Jane, whose state goes from ok to
followup, to the empty file system writes one task titled
"Follow up with Jane Q. Doe". -/
theorem task_written_iff_due_witness :
    editOfJane.editingContact = some janeOnDisk ∧
    editedContact editOfJane janeOnDisk sampleClock.now = .ok janeFollowup ∧
    SaveContactFile sampleEnv.yaml sampleEnv.table sampleClock.nowName sampleClock.nowStamp
      emptyFS janeFollowup = .ok janeSavedFS ∧
    taskDue janeOnDisk.State janeFollowup.State ∧
    taskWritable sampleEnv sampleClock.nowTask janeSavedFS janeFollowup janeFollowup.State ∧
    ∃ (msg : Msg) (fs2 : FS),
      saveEditedContact sampleEnv sampleClock emptyFS editOfJane = .ok (msg, fs2) ∧
      oneTaskWritten sampleEnv janeSavedFS fs2 "Jane Q. Doe".toList "followup".toList :=
  ⟨rfl, rfl, rfl, ⟨by decide, by decide⟩, ⟨rfl, rfl⟩,
    ((task_written_iff_due sampleEnv sampleClock emptyFS janeSavedFS editOfJane).1
      janeOnDisk janeFollowup rfl rfl rfl).imp fun _ h =>
        h.imp fun _ hx => ⟨hx.1, hx.2.1 ⟨⟨by decide, by decide⟩, rfl, rfl⟩⟩⟩

/-- C16: counterexample.  The edit of Jane changes her state from ok to
followup and her contact file is written, but nothing under the notes
directory can be written: the file system after the command is the one after
the contact write, so no task was written. -/
theorem task_not_written_when_notes_locked :
    editOfJane.editingContact = some janeOnDisk ∧
    editedContact editOfJane janeOnDisk sampleClock.now = .ok janeFollowup ∧
    taskDue janeOnDisk.State janeFollowup.State ∧
    ∃ (fs1 : FS) (msg : Msg),
      SaveContactFile sampleEnv.yaml sampleEnv.table sampleClock.nowName sampleClock.nowStamp
        lockedNotesFS janeFollowup = .ok fs1 ∧
      saveEditedContact sampleEnv sampleClock lockedNotesFS editOfJane = .ok (msg, fs1) :=
  ⟨rfl, rfl, ⟨by decide, by decide⟩, _, _, rfl, rfl⟩

/-- C17: the edit of Jane is saved where the task file cannot be written.
The task step fails with its error, the command still delivers a
`contactUpdatedMsg`, and its message is "Updated Jane Q. Doe": the error of
the task is not reported in it. -/
theorem edit_save_drops_task_error :
    ∃ (fs1 fs2 : FS) (updated : Contact),
      SaveContactFile sampleEnv.yaml sampleEnv.table sampleClock.nowName sampleClock.nowStamp
        lockedNotesFS janeFollowup = .ok fs1 ∧
      createTaskForContact sampleEnv sampleClock.nowTask fs1 janeFollowup "followup".toList =
        .error ("failed to create task file ".toList ++ [apostrophe] ++
          "20240601T120000--follow-up-with-jane-q-doe__task.md".toList ++ [apostrophe] ++
          ": permission denied".toList) ∧
      saveEditedContact sampleEnv sampleClock lockedNotesFS editOfJane =
        .ok (Msg.contactUpdatedMsg updated "Updated Jane Q. Doe".toList, fs2) :=
  ⟨_, _, _, rfl, rfl, rfl⟩

/-! ## Theorems: the sentinel and the status thresholds -/

/-- C27, evaluated where the code departs from the claim: a close contact
whose `lastContacted` is set, exactly one day after the current time, has
`DaysSinceContact = int(-24.0/24) = -1`, the never-contacted sentinel; so
`IsOverdue` and `NeedsAttention` take their never-contacted branch and return
true, `IsWithinThreshold` returns false and the line shows the contact as
overdue.  The same holds 47 hours ahead (`int(-1.958...) = -1`). -/
theorem sentinel_for_contacted :
    (contactedAt (24 * Hour)).LastContacted = some ⟨sampleNow.unixNano + 24 * Hour, 0⟩ ∧
    DaysSinceContact (contactedAt (24 * Hour)) sampleNow = -1 ∧
    DaysSinceContact neverContacted sampleNow = -1 ∧
    IsOverdue (contactedAt (24 * Hour)) sampleNow = true ∧
    NeedsAttention (contactedAt (24 * Hour)) sampleNow = true ∧
    IsWithinThreshold (contactedAt (24 * Hour)) sampleNow = false ∧
    statusIndicator (contactedAt (24 * Hour)) sampleNow = Indicator.overdue ∧
    DaysSinceContact (contactedAt (47 * Hour)) sampleNow = -1 :=
  ⟨by rfl, by rfl, by rfl, by rfl, by rfl, by rfl, by rfl, by rfl⟩

theorem not_both_of_ge_13 (c : Contact) (now : Time) (hf : 13 ≤ GetFrequencyDays c) :
    ¬ (NeedsAttention c now = true ∧ IsWithinThreshold c now = true) := by
  rintro ⟨hn, hw⟩
  have hf0 : GetFrequencyDays c ≠ 0 := by omega
  have hdiv : Int.tdiv (GetFrequencyDays c) 2 = GetFrequencyDays c / 2 :=
    Int.tdiv_eq_ediv (by omega) (by omega)
  unfold NeedsAttention at hn
  unfold IsWithinThreshold at hw
  by_cases hs : c.ContactStyle ≠ StylePeriodic ∧ c.ContactStyle ≠ []
  · simp [hs] at hn
  · by_cases hd : DaysSinceContact c now = -1
    · simp [hs, hf0, hd] at hw
    · simp only [hs, hf0, hd, if_false, Bool.and_eq_true, decide_eq_true_eq, hdiv] at hn hw
      omega

/-- C28: a contact whose frequency is at least 13 days never both needs
attention and is within its threshold; for every frequency from 1 to 12 some
contact with that frequency, at some time, is both, and its line then shows
needs-attention; so it is for the custom frequency 10 at 4 days since the
last contact. -/
theorem attention_and_threshold :
    (∀ (c : Contact) (now : Time), 13 ≤ GetFrequencyDays c →
      ¬ (NeedsAttention c now = true ∧ IsWithinThreshold c now = true)) ∧
    (∀ f : Int, 1 ≤ f → f ≤ 12 →
      ∃ (c : Contact) (now : Time), GetFrequencyDays c = f ∧
        NeedsAttention c now = true ∧ IsWithinThreshold c now = true ∧
        statusIndicator c now = Indicator.attention) ∧
    (GetFrequencyDays (contactedDaysAgo 10 4) = 10 ∧
      DaysSinceContact (contactedDaysAgo 10 4) sampleNow = 4 ∧
      NeedsAttention (contactedDaysAgo 10 4) sampleNow = true ∧
      IsWithinThreshold (contactedDaysAgo 10 4) sampleNow = true ∧
      statusIndicator (contactedDaysAgo 10 4) sampleNow = Indicator.attention) := by
  refine ⟨not_both_of_ge_13, ?_, by rfl, by rfl, by rfl, by rfl, by rfl⟩
  intro f h1 h12
  refine ⟨contactedDaysAgo f (f / 2), sampleNow, ?_⟩
  interval_cases f <;> exact ⟨by rfl, by rfl, by rfl, by rfl⟩

/-- Witness of C28: a close contact (frequency 30) contacted 25 days ago
needs attention and is not within its threshold. -/
theorem attention_and_threshold_witness :
    13 ≤ GetFrequencyDays (contactedAt (-(25 * 24 * Hour))) ∧
    NeedsAttention (contactedAt (-(25 * 24 * Hour))) sampleNow = true ∧
    ¬ (NeedsAttention (contactedAt (-(25 * 24 * Hour))) sampleNow = true ∧
      IsWithinThreshold (contactedAt (-(25 * 24 * Hour))) sampleNow = true) :=
  ⟨by decide, by rfl,
    attention_and_threshold.1 (contactedAt (-(25 * 24 * Hour))) sampleNow (by decide)⟩

/-! ## Theorems: the message of a completed save -/

theorem Update_contactUpdated_create (table : Char → Char) (now : Time) (m : Model)
    (contact : Contact) (message : Str) (h : m.currentView = ViewMode.ViewCreate) :
    ∃ m' : Model, Update table now m (Msg.contactUpdatedMsg contact message) =
      .ok (m', Cmd.loadContacts m') ∧ m'.message = message := by
  unfold Update
  simp only []
  cases hs : m.selectedContact with
  | none =>
    simp only [applyFilters, h, reduceCtorEq, if_false, if_true]
    exact ⟨_, rfl, rfl⟩
  | some sel =>
    by_cases hp : sel.FilePath = contact.FilePath
    · simp only [applyFilters, h, hp, reduceCtorEq, if_false, if_true]
      exact ⟨_, rfl, rfl⟩
    · simp only [applyFilters, h, hp, reduceCtorEq, if_false, if_true]
      exact ⟨_, rfl, rfl⟩

theorem Update_contactUpdated_others (table : Char → Char) (now : Time) (m : Model)
    (contact : Contact) (message : Str) (h : m.currentView ≠ ViewMode.ViewCreate) :
    ∃ m' : Model, Update table now m (Msg.contactUpdatedMsg contact message) =
      .ok (m', Cmd.clearMessageAfter 3) ∧ m'.message = message := by
  unfold Update
  simp only []
  cases hs : m.selectedContact with
  | none =>
    simp only [applyFilters, h, reduceCtorEq, if_false, if_true]
    split_ifs <;> exact ⟨_, rfl, rfl⟩
  | some sel =>
    by_cases hp : sel.FilePath = contact.FilePath
    · simp only [applyFilters, h, hp, reduceCtorEq, if_false, if_true]
      split_ifs <;> exact ⟨_, rfl, rfl⟩
    · simp only [applyFilters, h, hp, reduceCtorEq, if_false, if_true]
      split_ifs <;> exact ⟨_, rfl, rfl⟩

/-- C21, evaluated where the code departs from the claim: in the create view
the `contactUpdatedMsg` of a save sets the message but the command returned
is `loadContacts`, not the message-clear after 3 seconds; running that
command delivers a `contactsLoadedMsg` or an `errorMsg`, never the
`clearMessageMsg`, and `Update` on what it delivers leaves the message as it
is.  In every other view the command returned is the message-clear after 3
seconds, which delivers the `clearMessageMsg`. -/
theorem create_completion_schedules_no_clear :
    (∀ (table : Char → Char) (now : Time) (m : Model) (contact : Contact) (message : Str),
      ∃ m' : Model,
        Update table now { m with currentView := ViewMode.ViewCreate }
          (Msg.contactUpdatedMsg contact message) = .ok (m', Cmd.loadContacts m') ∧
        m'.message = message) ∧
    (∀ (env : Env) (clk : Clock) (fs : FS) (m : Model),
      ∃ msg : Msg, runCmd env clk fs (Cmd.loadContacts m) = .ok (some msg, fs) ∧
        msg ≠ Msg.clearMessageMsg ∧
        ∀ (table : Char → Char) (now : Time) (m1 : Model),
          ∃ m2 : Model, Update table now m1 msg = .ok (m2, Cmd.none) ∧
            m2.message = m1.message) ∧
    (∀ (table : Char → Char) (now : Time) (m : Model) (contact : Contact) (message : Str),
      m.currentView ≠ ViewMode.ViewCreate →
      ∃ m' : Model,
        Update table now m (Msg.contactUpdatedMsg contact message) =
          .ok (m', Cmd.clearMessageAfter 3) ∧ m'.message = message) ∧
    (∀ (env : Env) (clk : Clock) (fs : FS),
      runCmd env clk fs (Cmd.clearMessageAfter 3) = .ok (some Msg.clearMessageMsg, fs)) := by
  refine ⟨?_, ?_, ?_, fun _ _ _ => rfl⟩
  · intro table now m contact message
    exact Update_contactUpdated_create table now _ contact message rfl
  · intro env clk fs m
    refine ⟨runLoadContacts env fs m, rfl, ?_, ?_⟩
    · unfold runLoadContacts
      split <;> exact fun h => Msg.noConfusion h
    · intro table now m1
      unfold runLoadContacts
      split
      · exact ⟨_, rfl, rfl⟩
      · exact ⟨_, rfl, rfl⟩
  · intro table now m contact message h
    exact Update_contactUpdated_others table now m contact message h

/-! ## Theorems: the cursor of the list and the filtered view -/

/-- C25, evaluated where the code departs from the claim: on the empty
filtered view with the cursor at 0, `G` (and `end`, and `ctrl+d`) sets the
cursor to `len(filtered) - 1 = -1`, which is not 0; the guard
`cursor < len(filtered)` of the handlers that read `filtered[cursor]` then
holds (`-1 < 0`), and `enter`, `d`, `b`, `e`, `s` and `T` index the empty view
at `-1`, which panics. -/
theorem list_keys_on_empty_view :
    (NewModel "contacts".toList).filtered = [] ∧
    (NewModel "contacts".toList).cursor = 0 ∧
    (pressKeys id sampleNow (NewModel "contacts".toList) [runeKey "G"]).map
      (fun m => (m.cursor, m.filtered)) = .ok (-1, []) ∧
    (pressKeys id sampleNow (NewModel "contacts".toList) [namedKey "end"]).map
      (fun m => (m.cursor, m.filtered)) = .ok (-1, []) ∧
    (pressKeys id sampleNow (NewModel "contacts".toList) [namedKey "ctrl+d"]).map
      (fun m => (m.cursor, m.filtered)) = .ok (-1, []) ∧
    (pressKeys id sampleNow (NewModel "contacts".toList) [runeKey "G", enterKey]).map
      (fun m => m.cursor) = .error Fault.panic ∧
    (pressKeys id sampleNow (NewModel "contacts".toList) [runeKey "G", runeKey "d"]).map
      (fun m => m.cursor) = .error Fault.panic ∧
    (pressKeys id sampleNow (NewModel "contacts".toList) [runeKey "G", runeKey "b"]).map
      (fun m => m.cursor) = .error Fault.panic ∧
    (pressKeys id sampleNow (NewModel "contacts".toList) [runeKey "G", runeKey "e"]).map
      (fun m => m.cursor) = .error Fault.panic ∧
    (pressKeys id sampleNow (NewModel "contacts".toList) [runeKey "G", runeKey "s"]).map
      (fun m => m.cursor) = .error Fault.panic ∧
    (pressKeys id sampleNow (NewModel "contacts".toList) [runeKey "G", runeKey "T"]).map
      (fun m => m.cursor) = .error Fault.panic :=
  ⟨rfl, rfl, by rfl, by rfl, by rfl, by rfl, by rfl, by rfl, by rfl, by rfl, by rfl⟩

/-- C26, evaluated where the code departs from the claim: with the type
filter `close` set in the popup the filtered view holds Jane alone; `/` and
then Esc in search mode set the filtered view to the whole base collection
while the type filter is still stored, and so does a `contactsLoadedMsg`;
`applyFilters` on those states would give Jane alone. -/
theorem filtered_view_ignores_stored_filter :
    (pressKeys id sampleNow listOfTwo [runeKey "f", runeKey "c"]).map
      (fun m => (m.filterType, m.filtered)) = .ok ("close".toList, [janeOnDisk]) ∧
    (pressKeys id sampleNow listOfTwo [runeKey "f", runeKey "c", runeKey "/", escKey]).map
      (fun m => (m.searchQuery, m.filterType, m.filtered,
        (applyFilters id sampleNow m).filtered)) =
      .ok ([], "close".toList, [janeOnDisk, acmeContact], [janeOnDisk]) ∧
    ((pressKeys id sampleNow listOfTwo [runeKey "f", runeKey "c"]).bind
      (fun m => Update id sampleNow m (Msg.contactsLoadedMsg [janeOnDisk, acmeContact]))).map
      (fun r => (r.1.filterType, r.1.filtered, (applyFilters id sampleNow r.1).filtered)) =
      .ok ("close".toList, [janeOnDisk, acmeContact], [janeOnDisk]) :=
  ⟨by rfl, by rfl, by rfl⟩

/-- C29, evaluated where the code departs from the claim: in the edit form on
Jane, `t` enters the relationship type field, whose value is `close`; the key
Backspace is handled before the hotkeys of the field and cuts the value to
`clos`, which is none of the seven relationship types, and the save applies
it to the contact.  In the create form the default `network` becomes
`networ`, and the state `ok` becomes `o`. -/
theorem backspace_in_enumerated_field :
    (pressKeys id sampleNow listOfJane [runeKey "e", runeKey "t"]).map
      (fun m => (m.currentView, m.editField, index m.editValues fieldRelationType)) =
      .ok (ViewMode.ViewEdit, fieldRelationType, some (utf8 "close".toList)) ∧
    (pressKeys id sampleNow listOfJane [runeKey "e", runeKey "t", backspaceKey]).map
      (fun m => (m.currentView, m.editField, index m.editValues fieldRelationType)) =
      .ok (ViewMode.ViewEdit, fieldRelationType, some (utf8 "clos".toList)) ∧
    ((pressKeys id sampleNow listOfJane
        [runeKey "e", runeKey "t", backspaceKey, escKey]).bind
      (fun m => editedContact m janeOnDisk sampleLater)).map
      (fun c => c.RelationshipType) = .ok "clos".toList ∧
    (pressKeys id sampleNow listOfJane [runeKey "c", runeKey "t", backspaceKey]).map
      (fun m => (m.currentView, m.editField, index m.editValues fieldRelationType)) =
      .ok (ViewMode.ViewCreate, fieldRelationType, some (utf8 "networ".toList)) ∧
    (pressKeys id sampleNow listOfJane [runeKey "c", runeKey "S", backspaceKey]).map
      (fun m => (m.currentView, m.editField, index m.editValues fieldState)) =
      .ok (ViewMode.ViewCreate, fieldState, some (utf8 "o".toList)) :=
  ⟨by rfl, by rfl, by rfl, by rfl, by rfl⟩

theorem index_of_valid {α : Type} (s : List α) (i : Int) (h0 : 0 ≤ i)
    (h1 : i < (s.length : Int)) : ∃ a : α, index s i = some a := by
  have hlt : i.toNat < s.length := by omega
  refine ⟨s.get ⟨i.toNat, hlt⟩, ?_⟩
  unfold index
  rw [if_pos h0]
  exact List.getElem?_eq_getElem hlt

/-- On a filtered view that is not empty, with the cursor a valid index, no
key of the list view panics and the cursor stays a valid index of the same
filtered view. -/
theorem updateList_cursor_valid (m : Model) (k : KeyMsg)
    (h0 : 0 ≤ m.cursor) (h1 : m.cursor < (m.filtered.length : Int)) :
    ∃ r : Model × Cmd, updateList m k = .ok r ∧ r.1.filtered = m.filtered ∧
      0 ≤ r.1.cursor ∧ r.1.cursor < (r.1.filtered.length : Int) := by
  obtain ⟨c, hc⟩ := index_of_valid m.filtered m.cursor h0 h1
  unfold updateList
  by_cases c0 : k.String = "ctrl+c".toList ∨ k.String = "q".toList
  · rw [if_pos c0]
    exact ⟨_, rfl, rfl, h0, h1⟩
  rw [if_neg c0]
  by_cases c1 : k.String = "j".toList ∨ k.String = "down".toList
  · rw [if_pos c1]
    refine ⟨_, rfl, ?_⟩
    dsimp only
    split_ifs <;> refine ⟨rfl, ?_, ?_⟩ <;> dsimp only <;> omega
  rw [if_neg c1]
  by_cases c2 : k.String = "k".toList ∨ k.String = "up".toList
  · rw [if_pos c2]
    refine ⟨_, rfl, ?_⟩
    dsimp only
    split_ifs <;> refine ⟨rfl, ?_, ?_⟩ <;> dsimp only <;> omega
  rw [if_neg c2]
  by_cases c3 : k.String = "g".toList ∨ k.String = "home".toList
  · rw [if_pos c3]
    refine ⟨_, rfl, rfl, ?_, ?_⟩ <;> dsimp only <;> omega
  rw [if_neg c3]
  by_cases c4 : k.String = "G".toList ∨ k.String = "end".toList
  · rw [if_pos c4]
    refine ⟨_, rfl, rfl, ?_, ?_⟩ <;> dsimp only <;> omega
  rw [if_neg c4]
  by_cases c5 : k.String = "ctrl+d".toList
  · rw [if_pos c5]
    refine ⟨_, rfl, rfl, ?_, ?_⟩ <;> dsimp only <;> split_ifs <;> omega
  rw [if_neg c5]
  by_cases c6 : k.String = "ctrl+u".toList
  · rw [if_pos c6]
    refine ⟨_, rfl, rfl, ?_, ?_⟩ <;> dsimp only <;> split_ifs <;> omega
  rw [if_neg c6]
  by_cases c7 : k.String = "enter".toList
  · rw [if_pos c7]
    rw [if_pos h1, hc]
    exact ⟨_, rfl, rfl, h0, h1⟩
  rw [if_neg c7]
  by_cases c8 : k.String = "/".toList
  · rw [if_pos c8]
    exact ⟨_, rfl, rfl, h0, h1⟩
  rw [if_neg c8]
  by_cases c9 : k.String = "f".toList ∨ k.String = "F".toList
  · rw [if_pos c9]
    exact ⟨_, rfl, rfl, h0, h1⟩
  rw [if_neg c9]
  by_cases c10 : k.String = "d".toList
  · rw [if_pos c10]
    rw [if_pos h1, hc]
    exact ⟨_, rfl, rfl, h0, h1⟩
  rw [if_neg c10]
  by_cases c11 : k.String = "b".toList
  · rw [if_pos c11]
    rw [if_pos h1, hc]
    exact ⟨_, rfl, rfl, h0, h1⟩
  rw [if_neg c11]
  by_cases c12 : k.String = "e".toList
  · rw [if_pos c12]
    rw [if_pos h1, hc]
    exact ⟨_, rfl, rfl, h0, h1⟩
  rw [if_neg c12]
  by_cases c13 : k.String = "c".toList
  · rw [if_pos c13]
    exact ⟨_, rfl, rfl, h0, h1⟩
  rw [if_neg c13]
  by_cases c14 : k.String = "s".toList
  · rw [if_pos c14]
    rw [if_pos h1, hc]
    exact ⟨_, rfl, rfl, h0, h1⟩
  rw [if_neg c14]
  by_cases c15 : k.String = "T".toList
  · rw [if_pos c15]
    rw [if_pos h1, hc]
    exact ⟨_, rfl, rfl, h0, h1⟩
  rw [if_neg c15]
  exact ⟨_, rfl, rfl, h0, h1⟩

/-! ## Theorems: the note of a logged interaction -/

theorem loggedBodySpec_suffix (date t n previous : Str) :
    previous <:+ loggedBodySpec date t n previous := by
  unfold loggedBodySpec
  split_ifs
  · exact List.suffix_refl _
  · exact List.suffix_append _ _

/-- C22: the command of a completed logging workflow with interaction type
`t` and note `n` always delivers a message; either its contact write fails,
it reports that and leaves the file system as it was, or it writes the file
of the contact with, after the header of the logged record, the body
`## <date of now in layout 2006-01-02> - t`, an empty line, `n`, an empty line
and then the previous body when `n` is not empty, and the previous body when
`n` is empty, after which at most the task file is written and the contact
is reloaded; in both cases the previous body is a suffix of the saved body. -/
theorem logged_body (env : Env) (clk : Clock) (fs : FS) (m : Model) (contact : Contact)
    (note : Str) (hn : decodeStrict m.interactionNote = some note) :
    (∃ (msg : Msg) (fs2 : FS),
      runCmd env clk fs (Cmd.logContactInteraction m contact) = .ok (some msg, fs2) ∧
      ((∃ e : SaveError,
          (env.yaml.Marshal (stamped env.table clk.nowName clk.nowStamp
              (loggedContact m contact clk.now note)) = none ∨
            fs.writable (stamped env.table clk.nowName clk.nowStamp contact).FilePath = false) ∧
          msg = Msg.errorMsg (CmdError.save contact.Title e) ∧ fs2 = fs) ∨
       (∃ (header : Str) (fs1 : FS),
          env.yaml.Marshal (stamped env.table clk.nowName clk.nowStamp
              (loggedContact m contact clk.now note)) = some header ∧
          fs.WriteFile (stamped env.table clk.nowName clk.nowStamp contact).FilePath
            (delimiter ++ header ++ delimiter ++
              loggedBodySpec clk.now.Format2006_01_02 m.interactionType note contact.Content) =
            some fs1 ∧
          atMostTaskWritten env fs1 fs2 ∧ reloadedFrom env fs2 contact.FilePath msg))) ∧
    (note ≠ [] →
      loggedBodySpec clk.now.Format2006_01_02 m.interactionType note contact.Content =
        "## ".toList ++ clk.now.Format2006_01_02 ++ " - ".toList ++ m.interactionType ++
          "\n\n".toList ++ note ++ "\n\n".toList ++ contact.Content) ∧
    (note = [] →
      loggedBodySpec clk.now.Format2006_01_02 m.interactionType note contact.Content =
        contact.Content) ∧
    contact.Content <:+
      loggedBodySpec clk.now.Format2006_01_02 m.interactionType note contact.Content := by
  refine ⟨?_, ?_, ?_, loggedBodySpec_suffix _ _ _ _⟩
  · obtain ⟨msg, fs2, hr, hcase⟩ := logContactInteraction_spec env clk fs m contact note hn
    refine ⟨msg, fs2, ?_, ?_⟩
    · show (logContactInteraction env clk fs m contact).map (fun r => (some r.1, r.2)) = _
      rw [hr]
      rfl
    · rcases hcase with ⟨e, hs, hmsg, hfs⟩ | ⟨fs1, hs, hfs, hre⟩
      · refine Or.inl ⟨e, ?_, hmsg, hfs⟩
        rw [← stamped_FilePath_logged env.table clk.nowName clk.nowStamp m contact clk.now note]
        exact SaveContactFile_error _ _ _ _ _ _ _ hs
      · obtain ⟨header, hm, hw⟩ := SaveContactFile_write _ _ _ _ _ _ _ hs
        rw [loggedContact_Content, stamped_FilePath_logged] at hw
        refine Or.inr ⟨header, fs1, hm, hw, ?_, hre⟩
        rw [hfs]
        split_ifs
        · exact annotatedTask_atMost _ _ _ _ _
        · exact Or.inl rfl
  · intro h
    unfold loggedBodySpec
    rw [if_neg h]
  · intro h
    unfold loggedBodySpec
    rw [if_pos h]

/-- Witness of C22: the email with the note `Lunch` logged on Jane at
2024-06-01.  The command leaves her file with the header of the logged
record and a body that opens with the dated heading and the note and ends
with the body Jane had. -/
theorem logged_body_witness :
    decodeStrict loggingJane.interactionNote = some "Lunch".toList ∧
    (runCmd sampleEnv sampleClock emptyFS
        (Cmd.logContactInteraction loggingJane janeOnDisk)).toOption.map
        (fun r => r.2.files janeOnDisk.FilePath) =
      some (some (fileText janeLoggedHeader
        ("## 2024-06-01 - email\n\nLunch\n\n".toList ++ janeOnDisk.Content))) ∧
    loggedBodySpec sampleClock.now.Format2006_01_02 loggingJane.interactionType
        "Lunch".toList janeOnDisk.Content =
      "## 2024-06-01 - email\n\nLunch\n\n".toList ++ janeOnDisk.Content ∧
    ∃ (msg : Msg) (fs2 : FS),
      runCmd sampleEnv sampleClock emptyFS (Cmd.logContactInteraction loggingJane janeOnDisk) =
        .ok (some msg, fs2) ∧
      ((∃ e : SaveError,
          (sampleEnv.yaml.Marshal (stamped sampleEnv.table sampleClock.nowName
              sampleClock.nowStamp
              (loggedContact loggingJane janeOnDisk sampleClock.now "Lunch".toList)) = none ∨
            emptyFS.writable (stamped sampleEnv.table sampleClock.nowName sampleClock.nowStamp
              janeOnDisk).FilePath = false) ∧
          msg = Msg.errorMsg (CmdError.save janeOnDisk.Title e) ∧ fs2 = emptyFS) ∨
       (∃ (header : Str) (fs1 : FS),
          sampleEnv.yaml.Marshal (stamped sampleEnv.table sampleClock.nowName
              sampleClock.nowStamp
              (loggedContact loggingJane janeOnDisk sampleClock.now "Lunch".toList)) =
            some header ∧
          emptyFS.WriteFile (stamped sampleEnv.table sampleClock.nowName sampleClock.nowStamp
              janeOnDisk).FilePath
            (delimiter ++ header ++ delimiter ++
              loggedBodySpec sampleClock.now.Format2006_01_02 loggingJane.interactionType
                "Lunch".toList janeOnDisk.Content) = some fs1 ∧
          atMostTaskWritten sampleEnv fs1 fs2 ∧
          reloadedFrom sampleEnv fs2 janeOnDisk.FilePath msg)) :=
  ⟨by rfl, by decide!, by rfl,
    (logged_body sampleEnv sampleClock emptyFS loggingJane janeOnDisk "Lunch".toList
      (by rfl)).1⟩

/-! ## Theorems: the quick state change -/

/-- C30 as stated fails: in the list showing Jane, who was never contacted,
`s`, `f` and Enter run the logging command with interaction type `note`; the
record it saves and reloads has `lastContacted` set to the time of the change
and `lastInteractionType` set to `note`, so that `DaysSinceContact` goes from
the sentinel `-1` to `0` and Jane is no longer overdue. -/
theorem quick_change_sets_last_contacted :
    pressKeys id sampleNow listOfJane [runeKey "s", runeKey "f"] = .ok quickJane ∧
    Update id sampleNow quickJane (Msg.KeyMsg enterKey) =
      .ok (quickJane, Cmd.logContactInteraction quickJane janeOnDisk) ∧
    (runCmd quickEnv sampleClock emptyFS
        (Cmd.logContactInteraction quickJane janeOnDisk)).toOption.map Prod.fst =
      some (some (Msg.contactUpdatedMsg janeQuick
        "Logged note interaction with Jane Q. Doe (â†’ followup) [task created]".toList)) ∧
    janeOnDisk.LastContacted = none ∧ janeQuick.LastContacted = some sampleLater ∧
    janeOnDisk.LastInteractionType = [] ∧ janeQuick.LastInteractionType = "note".toList ∧
    janeQuick.Content = janeOnDisk.Content ∧
    DaysSinceContact janeOnDisk sampleLater = -1 ∧ DaysSinceContact janeQuick sampleLater = 0 ∧
    IsOverdue janeOnDisk sampleLater = true ∧ IsOverdue janeQuick sampleLater = false :=
  ⟨by rfl, by rfl, by decide!, by rfl, by rfl, by rfl, by rfl, by rfl, by rfl, by rfl, by rfl,
    by rfl⟩

theorem stamped_quick (table : Char → Char) (m : Model) (c : Contact) (st : Str)
    (now nowName nowStamp : Time) (hf : c.FilePath ≠ []) :
    stamped table nowName nowStamp (loggedContact (quickChange m c st) c now []) =
      quickRecord c st now nowStamp := by
  unfold loggedContact stamped
  simp only [ne_eq, not_true_eq_false, if_false, hf]
  rfl

/-- C30, amended: in the list view, on the contact `c` under the cursor, the
key `s`, a state hotkey and Enter run the logging command with type `note`,
the state of the hotkey and no note.  That command always delivers a message:
either the record cannot be encoded or its file not written, the command
reports it and leaves the file system as it was; or it writes the file of `c`
with the header of the record `c` changed in state, `lastContacted` (set to
the time of the change), `lastInteractionType` (set to `note`) and `updatedAt`
only, followed by the body of `c` unchanged, after which at most the task
file is written and the contact is reloaded. -/
theorem quick_state_change (table : Char → Char) (now : Time) (m : Model) (c : Contact)
    (key st : Str)
    (hv : m.currentView = ViewMode.ViewList) (hs : m.searchMode = false)
    (hp : m.showFilterPopup = false) (hi : index m.filtered m.cursor = some c)
    (hk : (key, st) ∈ contactStates) :
    pressKeys table now m [runeKey "s", ⟨KeyType.KeyRunes, key, false⟩] =
      .ok (quickChange m c st) ∧
    Update table now (quickChange m c st) (Msg.KeyMsg enterKey) =
      .ok (quickChange m c st, Cmd.logContactInteraction (quickChange m c st) c) ∧
    (∀ (env : Env) (clk : Clock) (fs : FS), c.FilePath ≠ [] →
      ∃ (msg : Msg) (fs2 : FS),
        runCmd env clk fs (Cmd.logContactInteraction (quickChange m c st) c) =
          .ok (some msg, fs2) ∧
        ((∃ e : SaveError,
            (env.yaml.Marshal (quickRecord c st clk.now clk.nowStamp) = none ∨
              fs.writable c.FilePath = false) ∧
            msg = Msg.errorMsg (CmdError.save c.Title e) ∧ fs2 = fs) ∨
         (∃ (header : Str) (fs1 : FS),
            env.yaml.Marshal (quickRecord c st clk.now clk.nowStamp) = some header ∧
            fs.WriteFile c.FilePath (delimiter ++ header ++ delimiter ++ c.Content) = some fs1 ∧
            atMostTaskWritten env fs1 fs2 ∧ reloadedFrom env fs2 c.FilePath msg))) := by
  have h1 : Update table now m (Msg.KeyMsg (runeKey "s")) =
      .ok ({ m with contactToMark := some c, entryView := m.currentView,
                    currentView := ViewMode.ViewInteractionType, contactLogStep := 1,
                    interactionType := "note".toList, interactionState := [],
                    interactionNote := [] }, Cmd.none) := by
    have hU : Update table now m (Msg.KeyMsg (runeKey "s")) = updateList m (runeKey "s") := by
      unfold Update
      simp only [hv, hs, hp, Bool.false_eq_true, if_false]
    exact hU.trans (updateList_quick_key m c hi)
  have h2 : Update table now
      { m with contactToMark := some c, entryView := m.currentView,
               currentView := ViewMode.ViewInteractionType, contactLogStep := 1,
               interactionType := "note".toList, interactionState := [],
               interactionNote := [] } (Msg.KeyMsg ⟨KeyType.KeyRunes, key, false⟩) =
      .ok (quickChange m c st, Cmd.none) := by
    simp only [contactStates, List.mem_cons, Prod.mk.injEq, List.mem_singleton,
      List.not_mem_nil, or_false] at hk
    rcases hk with ⟨rfl, rfl⟩ | ⟨rfl, rfl⟩ | ⟨rfl, rfl⟩ | ⟨rfl, rfl⟩ | ⟨rfl, rfl⟩ <;> rfl
  refine ⟨?_, by rfl, ?_⟩
  · simp only [pressKeys, h1, h2]
  · intro env clk fs hf
    have hn : decodeStrict (quickChange m c st).interactionNote = some [] := by rfl
    have hst := stamped_quick env.table m c st clk.now clk.nowName clk.nowStamp hf
    have hpath : (quickRecord c st clk.now clk.nowStamp).FilePath = c.FilePath := rfl
    obtain ⟨msg, fs2, hr, hcase⟩ :=
      logContactInteraction_spec env clk fs (quickChange m c st) c [] hn
    refine ⟨msg, fs2, ?_, ?_⟩
    · show (logContactInteraction env clk fs (quickChange m c st) c).map
        (fun r => (some r.1, r.2)) = _
      rw [hr]
      rfl
    · rcases hcase with ⟨e, hsave, hmsg, hfs⟩ | ⟨fs1, hsave, hfs, hre⟩
      · have he := SaveContactFile_error _ _ _ _ _ _ _ hsave
        rw [hst, hpath] at he
        exact Or.inl ⟨e, he, hmsg, hfs⟩
      · obtain ⟨header, hm, hw⟩ := SaveContactFile_write _ _ _ _ _ _ _ hsave
        rw [hst] at hm hw
        rw [hpath] at hw
        have hc : (loggedContact (quickChange m c st) c clk.now []).Content = c.Content := by
          rw [loggedContact_Content]
          rfl
        rw [hc] at hw
        refine Or.inr ⟨header, fs1, hm, hw, ?_, hre⟩
        rw [hfs]
        split_ifs
        · exact annotatedTask_atMost _ _ _ _ _
        · exact Or.inl rfl

/-- Witness of C30: the quick change of Jane to `followup`.  The command
leaves her file with the header of her record changed in state, last contact,
last interaction type and update time, and her body. -/
theorem quick_state_change_witness :
    pressKeys id sampleNow listOfJane [runeKey "s", runeKey "f"] =
      .ok (quickChange listOfJane janeOnDisk "followup".toList) ∧
    quickEnv.yaml.Marshal
        (quickRecord janeOnDisk "followup".toList sampleClock.now sampleClock.nowStamp) =
      some janeQuickHeader ∧
    (runCmd quickEnv sampleClock emptyFS
        (Cmd.logContactInteraction (quickChange listOfJane janeOnDisk "followup".toList)
          janeOnDisk)).toOption.map (fun r => r.2.files janeOnDisk.FilePath) =
      some (some (delimiter ++ janeQuickHeader ++ delimiter ++ janeOnDisk.Content)) ∧
    ∃ (msg : Msg) (fs2 : FS),
      runCmd quickEnv sampleClock emptyFS
          (Cmd.logContactInteraction (quickChange listOfJane janeOnDisk "followup".toList)
            janeOnDisk) = .ok (some msg, fs2) ∧
      ((∃ e : SaveError,
          (quickEnv.yaml.Marshal
              (quickRecord janeOnDisk "followup".toList sampleClock.now sampleClock.nowStamp) =
              none ∨
            emptyFS.writable janeOnDisk.FilePath = false) ∧
          msg = Msg.errorMsg (CmdError.save janeOnDisk.Title e) ∧ fs2 = emptyFS) ∨
       (∃ (header : Str) (fs1 : FS),
          quickEnv.yaml.Marshal
              (quickRecord janeOnDisk "followup".toList sampleClock.now sampleClock.nowStamp) =
            some header ∧
          emptyFS.WriteFile janeOnDisk.FilePath
            (delimiter ++ header ++ delimiter ++ janeOnDisk.Content) = some fs1 ∧
          atMostTaskWritten quickEnv fs1 fs2 ∧
          reloadedFrom quickEnv fs2 janeOnDisk.FilePath msg)) :=
  have h := quick_state_change id sampleNow listOfJane janeOnDisk "f".toList
    "followup".toList rfl rfl rfl rfl (by decide)
  ⟨h.1, by rfl, by decide!, h.2.2 quickEnv sampleClock emptyFS (by decide)⟩

/-! ## Theorems: the file name of a new contact -/

/-- What `saveNewContact` has done when it delivers a `contactUpdatedMsg`: the
record it passed to `SaveContactFile`, and the reload of its file. -/
theorem saveNewContact_updated (env : Env) (clk : Clock) (fs fs2 : FS) (m : Model)
    (saved : Contact) (message : Str)
    (hr : saveNewContact env clk fs m = .ok (Msg.contactUpdatedMsg saved message, fs2)) :
    ∃ name : Str, editText m fieldTitle = .ok name ∧ name ≠ [] ∧
      ParseContactFile env.yaml fs2
        (env.pathJoin m.contactsDir (createFileName env.table clk.now name)) = .ok saved ∧
      ∃ (record : Contact) (fs1 : FS),
        record.Title = name ∧ record.Identifier = clk.now.Format20060102T150405 ∧
        record.Date = clk.now ∧
        record.FilePath = env.pathJoin m.contactsDir (createFileName env.table clk.now name) ∧
        SaveContactFile env.yaml env.table clk.nowName clk.nowStamp fs record = .ok fs1 ∧
        atMostTaskWritten env fs1 fs2 := by
  unfold saveNewContact at hr
  simp only [bind, Except.bind, pure, Except.pure] at hr
  split at hr
  · cases hr
  rename_i name h0
  refine ⟨name, h0, ?_⟩
  split_ifs at hr with hn
  · cases hr
  refine ⟨hn, ?_⟩
  iterate 9 (split at hr <;> first | (cases hr; done) | skip)
  split at hr
  · cases hr
  · cases hr
  split at hr
  · cases hr
  rename_i fs1 hsave
  split at hr
  · cases hr
  rename_i savedContact hparse
  injection hr with hr
  injection hr with h1 h2
  injection h1 with h1 h3
  subst h1 h2
  refine ⟨?_, _, fs1, ?_, ?_, ?_, ?_, hsave, ?_⟩
  · unfold createFileName createSlug
    exact hparse
  · rfl
  · rfl
  · rfl
  · rfl
  · split_ifs
    · exact silentTask_atMost _ _ _ _
    · exact Or.inl rfl

theorem deriveIdentifier_FilePath (path : Str) (c : Contact) :
    (deriveIdentifier path c).FilePath = c.FilePath := by
  unfold deriveIdentifier
  simp only []
  split_ifs <;> rfl

theorem ParseContactFile_path (Y : Yaml) (fs : FS) (path : Str) (c : Contact)
    (h : ParseContactFile Y fs path = .ok c) :
    c.FilePath = path ∧ ∃ content : Str, fs.files path = some content := by
  unfold ParseContactFile at h
  cases hf : fs.files path with
  | none => simp [hf] at h
  | some content =>
    refine ⟨?_, content, rfl⟩
    simp only [hf] at h
    unfold parseParts at h
    split at h
    · split at h
      · cases h
      · split_ifs at h
        injection h with h
        rw [← h, deriveIdentifier_FilePath]
    · cases h

theorem createSlug_cons (table : Char → Char) (c : Char) (name : Str) :
    createSlug table (c :: name) = createSlug table [c] ++ createSlug table name := by
  simp [createSlug, ReplaceAll, ToLower, List.flatMap_cons, List.flatMap_append, List.map_append]

theorem slugSpec_cons (table : Char → Char) (c : Char) (name : Str) :
    slugSpec table (c :: name) = slugSpec table [c] ++ slugSpec table name := by
  simp only [slugSpec, ToLower, List.map_cons, List.map_nil]
  rw [← List.filter_append]
  rfl

theorem ToLower_ascii (table : Char → Char) (s : Str) (h : ∀ x ∈ s, x.toNat ≤ 127) :
    ToLower table s = ToLower id s := by
  unfold ToLower
  apply List.map_congr_left
  intro x hx
  unfold toLowerRune
  rw [if_pos (h x hx), if_pos (h x hx)]

theorem createSlug_plain_char (table : Char → Char) (c : Char) (hc : c ∈ plainAlphabet) :
    createSlug table [c] = slugSpec table [c] := by
  have h1 : ∀ c ∈ plainAlphabet, ∀ x ∈ ReplaceAll [c] ' ' "-".toList, x.toNat ≤ 127 := by
    decide
  have h2 : ∀ c ∈ plainAlphabet, ∀ x ∈ [c], x.toNat ≤ 127 := by decide
  have h3 : ∀ c ∈ plainAlphabet, createSlug id [c] = slugSpec id [c] := by decide
  have e1 : createSlug table [c] = createSlug id [c] := by
    unfold createSlug
    rw [ToLower_ascii table _ (h1 c hc)]
  have e2 : slugSpec table [c] = slugSpec id [c] := by
    unfold slugSpec
    rw [ToLower_ascii table _ (h2 c hc)]
  rw [e1, e2, h3 c hc]

theorem createSlug_plain (table : Char → Char) (name : Str)
    (h : ∀ c ∈ name, c ∈ plainAlphabet) : createSlug table name = slugSpec table name := by
  induction name with
  | nil => rfl
  | cons c name ih =>
    rw [createSlug_cons, slugSpec_cons, createSlug_plain_char table c (h c (List.mem_cons_self _ _)),
      ih (fun x hx => h x (List.mem_cons_of_mem _ hx))]

theorem slugSpec_alphabet (table : Char → Char) (name : Str) :
    ∀ c ∈ slugSpec table name, c ∈ slugAlphabet := by
  intro c hc
  unfold slugSpec at hc
  have := (List.mem_filter.1 hc).2
  simpa using this
/-- C24 as stated fails: the create form with the name `Bob`, saved at
2024-06-01T12:00:00Z, writes the file `20240601T120000--bob__contact.md` in the
contacts directory, whose date part has 15 characters, while `GenerateFilename`
returns `20240601--bob__contact.md` for that contact, and nothing is written
under that name. -/
theorem create_file_name_has_clock :
    pressKeys id sampleNow listOfJane
        [runeKey "c", runeKey "n", runeKey "B", runeKey "o", runeKey "b", enterKey] =
      .ok createOfBob ∧
    Update id sampleNow createOfBob (Msg.KeyMsg (runeKey "q")) =
      .ok (createOfBob, Cmd.saveNewContact createOfBob) ∧
    (runCmd createEnv sampleClock emptyFS (Cmd.saveNewContact createOfBob)).toOption.map
        (fun r => (r.1, r.2.files "contacts/20240601T120000--bob__contact.md".toList,
          r.2.files "contacts/20240601--bob__contact.md".toList)) =
      some (some (Msg.contactUpdatedMsg bobCreated "Created Bob".toList),
        some (fileText bobHeader []), none) ∧
    GenerateFilename id sampleLater bobCreated = "20240601--bob__contact.md".toList :=
  ⟨by rfl, by rfl, by decide!, by rfl⟩

/-- C24, amended: when the create workflow has saved a contact (the values of
the form being valid UTF-8 text), the file it was written to and reloaded
from is, in the contacts directory, the time of creation in layout
`20060102T150405` (the date `GenerateFilename` uses, `T` and the clock), then
`--`, the slug of the name (spaces to hyphens, lower case, apostrophes and
periods removed) and `__contact.md`; that time of creation is the identifier
of the record the command has passed to `SaveContactFile` under that path,
whose title is the name; for a name of ASCII letters, digits, spaces,
hyphens, periods and apostrophes the slug is the slug `GenerateFilename`
computes and holds characters of `[a-z0-9-]` only. -/
theorem create_file_name (env : Env) (clk : Clock) (fs fs2 : FS) (m : Model)
    (saved : Contact) (message : Str)
    (hr : saveNewContact env clk fs m = .ok (Msg.contactUpdatedMsg saved message, fs2)) :
    ∃ name : Str, editText m fieldTitle = .ok name ∧ name ≠ [] ∧
      saved.FilePath = env.pathJoin m.contactsDir (createFileName env.table clk.now name) ∧
      (∃ content : Str, fs2.files saved.FilePath = some content) ∧
      createFileName env.table clk.now name =
        clk.now.Format20060102 ++ ['T'] ++
          (appendInt clk.now.Clock.1 2 ++ appendInt clk.now.Clock.2.1 2 ++
            appendInt clk.now.Clock.2.2 2) ++
          "--".toList ++ createSlug env.table name ++ "__contact.md".toList ∧
      (∃ (record : Contact) (fs1 : FS),
        record.Title = name ∧
        record.Identifier =
          clk.now.Format20060102 ++ ['T'] ++
            (appendInt clk.now.Clock.1 2 ++ appendInt clk.now.Clock.2.1 2 ++
              appendInt clk.now.Clock.2.2 2) ∧
        record.FilePath = saved.FilePath ∧
        createFileName env.table clk.now name =
          record.Identifier ++ "--".toList ++ createSlug env.table name ++
            "__contact.md".toList ∧
        SaveContactFile env.yaml env.table clk.nowName clk.nowStamp fs record = .ok fs1 ∧
        atMostTaskWritten env fs1 fs2) ∧
      ((∀ c ∈ name, c ∈ plainAlphabet) →
        createSlug env.table name = slugSpec env.table name ∧
        ∀ c ∈ createSlug env.table name, c ∈ slugAlphabet) := by
  obtain ⟨name, h0, hn, hparse, record, fs1, hT, hI, _, hP, hsave, hat⟩ :=
    saveNewContact_updated env clk fs fs2 m saved message hr
  obtain ⟨hpath, hfile⟩ := ParseContactFile_path _ _ _ _ hparse
  refine ⟨name, h0, hn, hpath, ?_, ?_, ?_, ?_⟩
  · rw [hpath]
    exact hfile
  · simp [createFileName, Time.Format20060102T150405, List.append_assoc]
  · refine ⟨record, fs1, hT, ?_, hP.trans hpath.symm, ?_, hsave, hat⟩
    · rw [hI]
      simp [Time.Format20060102T150405, List.append_assoc]
    · rw [hI]
      rfl
  · intro hplain
    have e := createSlug_plain env.table name hplain
    refine ⟨e, ?_⟩
    rw [e]
    exact slugSpec_alphabet env.table name

theorem ok_of_toOption_fst (x : Except Fault (Msg × FS)) (msg : Msg)
    (h : x.toOption.map Prod.fst = some msg) : ∃ fs2 : FS, x = .ok (msg, fs2) := by
  cases x with
  | error e => cases h
  | ok r =>
    obtain ⟨a, b⟩ := r
    have e : a = msg := Option.some.inj h
    exact ⟨b, by rw [e]⟩

/-- Witness of C24: the create form with the name `Bob`, saved at
2024-06-01T12:00:00Z: the file name opens with the identifier
`20240601T120000` of the record that was saved. -/
theorem create_file_name_witness :
    ∃ name : Str, editText createOfBob fieldTitle = .ok name ∧ name ≠ [] ∧
      bobCreated.FilePath =
        createEnv.pathJoin createOfBob.contactsDir
          (createFileName createEnv.table sampleClock.now name) ∧
      ∃ (record : Contact) (fs1 : FS),
        record.Title = name ∧ record.Identifier = "20240601T120000".toList ∧
        record.FilePath = bobCreated.FilePath ∧
        createFileName createEnv.table sampleClock.now name =
          record.Identifier ++ "--".toList ++ createSlug createEnv.table name ++
            "__contact.md".toList ∧
        SaveContactFile createEnv.yaml createEnv.table sampleClock.nowName
          sampleClock.nowStamp emptyFS record = .ok fs1 :=
  (ok_of_toOption_fst (saveNewContact createEnv sampleClock emptyFS createOfBob)
    (Msg.contactUpdatedMsg bobCreated "Created Bob".toList) (by decide!)).elim fun fs2 h =>
    (create_file_name createEnv sampleClock emptyFS fs2 createOfBob bobCreated
      "Created Bob".toList h).imp fun _ hx =>
        ⟨hx.1, hx.2.1, hx.2.2.1,
          hx.2.2.2.2.2.1.imp fun _ hy => hy.imp fun _ hz =>
            ⟨hz.1, hz.2.1.trans (by rfl), hz.2.2.1, hz.2.2.2.1, hz.2.2.2.2.1⟩⟩

/-! ## Theorems: the tags through the edit form -/

theorem fieldsAux_append_space (a : Str) (sp : Char) (b cur : Str) (hsp : isSpace sp = true) :
    fieldsAux (a ++ sp :: b) cur = fieldsAux a cur ++ fieldsAux b [] := by
  induction a generalizing cur with
  | nil =>
    simp only [List.nil_append, fieldsAux, hsp, if_true]
    by_cases hc : cur = [] <;> simp [hc]
  | cons c a ih =>
    simp only [List.cons_append, fieldsAux]
    by_cases hc : isSpace c = true
    · by_cases hcur : cur = [] <;> simp [hc, hcur, ih]
    · simp [hc, ih]

theorem Fields_append_space (a : Str) (sp : Char) (b : Str) (hsp : isSpace sp = true) :
    Fields (a ++ sp :: b) = Fields a ++ Fields b :=
  fieldsAux_append_space a sp b [] hsp

theorem Fields_Join (l : List Str) : Fields (Join l " ".toList) = l.flatMap Fields := by
  induction l with
  | nil => rfl
  | cons a l ih =>
    cases l with
    | nil => simp [Join]
    | cons b rest =>
      have e : Join (a :: b :: rest) " ".toList = a ++ ' ' :: Join (b :: rest) " ".toList := by
        simp [Join]
      rw [e, Fields_append_space a ' ' _ (by decide), ih]
      simp [List.flatMap_cons]

theorem Fields_all_space (w : Str) (h : ∀ c ∈ w, isSpace c = true) : Fields w = [] := by
  induction w with
  | nil => rfl
  | cons c w ih =>
    have hc := h c (List.mem_cons_self _ _)
    have := ih (fun x hx => h x (List.mem_cons_of_mem _ hx))
    unfold Fields at this ⊢
    simp [fieldsAux, hc, this]

theorem Fields_append_all_space (u w : Str) (h : ∀ c ∈ w, isSpace c = true) :
    Fields (u ++ w) = Fields u := by
  cases w with
  | nil => simp
  | cons sp w =>
    rw [Fields_append_space u sp w (h sp (List.mem_cons_self _ _)),
      Fields_all_space w (fun x hx => h x (List.mem_cons_of_mem _ hx))]
    simp

theorem Fields_dropWhile (s : Str) : Fields (s.dropWhile isSpace) = Fields s := by
  induction s with
  | nil => rfl
  | cons c s ih =>
    by_cases hc : isSpace c = true
    · rw [List.dropWhile_cons_of_pos hc, ih]
      unfold Fields
      simp [fieldsAux, hc]
    · rw [List.dropWhile_cons_of_neg hc]

theorem Fields_dropWhile_end (t : Str) :
    Fields (t.reverse.dropWhile isSpace).reverse = Fields t := by
  have e : t = (t.reverse.dropWhile isSpace).reverse ++ (t.reverse.takeWhile isSpace).reverse := by
    rw [← List.reverse_append, List.takeWhile_append_dropWhile, List.reverse_reverse]
  conv_rhs => rw [e]
  rw [Fields_append_all_space]
  intro c hc
  exact List.mem_takeWhile_imp (List.mem_reverse.1 hc)

theorem Fields_TrimSpace (s : Str) : Fields (TrimSpace s) = Fields s := by
  unfold TrimSpace
  rw [Fields_dropWhile_end, Fields_dropWhile]

theorem fieldsAux_clean (s cur : Str) (hcur : ∀ c ∈ cur, isSpace c = false) :
    ∀ x ∈ fieldsAux s cur, x ≠ [] ∧ ∀ c ∈ x, isSpace c = false := by
  induction s generalizing cur with
  | nil =>
    intro x hx
    unfold fieldsAux at hx
    split_ifs at hx with h
    · cases hx
    · rw [List.mem_singleton] at hx
      subst hx
      exact ⟨h, hcur⟩
  | cons c s ih =>
    intro x hx
    unfold fieldsAux at hx
    by_cases hc : isSpace c = true
    · rw [if_pos hc] at hx
      split_ifs at hx with h
      · exact ih [] (fun _ h => absurd h (List.not_mem_nil _)) x hx
      · rcases List.mem_cons.1 hx with e | hx'
        · subst e
          exact ⟨h, hcur⟩
        · exact ih [] (fun _ h => absurd h (List.not_mem_nil _)) x hx'
    · rw [if_neg hc] at hx
      refine ih (cur ++ [c]) ?_ x hx
      intro y hy
      rcases List.mem_append.1 hy with h | h
      · exact hcur y h
      · rw [List.mem_singleton] at h
        subst h
        simpa using hc

theorem Fields_clean (s : Str) : ∀ x ∈ Fields s, x ≠ [] ∧ ∀ c ∈ x, isSpace c = false :=
  fieldsAux_clean s [] (fun _ h => absurd h (List.not_mem_nil _))

theorem fieldsAux_of_clean (x cur : Str) (hx : ∀ c ∈ x, isSpace c = false)
    (hne : cur ++ x ≠ []) : fieldsAux x cur = [cur ++ x] := by
  induction x generalizing cur with
  | nil =>
    unfold fieldsAux
    have : cur ≠ [] := by simpa using hne
    simp [this]
  | cons c x ih =>
    unfold fieldsAux
    have hc : isSpace c = false := hx c (List.mem_cons_self _ _)
    simp only [hc, Bool.false_eq_true, if_false]
    rw [ih (cur ++ [c]) (fun y hy => hx y (List.mem_cons_of_mem _ hy)) (by simp)]
    simp

theorem Fields_of_clean (x : Str) (hne : x ≠ []) (hx : ∀ c ∈ x, isSpace c = false) :
    Fields x = [x] := by
  have := fieldsAux_of_clean x [] hx (by simpa using hne)
  simpa [Fields] using this

theorem flatMap_Fields_of_clean (l : List Str)
    (h : ∀ x ∈ l, x ≠ [] ∧ ∀ c ∈ x, isSpace c = false) : l.flatMap Fields = l := by
  induction l with
  | nil => rfl
  | cons a l ih =>
    rw [List.flatMap_cons, Fields_of_clean a (h a (List.mem_cons_self _ _)).1
      (h a (List.mem_cons_self _ _)).2, ih (fun x hx => h x (List.mem_cons_of_mem _ hx))]
    rfl

theorem retag_eq (tags : List Str) :
    retag tags = contactTag ::
      ((((tags.filter (fun tag => tag ≠ contactTag)).flatMap Fields).map
        (fun tag => TrimPrefix tag "#".toList)).filter
        (fun tag => tag ≠ [] ∧ tag ≠ contactTag)) := by
  unfold retag rebuildTags
  rw [Fields_TrimSpace, Fields_Join]

theorem TrimPrefix_hash_clean (x : Str) (h : ∀ c ∈ x, isSpace c = false) :
    ∀ c ∈ TrimPrefix x "#".toList, isSpace c = false := by
  intro c hc
  unfold TrimPrefix at hc
  split_ifs at hc
  · exact h c (List.mem_of_mem_drop hc)
  · exact h c hc

theorem TrimPrefix_hash_id (y : Str) (h : HasPrefix y "#".toList = false) :
    TrimPrefix y "#".toList = y := by
  unfold TrimPrefix
  rw [h]
  rfl

theorem TrimPrefix_hash_once (x : Str) (h : HasPrefix x "##".toList = false) :
    HasPrefix (TrimPrefix x "#".toList) "#".toList = false := by
  cases x with
  | nil => rfl
  | cons c t =>
    by_cases hc : c = '#'
    · subst hc
      have e : TrimPrefix ('#' :: t) "#".toList = t := by
        simp [TrimPrefix, HasPrefix]
      rw [e]
      simpa [HasPrefix] using h
    · have e : HasPrefix (c :: t) "#".toList = false := by
        simp [HasPrefix, hc]
      rw [TrimPrefix_hash_id _ e]
      exact e

theorem retag_members (tags : List Str)
    (h : ∀ t ∈ tags, ∀ x ∈ Fields t, HasPrefix x "##".toList = false) :
    ∀ y ∈ ((((tags.filter (fun tag => tag ≠ contactTag)).flatMap Fields).map
        (fun tag => TrimPrefix tag "#".toList)).filter
        (fun tag => tag ≠ [] ∧ tag ≠ contactTag)),
      (y ≠ [] ∧ y ≠ contactTag) ∧ (∀ c ∈ y, isSpace c = false) ∧
        HasPrefix y "#".toList = false := by
  intro y hy
  obtain ⟨hmap, hkeep⟩ := List.mem_filter.1 hy
  obtain ⟨x, hx, rfl⟩ := List.mem_map.1 hmap
  obtain ⟨t, ht, hxt⟩ := List.mem_flatMap.1 hx
  have ht' : t ∈ tags := (List.mem_filter.1 ht).1
  refine ⟨by simpa using hkeep, TrimPrefix_hash_clean x (Fields_clean t x hxt).2, ?_⟩
  exact TrimPrefix_hash_once x (h t ht' x hxt)

theorem retag_count (tags : List Str) : (retag tags).count contactTag = 1 := by
  rw [retag_eq, List.count_cons_self, Nat.succ_inj', List.count_eq_zero]
  intro hmem
  have := (List.mem_filter.1 hmem).2
  simp at this

theorem retag_retag (tags : List Str)
    (h : ∀ t ∈ tags, ∀ x ∈ Fields t, HasPrefix x "##".toList = false) :
    retag (retag tags) = retag tags := by
  have hL := retag_members tags h
  rw [retag_eq tags]
  generalize ((((tags.filter (fun tag => tag ≠ contactTag)).flatMap Fields).map
        (fun tag => TrimPrefix tag "#".toList)).filter
        (fun tag => tag ≠ [] ∧ tag ≠ contactTag)) = L at hL
  rw [retag_eq]
  have e1 : (contactTag :: L).filter (fun tag => tag ≠ contactTag) = L := by
    rw [List.filter_cons_of_neg (by simp)]
    apply List.filter_eq_self.2
    intro y hy
    simpa using (hL y hy).1.2
  have e2 : L.flatMap Fields = L :=
    flatMap_Fields_of_clean L (fun y hy => ⟨(hL y hy).1.1, (hL y hy).2.1⟩)
  have e3 : L.map (fun tag => TrimPrefix tag "#".toList) = L := by
    conv_rhs => rw [← List.map_id L]
    apply List.map_congr_left
    intro y hy
    exact TrimPrefix_hash_id y (hL y hy).2.2
  have e4 : L.filter (fun tag => tag ≠ [] ∧ tag ≠ contactTag) = L := by
    apply List.filter_eq_self.2
    intro y hy
    simpa using (hL y hy).1
  rw [e1, e2, e3, e4]

/-! ## Theorems: UTF-8 encoding and strict decoding -/

theorem Char_toNat_valid (c : Char) :
    c.toNat < 55296 ∨ (57343 < c.toNat ∧ c.toNat < 1114112) := by
  have h := c.valid
  unfold UInt32.isValidChar Nat.isValidChar at h
  exact h

theorem DecodeRune_encodeRune (c : Char) (rest : Bytes) :
    DecodeRune (encodeRune c ++ rest) = (c, (encodeRune c).length) := by
  have hv := Char_toNat_valid c
  have hc : Char.ofNat c.toNat = c := Char.ofNat_toNat c
  unfold encodeRune
  simp only []
  generalize c.toNat = n at hv hc ⊢
  have hsz : UInt8.size = 256 := rfl
  by_cases h1 : n < 128
  · have e0 : (UInt8.ofNat n).toNat = n := UInt8.toNat_ofNat_of_lt (by omega)
    simp only [h1, if_true, List.cons_append, List.nil_append, DecodeRune, e0, hc,
      List.length_singleton]
  by_cases h2 : n < 2048
  · have e0 : (UInt8.ofNat (192 + n / 64)).toNat = 192 + n / 64 :=
      UInt8.toNat_ofNat_of_lt (by omega)
    have e1 : (UInt8.ofNat (128 + n % 64)).toNat = 128 + n % 64 :=
      UInt8.toNat_ofNat_of_lt (by omega)
    have en : (192 + n / 64) % 32 * 64 + (128 + n % 64) % 64 = n := by omega
    have k0 : ¬ 192 + n / 64 < 128 := by omega
    have k1 : ¬ (192 + n / 64 < 194 ∨ 244 < 192 + n / 64) := by omega
    have k2 : 192 + n / 64 < 224 := by omega
    have k3 : ¬ 192 + n / 64 = 224 := by omega
    have k4 : ¬ 192 + n / 64 = 240 := by omega
    have k5 : ¬ 192 + n / 64 = 237 := by omega
    have k6 : ¬ 192 + n / 64 = 244 := by omega
    have k7 : ¬ rest.length + 1 + 1 < 2 := by omega
    have k8 : ¬ (128 + n % 64 < 128 ∨ 191 < 128 + n % 64) := by omega
    simp only [h1, h2, if_true, if_false, List.cons_append, List.nil_append, DecodeRune, e0, e1,
      List.length_cons, List.length_nil, k0, k1, k2, k3, k4, k5, k6, k7, k8, en, hc, le_refl]
  by_cases h3 : n < 65536
  · have e0 : (UInt8.ofNat (224 + n / 4096)).toNat = 224 + n / 4096 :=
      UInt8.toNat_ofNat_of_lt (by omega)
    have e1 : (UInt8.ofNat (128 + n / 64 % 64)).toNat = 128 + n / 64 % 64 :=
      UInt8.toNat_ofNat_of_lt (by omega)
    have e2 : (UInt8.ofNat (128 + n % 64)).toNat = 128 + n % 64 :=
      UInt8.toNat_ofNat_of_lt (by omega)
    have en : (224 + n / 4096) % 16 * 4096 + (128 + n / 64 % 64) % 64 * 64 +
        (128 + n % 64) % 64 = n := by omega
    have k0 : ¬ 224 + n / 4096 < 128 := by omega
    have k1 : ¬ (224 + n / 4096 < 194 ∨ 244 < 224 + n / 4096) := by omega
    have k2 : ¬ 224 + n / 4096 < 224 := by omega
    have k2' : 224 + n / 4096 < 240 := by omega
    have k4 : ¬ 224 + n / 4096 = 240 := by omega
    have k6 : ¬ 224 + n / 4096 = 244 := by omega
    have k7 : ¬ rest.length + 1 + 1 + 1 < 3 := by omega
    have k8 : ¬ ((128 + n / 64 % 64 < if 224 + n / 4096 = 224 then 160 else 128) ∨
        (if 224 + n / 4096 = 237 then 159 else 191) < 128 + n / 64 % 64) := by
      split_ifs <;> omega
    have k9 : ¬ (128 + n % 64 < 128 ∨ 191 < 128 + n % 64) := by omega
    have k10 : ¬ 3 ≤ 2 := by omega
    simp only [h1, h2, h3, if_true, if_false, List.cons_append, List.nil_append, DecodeRune, e0,
      e1, e2, List.length_cons, List.length_nil, k0, k1, k2, k2', k4, k6, k7, k8, k9, k10, en,
      hc, le_refl]
  · have h4 : n < 1114112 := by omega
    have e0 : (UInt8.ofNat (240 + n / 262144)).toNat = 240 + n / 262144 :=
      UInt8.toNat_ofNat_of_lt (by omega)
    have e1 : (UInt8.ofNat (128 + n / 4096 % 64)).toNat = 128 + n / 4096 % 64 :=
      UInt8.toNat_ofNat_of_lt (by omega)
    have e2 : (UInt8.ofNat (128 + n / 64 % 64)).toNat = 128 + n / 64 % 64 :=
      UInt8.toNat_ofNat_of_lt (by omega)
    have e3 : (UInt8.ofNat (128 + n % 64)).toNat = 128 + n % 64 :=
      UInt8.toNat_ofNat_of_lt (by omega)
    have en : (240 + n / 262144) % 8 * 262144 + (128 + n / 4096 % 64) % 64 * 4096 +
        (128 + n / 64 % 64) % 64 * 64 + (128 + n % 64) % 64 = n := by omega
    have k0 : ¬ 240 + n / 262144 < 128 := by omega
    have k1 : ¬ (240 + n / 262144 < 194 ∨ 244 < 240 + n / 262144) := by omega
    have k2 : ¬ 240 + n / 262144 < 224 := by omega
    have k2' : ¬ 240 + n / 262144 < 240 := by omega
    have k3 : ¬ 240 + n / 262144 = 224 := by omega
    have k5 : ¬ 240 + n / 262144 = 237 := by omega
    have k7 : ¬ rest.length + 1 + 1 + 1 + 1 < 4 := by omega
    have k8 : ¬ ((128 + n / 4096 % 64 < if 240 + n / 262144 = 240 then 144 else 128) ∨
        (if 240 + n / 262144 = 244 then 143 else 191) < 128 + n / 4096 % 64) := by
      split_ifs <;> omega
    have k9 : ¬ (128 + n / 64 % 64 < 128 ∨ 191 < 128 + n / 64 % 64) := by omega
    have k9' : ¬ (128 + n % 64 < 128 ∨ 191 < 128 + n % 64) := by omega
    have k10 : ¬ 4 ≤ 2 := by omega
    have k11 : ¬ 4 ≤ 3 := by omega
    simp only [h1, h2, h3, if_true, if_false, List.cons_append, List.nil_append, DecodeRune, e0,
      e1, e2, e3, List.length_cons, List.length_nil, k0, k1, k2, k2', k3, k5, k7, k8, k9, k9',
      k10, k11, en, hc, le_refl]

theorem encodeRune_ne_nil (c : Char) : encodeRune c ≠ [] := by
  unfold encodeRune
  simp only []
  split_ifs <;> simp

theorem runesAux_utf8 (s : Str) : ∀ fuel : Nat, (utf8 s).length ≤ fuel →
    runesAux fuel (utf8 s) = s := by
  induction s with
  | nil =>
    intro fuel _
    cases fuel <;> rfl
  | cons c s ih =>
    intro fuel hfuel
    have hu : utf8 (c :: s) = encodeRune c ++ utf8 s := by
      simp [utf8, List.flatMap_cons]
    rw [hu] at hfuel ⊢
    have hd := DecodeRune_encodeRune c (utf8 s)
    obtain ⟨b, t, hbt⟩ : ∃ b t, encodeRune c = b :: t := by
      cases h : encodeRune c with
      | nil => exact absurd h (encodeRune_ne_nil c)
      | cons b t => exact ⟨b, t, rfl⟩
    rw [hbt] at hd hfuel ⊢
    rw [List.cons_append] at hd hfuel ⊢
    cases fuel with
    | zero => simp at hfuel
    | succ f =>
      simp only [runesAux, hd]
      rw [← List.cons_append, ← hbt, List.drop_left]
      rw [ih f]
      simp only [List.length_cons, List.length_append] at hfuel
      omega

theorem decodeStrict_utf8 (s : Str) : decodeStrict (utf8 s) = some s := by
  have h : runes (utf8 s) = s := runesAux_utf8 s _ (le_refl _)
  unfold decodeStrict
  rw [h, if_pos rfl]

/-! ## Theorems: the note of the logging flow is text -/

theorem encodeRune_ascii (b : UInt8) (h : b.toNat < 128) :
    encodeRune (Char.ofNat b.toNat) = [b] := by
  have hv : (Char.ofNat b.toNat).toNat = b.toNat := by
    have : b.toNat.isValidChar := Or.inl (by omega)
    simp only [Char.ofNat, this, Char.toNat, Char.ofNatAux, dif_pos]
    rfl
  unfold encodeRune
  simp only [hv, if_pos h]
  congr 1
  apply UInt8.eq_of_val_eq
  apply Fin.ext
  show b.toNat % 256 = b.toNat
  have := b.toNat_lt
  omega

theorem utf8_ascii (b : Bytes) (h : asciiBytes b) :
    utf8 (b.map (fun x => Char.ofNat x.toNat)) = b := by
  induction b with
  | nil => rfl
  | cons x rest ih =>
    have hx := h x (List.mem_cons_self _ _)
    have hr : asciiBytes rest := fun y hy => h y (List.mem_cons_of_mem _ hy)
    have e : utf8 ((x :: rest).map (fun x => Char.ofNat x.toNat)) =
        encodeRune (Char.ofNat x.toNat) ++ utf8 (rest.map (fun x => Char.ofNat x.toNat)) := by
      simp [utf8]
    rw [e, encodeRune_ascii x hx, ih hr]
    rfl

/-- A text of ASCII bytes is valid UTF-8. -/
theorem decodeStrict_ascii (b : Bytes) (h : asciiBytes b) :
    decodeStrict b = some (b.map (fun x => Char.ofNat x.toNat)) := by
  have e := decodeStrict_utf8 (b.map (fun x => Char.ofNat x.toNat))
  rw [utf8_ascii b h] at e
  exact e

theorem encodeRune_one (c : Char) (h : (encodeRune c).length = 1) :
    asciiBytes (encodeRune c) := by
  unfold encodeRune at h ⊢
  simp only [] at h ⊢
  split_ifs at h ⊢ with h1
  · intro x hx
    rw [List.mem_singleton] at hx
    subst hx
    show (UInt8.ofNat c.toNat).toNat < 128
    have : (UInt8.ofNat c.toNat).toNat = c.toNat % 256 := rfl
    rw [this]
    omega
  all_goals simp at h

theorem utf8_one (s : Str) (h : (utf8 s).length = 1) : asciiBytes (utf8 s) := by
  cases s with
  | nil => simp [utf8] at h
  | cons c rest =>
    have e : utf8 (c :: rest) = encodeRune c ++ utf8 rest := by simp [utf8]
    rw [e] at h ⊢
    have hc : 0 < (encodeRune c).length := List.length_pos.2 (encodeRune_ne_nil c)
    rw [List.length_append] at h
    have hr : utf8 rest = [] := List.length_eq_zero.1 (by omega)
    rw [hr] at h
    rw [hr, List.append_nil]
    exact encodeRune_one c (by simpa using h)

/-- The logging flow keeps the note ASCII: a key of the note step appends one
byte, Backspace drops one, and the other keys leave the note or clear it. -/
theorem updateInteractionType_note_ascii (m : Model) (k : KeyMsg)
    (h : asciiBytes m.interactionNote) :
    asciiBytes (updateInteractionType m k).1.interactionNote := by
  have hnil : asciiBytes [] := fun x hx => absurd hx (List.not_mem_nil x)
  by_cases h0 : m.contactLogStep = 0
  · rw [updateInteractionType_step0 m k h0]
    split_ifs
    · exact hnil
    · split
      · exact h
      · exact h
    · exact h
  by_cases h1 : m.contactLogStep = 1
  · rw [updateInteractionType_step1 m k h1]
    split_ifs
    · exact h
    · exact hnil
    · split
      · exact h
      · exact h
    · exact h
  by_cases h2 : m.contactLogStep = 2
  · rw [updateInteractionType_step2 m k h2]
    split_ifs with _ _ _ _ _ _ ha
    · exact hnil
    · exact hnil
    · exact h
    · exact h
    · exact fun x hx => h x (List.mem_of_mem_dropLast hx)
    · exact h
    · intro x hx
      rcases List.mem_append.1 hx with hx | hx
      · exact h x hx
      · exact utf8_one k.String ha.1 x hx
    · exact h
  · unfold updateInteractionType
    rw [if_neg h0, if_neg h1, if_neg h2]
    exact h

/-- In a model whose note is ASCII, as the logging flow builds it from the
empty note, the note is read as text. -/
theorem logging_note_is_text (m : Model) (k : KeyMsg) (h : asciiBytes m.interactionNote) :
    ∃ note : Str, decodeStrict (updateInteractionType m k).1.interactionNote = some note :=
  ⟨_, decodeStrict_ascii _ (updateInteractionType_note_ascii m k h)⟩

/-! ## Theorems: the tags of the edit form, on the code -/

theorem editText_of_utf8 (m : Model) (field : Int) (s : Str)
    (h : index m.editValues field = some (utf8 s)) : editText m field = .ok (TrimSpace s) := by
  unfold editText
  rw [h]
  simp only [decodeStrict_utf8]

/-- A form of ten or more values that are all valid UTF-8 text is read by
`saveEditedContact` without a fault: validity of the text is the only
condition under which the embedding follows the code into the save. -/
theorem editedContact_of_text (m : Model) (old : Contact) (now : Time) (vals : List Str)
    (hv : m.editValues = vals.map utf8) (hl : 10 ≤ vals.length) :
    ∃ contact : Contact, editedContact m old now = .ok contact := by
  obtain ⟨v0, v1, v2, v3, v4, v5, v6, v7, v8, v9, rest, rfl⟩ :
      ∃ v0 v1 v2 v3 v4 v5 v6 v7 v8 v9 rest,
        vals = v0 :: v1 :: v2 :: v3 :: v4 :: v5 :: v6 :: v7 :: v8 :: v9 :: rest := by
    match vals, hl with
    | v0 :: v1 :: v2 :: v3 :: v4 :: v5 :: v6 :: v7 :: v8 :: v9 :: rest, _ =>
      exact ⟨v0, v1, v2, v3, v4, v5, v6, v7, v8, v9, rest, rfl⟩
  unfold editedContact
  rw [editText_of_utf8 m fieldTitle v0 (by rw [hv]; rfl),
    editText_of_utf8 m fieldEmail v1 (by rw [hv]; rfl),
    editText_of_utf8 m fieldPhone v2 (by rw [hv]; rfl),
    editText_of_utf8 m fieldCompany v3 (by rw [hv]; rfl),
    editText_of_utf8 m fieldRole v4 (by rw [hv]; rfl),
    editText_of_utf8 m fieldLocation v5 (by rw [hv]; rfl),
    editText_of_utf8 m fieldRelationType v6 (by rw [hv]; rfl),
    editText_of_utf8 m fieldContactStyle v7 (by rw [hv]; rfl),
    editText_of_utf8 m fieldState v8 (by rw [hv]; rfl),
    editText_of_utf8 m fieldTags v9 (by rw [hv]; simp [index, fieldTags])]
  exact ⟨_, rfl⟩

theorem editedContact_form_tags (c : Contact) (now : Time) :
    (editedContact (editFormOf c) c now).map (fun e => e.Tags) = .ok (retag c.Tags) := by
  unfold editedContact
  rw [editText_of_utf8 (editFormOf c) fieldTitle c.Title rfl,
    editText_of_utf8 (editFormOf c) fieldEmail c.Email rfl,
    editText_of_utf8 (editFormOf c) fieldPhone c.Phone rfl,
    editText_of_utf8 (editFormOf c) fieldCompany c.Company rfl,
    editText_of_utf8 (editFormOf c) fieldRole c.Role rfl,
    editText_of_utf8 (editFormOf c) fieldLocation c.Location rfl,
    editText_of_utf8 (editFormOf c) fieldRelationType c.RelationshipType rfl,
    editText_of_utf8 (editFormOf c) fieldContactStyle c.ContactStyle rfl,
    editText_of_utf8 (editFormOf c) fieldState c.State rfl,
    editText_of_utf8 (editFormOf c) fieldTags
      (Join (c.Tags.filter (fun tag => tag ≠ contactTag)) " ".toList) rfl]
  rfl

/-- C23 as stated fails: for the tags `contact` and `##vip` the edit form,
saved untouched, rebuilds `contact`, `#vip`; opened and saved once more it
rebuilds `contact`, `vip`, so that strip-then-rebuild applied twice differs
from applying it once. -/
theorem retag_twice_differs :
    janeTagged.Tags = [contactTag, "##vip".toList] ∧
    (editedContact (editFormOf janeTagged) janeTagged sampleLater).map (fun e => e.Tags) =
      .ok [contactTag, "#vip".toList] ∧
    ((editedContact (editFormOf janeTagged) janeTagged sampleLater).bind
      (fun e => editedContact (editFormOf e) e sampleLater)).map (fun e => e.Tags) =
      .ok [contactTag, "vip".toList] ∧
    retag janeTagged.Tags = [contactTag, "#vip".toList] ∧
    retag (retag janeTagged.Tags) = [contactTag, "vip".toList] :=
  ⟨by rfl, by rfl, by rfl, by rfl, by rfl⟩

/-- C23, amended: an edit that leaves the tags field as the form filled it
saves the tag list `retag` of the tags; that list always contains `contact`
exactly once, at its head; and for every tag list in which no
space-separated entry begins with `##`, strip-then-rebuild applied twice
gives the same list as applied once. -/
theorem tags_through_edit :
    (∀ (c : Contact) (now : Time),
      (editedContact (editFormOf c) c now).map (fun e => e.Tags) = .ok (retag c.Tags)) ∧
    (∀ tags : List Str,
      (retag tags).count contactTag = 1 ∧ (retag tags).head? = some contactTag) ∧
    (∀ tags : List Str,
      (∀ t ∈ tags, ∀ x ∈ Fields t, HasPrefix x "##".toList = false) →
      retag (retag tags) = retag tags) :=
  ⟨editedContact_form_tags,
    fun tags => ⟨retag_count tags, by rw [retag_eq]; rfl⟩,
    retag_retag⟩

/-- Witness of C23: the tags `contact`, `#vip` and `old friends`. -/
theorem tags_through_edit_witness :
    retag [contactTag, "#vip".toList, "old friends".toList] =
      [contactTag, "vip".toList, "old".toList, "friends".toList] ∧
    retag (retag [contactTag, "#vip".toList, "old friends".toList]) =
      retag [contactTag, "#vip".toList, "old friends".toList] :=
  ⟨by rfl, tags_through_edit.2.2 [contactTag, "#vip".toList, "old friends".toList]
    (by decide)⟩



end DenoteContacts
